import Mathlib

/-!
# Urho3D software audio mixer: shallow embedding and verified properties

The development embeds the SDL (non-OpenAL) code path of
`Source/Engine/Audio/Sound.cpp`, `SoundSource.cpp` and `Audio.cpp`.

Conventions of the embedding.

* Pointers are addresses held in `Int`; the null pointer is `0`.  A pointer to
  `short` is kept as its byte address and pointer arithmetic on it is scaled by
  the element size (`es = 2`); pointers to `signed char` use `es = 1`.  The
  pointer difference `end - repeat` is the address difference, which is what
  the C++ expression denotes for pointers aligned to the element size.
* Buffers are maps from an offset to a cell value.  Sample data is kept byte by
  byte (cells hold `signed char` values); 16-bit samples are read little-endian.
* `int` arithmetic on accumulated sample values wraps to 32 bits (`wrap32`);
  `/` on `int` is truncating division (`Int.tdiv`).
* `float` expressions are evaluated in exact rational arithmetic; `(int)x` is
  truncation toward zero (`truncQ`).  Rounding of `float` is not modelled.
* A loop that does not terminate in C++ makes the embedded function return
  `none`.
-/

namespace Urho3D

/-! ## Machine arithmetic -/

/-- Reduction of an integer to the signed 32-bit range (two's complement). -/
def wrap32 (x : Int) : Int := (x + 2147483648) % 4294967296 - 2147483648

/-- The conversion `(int)x` of a float value: truncation toward zero. -/
def truncQ (q : ℚ) : Int := if 0 ≤ q then ⌊q⌋ else -⌊-q⌋

/-- The conversion `(int)n` of an `unsigned` value (below `2^32`). -/
def toInt (n : Nat) : Int := if n < 2147483648 then (n : Int) else (n : Int) - 4294967296

/-- The conversion of an `int` value to `unsigned`. -/
def toUnsigned (x : Int) : Nat := if 0 ≤ x then x.toNat else (x + 4294967296).toNat

/-- The value `Clamp(value, min, max)` of the math library.
Modelled from the spec: `Clamp` is declared in the math header, which is not
part of the sources at hand; the spec calls it hard clipping to the
representable range (saturation). -/
def Clamp {α : Type} [LinearOrder α] (value lo hi : α) : α :=
  if value < lo then lo else if value > hi then hi else value

/-- The interpolation safety margin of `Sound.cpp`, in bytes. -/
def IP_SAFETY : Nat := 4

/-- Length of the decode buffer in milliseconds.
Modelled from the spec: the constant `DECODE_BUFFER_LENGTH` is declared in a
header that is not part of the sources at hand; the spec gives 100 ms. -/
def DECODE_BUFFER_LENGTH : Nat := 100

/-! ## Sound (sample buffer) -/

/-- The fields of `Sound` that the mixer uses.  `start` is `data_.Get()`;
`mem` gives the byte stored at an offset from `start`. -/
structure Sound where
  objectId : Nat
  start : Int
  mem : Int → Int
  repeat_ : Int
  end_ : Int
  dataSize_ : Nat
  frequency_ : Nat
  looped_ : Bool
  sixteenBit_ : Bool
  stereo_ : Bool
  compressed_ : Bool
  compressedLength_ : ℚ

namespace Sound

/-- The state set up by the constructor `Sound::Sound`. -/
def new (objectId : Nat) : Sound :=
  { objectId := objectId, start := 0, mem := fun _ => 0, repeat_ := 0, end_ := 0,
    dataSize_ := 0, frequency_ := 44100, looped_ := false, sixteenBit_ := false,
    stereo_ := false, compressed_ := false, compressedLength_ := 0 }

/-- The byte `*(signed char*)addr`. -/
def byteAt (s : Sound) (addr : Int) : Int := s.mem (addr - s.start)

/-- The sample `*(short*)addr`, little-endian. -/
def shortAt (s : Sound) (addr : Int) : Int :=
  s.byteAt addr % 256 + 256 * s.byteAt (addr + 1)

/-- The element `pos[k]` for a pointer `pos` to elements of `es` bytes. -/
def elemAt (s : Sound) (es : Int) (pos : Int) (k : Int) : Int :=
  if es = 2 then s.shortAt (pos + 2 * k) else s.byteAt (pos + k)

/-- Embedding of `Sound::GetSampleSize`. -/
def GetSampleSize (s : Sound) : Nat :=
  let size := 1
  let size := if s.sixteenBit_ then size * 2 else size
  let size := if s.stereo_ then size * 2 else size
  size

/-- Store of one byte through a pointer into the buffer. -/
def storeByte (s : Sound) (addr : Int) (v : Int) : Sound :=
  { s with mem := Function.update s.mem (addr - s.start) v }

/-- Embedding of `Sound::FixInterpolation`: the four stores are made in the
order of the loop. -/
def FixInterpolation (s : Sound) : Sound :=
  if s.start = 0 then s
  else if s.looped_ then
    (List.range IP_SAFETY).foldl
      (fun t (i : Nat) => t.storeByte (t.end_ + i) (t.byteAt (t.repeat_ + i))) s
  else
    (List.range IP_SAFETY).foldl (fun t (i : Nat) => t.storeByte (t.end_ + i) 0) s

/-- Embedding of `Sound::SetLoop`. -/
def SetLoop (s : Sound) (repeatOffset endOffset : Nat) : Sound :=
  if !s.compressed_ then
    let repeatOffset := if repeatOffset > s.dataSize_ then s.dataSize_ else repeatOffset
    let endOffset := if endOffset > s.dataSize_ then s.dataSize_ else endOffset
    let sampleSize := s.GetSampleSize
    let repeatOffset := repeatOffset &&& (4294967296 - sampleSize)
    let endOffset := endOffset &&& (4294967296 - sampleSize)
    FixInterpolation
      { s with repeat_ := s.start + repeatOffset, end_ := s.start + endOffset, looped_ := true }
  else
    { s with looped_ := true }

/-- Embedding of `Sound::SetLooped`. -/
def SetLooped (s : Sound) (enable : Bool) : Sound :=
  if enable then s.SetLoop 0 s.dataSize_
  else if !s.compressed_ then
    FixInterpolation { s with end_ := s.start + s.dataSize_, looped_ := false }
  else
    { s with looped_ := false }

/-- Length of the array that `new signed char[dataSize + IP_SAFETY]` in
`Sound::SetSize` allocates: the sum is computed in `unsigned`. -/
def allocSize (dataSize : Nat) : Nat := (dataSize + IP_SAFETY) % 4294967296

/-- Embedding of `Sound::SetSize`.  `addr` and `fresh` are the address and the
contents of the array that `new signed char[dataSize + IP_SAFETY]` returns; the
array has `allocSize dataSize` bytes.  The memory map is total, so the stores
of `FixInterpolation` at `end_[0..3]` are modelled also when they fall outside
the array; they fall inside it exactly when `dataSize + IP_SAFETY < 2^32`. -/
def SetSize (s : Sound) (dataSize : Nat) (addr : Int) (fresh : Int → Int) : Sound :=
  if dataSize = 0 then s
  else
    SetLooped
      { s with start := addr, mem := fresh, dataSize_ := dataSize, compressed_ := false } false

/-- Embedding of `Sound::SetData`: `SetSize`, then `memcpy` of `dataSize` bytes. -/
def SetData (s : Sound) (data : Int → Int) (dataSize : Nat) (addr : Int)
    (fresh : Int → Int) : Sound :=
  if dataSize = 0 then s
  else
    let t := s.SetSize dataSize addr fresh
    { t with mem := fun i => if 0 ≤ i ∧ i < dataSize then data i else t.mem i }

/-- Embedding of `Sound::SetFormat`. -/
def SetFormat (s : Sound) (frequency : Nat) (sixteenBit stereo : Bool) : Sound :=
  { s with frequency_ := frequency, sixteenBit_ := sixteenBit, stereo_ := stereo,
           compressed_ := false }

end Sound

/-! ## Compressed stream decoder -/

/-- State of a stream decoder handle.
Modelled from the spec: the decoder is the third-party Vorbis library; the spec
describes it as a producer of interleaved 16-bit PCM that may return fewer
bytes than requested at end of stream and that can be rewound.  `pcm` is the
whole decoded stream as bytes, `readPos` the number of bytes already produced. -/
structure Decoder where
  pcm : List Int
  readPos : Nat

namespace Decoder

/-- The library call that yields interleaved shorts: at most `numShorts / channels`
frames, fewer at end of stream.  Returns the frames produced, the bytes
written and the new handle state. -/
def getSamplesShortInterleaved (d : Decoder) (channels numShorts : Nat) :
    Nat × List Int × Decoder :=
  let len := numShorts / channels
  let avail := (d.pcm.length - d.readPos) / (2 * channels)
  let n := min len avail
  (n, (d.pcm.drop d.readPos).take (n * channels * 2),
    { d with readPos := d.readPos + n * channels * 2 })

/-- The library call that seeks to the stream start. -/
def seekStart (d : Decoder) : Decoder := { d with readPos := 0 }

end Decoder

namespace Sound

/-- Embedding of `Sound::Decode`: returns the byte count produced, the bytes to
be stored at `dest`, and the decoder state. -/
def Decode (s : Sound) (decoder : Option Decoder) (bytes : Nat) :
    Nat × List Int × Option Decoder :=
  match decoder with
  | none => (0, [], none)
  | some d =>
    let soundSources := if s.stereo_ then 2 else 1
    let r := d.getSamplesShortInterleaved soundSources (bytes >>> 1)
    ((r.1 * soundSources) <<< 1, r.2.1, some r.2.2)

/-- Embedding of `Sound::AllocateDecoder`; `vorbis` is what the library returns
when it opens the data of the sound. -/
def AllocateDecoder (s : Sound) (vorbis : Option Decoder) : Option Decoder :=
  if !s.compressed_ then none else vorbis

/-- Embedding of `Sound::RewindDecoder`. -/
def RewindDecoder (decoder : Option Decoder) : Option Decoder :=
  decoder.map Decoder.seekStart

/-- Store of a run of bytes at an offset from `start` (the effect of a decoder
write or of `memset`/`memcpy` into the buffer). -/
def storeBytes (s : Sound) (off : Nat) (bs : List Int) : Sound :=
  { s with mem := fun i =>
      if off ≤ i ∧ i < off + bs.length then bs.getD (i - off).toNat 0 else s.mem i }

end Sound

/-! ## SoundSource (voice) -/

/-- The fields of `SoundSource`.  `audioAttached` is `audio_ != 0` and
`enabledEffective` the value of `IsEnabledEffective()`; null pointers are `0`
(`position_`) or `none` (`sound_`, `decoder_`, `decodeBuffer_`). -/
structure SoundSource where
  audioAttached : Bool
  enabledEffective : Bool
  soundType_ : Nat
  frequency_ : ℚ
  gain_ : ℚ
  attenuation_ : ℚ
  panning_ : ℚ
  pitch_ : ℚ
  autoRemoveTimer_ : ℚ
  autoRemove_ : Bool
  sound_ : Option Sound
  position_ : Int
  fractPosition_ : Int
  timePosition_ : ℚ
  decoder_ : Option Decoder
  decodeBuffer_ : Option Sound
  decodePosition_ : Nat

/-- Embedding of `SoundSource::IsPlaying`. -/
def SoundSource.IsPlaying (v : SoundSource) : Bool :=
  v.sound_.isSome && v.position_ != 0

/-- What a `Mix` call takes from outside the voice: the value of
`audio_->GetSoundSourceMasterGain(soundType_)`, the handle that the Vorbis
library opens for the compressed data of `sound_` (`none` when it fails), and
the identity, the array address and the initial array contents of a newly
created decode buffer. -/
structure MixEnv where
  masterGain : ℚ
  vorbis : Option Decoder
  bufferId : Nat
  bufferAddr : Int
  bufferFresh : Int → Int

/-- The local variables `dest`, `pos` and `fractPos` of a mixing routine.
`dest` is the accumulation buffer, `di` the distance of the `dest` pointer from
its initial value. -/
structure MixRun where
  dest : Nat → Int
  di : Nat
  pos : Int
  fractPos : Int

/-- The statements `*dest = *dest + x; ++dest;`. -/
def MixRun.add (st : MixRun) (x : Int) : MixRun :=
  { st with dest := Function.update st.dest st.di (wrap32 (st.dest st.di + x)),
            di := st.di + 1 }

/-- The loop `while (pos >= end) pos -= (end - repeat);` run for at most `fuel`
tests of the condition. -/
def wrapLoop : Nat → Int → Int → Int → Option Int
  | 0, _, _, _ => none
  | fuel + 1, pos, e, r =>
    if pos ≥ e then wrapLoop fuel (pos - (e - r)) e r else some pos

/-- The loop `while (pos >= end) pos -= (end - repeat);`.  Each pass lowers
`pos` by at least one when `repeat < end`, so `pos - end + 2` tests suffice;
the result is `none` exactly when the loop does not terminate. -/
def wrapWhile (pos e r : Int) : Option Int :=
  wrapLoop ((pos - e).toNat + 2) pos e r

/-- The macro `INC_POS_LOOPED` for a pointer to elements of `es` bytes. -/
def INC_POS_LOOPED (es intAdd fractAdd e r : Int) (st : MixRun) : Option MixRun :=
  let pos := st.pos + es * intAdd
  let fractPos := st.fractPos + fractAdd
  let carry : Bool := fractPos > 65535
  let fractPos := if carry then fractPos % 65536 else fractPos
  let pos := if carry then pos + es else pos
  (wrapWhile pos e r).map fun p => { st with pos := p, fractPos := fractPos }

/-- The macro `INC_POS_ONESHOT`; the flag tells whether `break` was taken. -/
def INC_POS_ONESHOT (es intAdd fractAdd e : Int) (st : MixRun) : MixRun × Bool :=
  let pos := st.pos + es * intAdd
  let fractPos := st.fractPos + fractAdd
  let carry : Bool := fractPos > 65535
  let fractPos := if carry then fractPos % 65536 else fractPos
  let pos := if carry then pos + es else pos
  if pos ≥ e then ({ st with pos := 0, fractPos := fractPos }, true)
  else ({ st with pos := pos, fractPos := fractPos }, false)

/-- The macro `INC_POS_STEREO_LOOPED`. -/
def INC_POS_STEREO_LOOPED (es intAdd fractAdd e r : Int) (st : MixRun) : Option MixRun :=
  let pos := st.pos + es * (2 * intAdd)
  let fractPos := st.fractPos + fractAdd
  let carry : Bool := fractPos > 65535
  let fractPos := if carry then fractPos % 65536 else fractPos
  let pos := if carry then pos + es * 2 else pos
  (wrapWhile pos e r).map fun p => { st with pos := p, fractPos := fractPos }

/-- The macro `INC_POS_STEREO_ONESHOT`; the flag tells whether `break` was taken. -/
def INC_POS_STEREO_ONESHOT (es intAdd fractAdd e : Int) (st : MixRun) : MixRun × Bool :=
  let pos := st.pos + es * (2 * intAdd)
  let fractPos := st.fractPos + fractAdd
  let carry : Bool := fractPos > 65535
  let fractPos := if carry then fractPos % 65536 else fractPos
  let pos := if carry then pos + es * 2 else pos
  if pos ≥ e then ({ st with pos := 0, fractPos := fractPos }, true)
  else ({ st with pos := pos, fractPos := fractPos }, false)

/-- The macro `GET_IP_SAMPLE`. -/
def GET_IP_SAMPLE (s : Sound) (es : Int) (st : MixRun) : Int :=
  Int.tdiv (wrap32 ((s.elemAt es st.pos 1 - s.elemAt es st.pos 0) * st.fractPos)) 65536
    + s.elemAt es st.pos 0

/-- The macro `GET_IP_SAMPLE_LEFT`. -/
def GET_IP_SAMPLE_LEFT (s : Sound) (es : Int) (st : MixRun) : Int :=
  Int.tdiv (wrap32 ((s.elemAt es st.pos 2 - s.elemAt es st.pos 0) * st.fractPos)) 65536
    + s.elemAt es st.pos 0

/-- The macro `GET_IP_SAMPLE_RIGHT`. -/
def GET_IP_SAMPLE_RIGHT (s : Sound) (es : Int) (st : MixRun) : Int :=
  Int.tdiv (wrap32 ((s.elemAt es st.pos 3 - s.elemAt es st.pos 1) * st.fractPos)) 65536
    + s.elemAt es st.pos 1

/-- Number of times the body of `while (--samples)` runs for an `unsigned`
counter (a value below `2^32`): the counter is decremented before it is tested,
and decrementing `0` gives `2^32 - 1`. -/
def preDecCount (samples : Nat) : Nat :=
  if samples = 0 then 4294967295 else samples - 1

/-- A loop `while (--samples) { body; INC_POS_..._LOOPED(); }` with `n` passes. -/
def whileLooped (body : MixRun → MixRun) (inc : MixRun → Option MixRun) :
    Nat → MixRun → Option MixRun
  | 0, st => some st
  | n + 1, st => (inc (body st)).bind (whileLooped body inc n)

/-- A loop `while (--samples) { body; INC_POS_..._ONESHOT(); }` with at most `n`
passes; the macro may leave the loop with `break`. -/
def whileOneshot (body : MixRun → MixRun) (inc : MixRun → MixRun × Bool) :
    Nat → MixRun → MixRun
  | 0, st => st
  | n + 1, st =>
    let r := inc (body st)
    if r.2 then r.1 else whileOneshot body inc n r.1

/-- The four loops that every mixing routine is made of: the source is read
through `short*` (`body16`) or `signed char*` (`body8`), the sound is looped or
one-shot, and the cursor macro is the mono or the stereo one. -/
def mixLoops (sound : Sound) (stereoSource : Bool) (intAdd fractAdd : Int)
    (body16 body8 : MixRun → MixRun) (n : Nat) (st : MixRun) : Option MixRun :=
  if sound.sixteenBit_ then
    if sound.looped_ then
      whileLooped body16
        (if stereoSource then INC_POS_STEREO_LOOPED 2 intAdd fractAdd sound.end_ sound.repeat_
         else INC_POS_LOOPED 2 intAdd fractAdd sound.end_ sound.repeat_) n st
    else
      some (whileOneshot body16
        (if stereoSource then INC_POS_STEREO_ONESHOT 2 intAdd fractAdd sound.end_
         else INC_POS_ONESHOT 2 intAdd fractAdd sound.end_) n st)
  else
    if sound.looped_ then
      whileLooped body8
        (if stereoSource then INC_POS_STEREO_LOOPED 1 intAdd fractAdd sound.end_ sound.repeat_
         else INC_POS_LOOPED 1 intAdd fractAdd sound.end_ sound.repeat_) n st
    else
      some (whileOneshot body8
        (if stereoSource then INC_POS_STEREO_ONESHOT 1 intAdd fractAdd sound.end_
         else INC_POS_ONESHOT 1 intAdd fractAdd sound.end_) n st)

/-- The stores `position_ = pos; fractPosition_ = fractPos;` that end a mixing
routine, with the accumulation buffer it leaves. -/
def SoundSource.finishMix (v : SoundSource) (r : Option MixRun) :
    Option (SoundSource × (Nat → Int)) :=
  r.map fun st => ({ v with position_ := st.pos, fractPosition_ := st.fractPos }, st.dest)

namespace SoundSource

/-- Embedding of `SoundSource::MixZeroVolume`. -/
def MixZeroVolume (v : SoundSource) (sound : Sound) (samples : Nat) (mixRate : Int) :
    Option SoundSource :=
  let add : ℚ := v.frequency_ * samples / mixRate
  let intAdd := truncQ add
  let fractAdd := truncQ ((add - ⌊add⌋) * 65536)
  let sampleSize : Int := sound.GetSampleSize
  let fractPosition := v.fractPosition_ + fractAdd
  let carry : Bool := fractPosition > 65535
  let position := if carry then v.position_ + sampleSize else v.position_
  let fractPosition := if carry then fractPosition % 65536 else fractPosition
  let position := position + intAdd * sampleSize
  if position > sound.end_ then
    if sound.looped_ then
      (wrapWhile position sound.end_ sound.repeat_).map fun p =>
        { v with position_ := p, fractPosition_ := fractPosition }
    else
      some { v with position_ := 0, fractPosition_ := fractPosition }
  else
    some { v with position_ := position, fractPosition_ := fractPosition }

/-- Embedding of `SoundSource::MixMonoToMono`. -/
def MixMonoToMono (v : SoundSource) (masterGain : ℚ) (sound : Sound) (dest : Nat → Int)
    (samples : Nat) (mixRate : Int) : Option (SoundSource × (Nat → Int)) :=
  let totalGain := masterGain * v.attenuation_ * v.gain_
  let vol := truncQ (256 * totalGain + 1 / 2)
  if vol = 0 then (v.MixZeroVolume sound samples mixRate).map fun w => (w, dest)
  else
    let add : ℚ := v.frequency_ / mixRate
    let intAdd := truncQ add
    let fractAdd := truncQ ((add - ⌊add⌋) * 65536)
    v.finishMix (mixLoops sound false intAdd fractAdd
      (fun st => st.add (Int.tdiv (wrap32 (sound.shortAt st.pos * vol)) 256))
      (fun st => st.add (wrap32 (sound.byteAt st.pos * vol)))
      (preDecCount samples) ⟨dest, 0, v.position_, v.fractPosition_⟩)

/-- Embedding of `SoundSource::MixMonoToStereo`. -/
def MixMonoToStereo (v : SoundSource) (masterGain : ℚ) (sound : Sound) (dest : Nat → Int)
    (samples : Nat) (mixRate : Int) : Option (SoundSource × (Nat → Int)) :=
  let totalGain := masterGain * v.attenuation_ * v.gain_
  let leftVol := truncQ ((-v.panning_ + 1) * (256 * totalGain + 1 / 2))
  let rightVol := truncQ ((v.panning_ + 1) * (256 * totalGain + 1 / 2))
  if leftVol = 0 ∧ rightVol = 0 then
    (v.MixZeroVolume sound samples mixRate).map fun w => (w, dest)
  else
    let add : ℚ := v.frequency_ / mixRate
    let intAdd := truncQ add
    let fractAdd := truncQ ((add - ⌊add⌋) * 65536)
    v.finishMix (mixLoops sound false intAdd fractAdd
      (fun st => (st.add (Int.tdiv (wrap32 (sound.shortAt st.pos * leftVol)) 256)).add
        (Int.tdiv (wrap32 (sound.shortAt st.pos * rightVol)) 256))
      (fun st => (st.add (wrap32 (sound.byteAt st.pos * leftVol))).add
        (wrap32 (sound.byteAt st.pos * rightVol)))
      (preDecCount samples) ⟨dest, 0, v.position_, v.fractPosition_⟩)

/-- Embedding of `SoundSource::MixMonoToMonoIP`. -/
def MixMonoToMonoIP (v : SoundSource) (masterGain : ℚ) (sound : Sound) (dest : Nat → Int)
    (samples : Nat) (mixRate : Int) : Option (SoundSource × (Nat → Int)) :=
  let totalGain := masterGain * v.attenuation_ * v.gain_
  let vol := truncQ (256 * totalGain + 1 / 2)
  if vol = 0 then (v.MixZeroVolume sound samples mixRate).map fun w => (w, dest)
  else
    let add : ℚ := v.frequency_ / mixRate
    let intAdd := truncQ add
    let fractAdd := truncQ ((add - ⌊add⌋) * 65536)
    v.finishMix (mixLoops sound false intAdd fractAdd
      (fun st => st.add (Int.tdiv (wrap32 (GET_IP_SAMPLE sound 2 st * vol)) 256))
      (fun st => st.add (wrap32 (GET_IP_SAMPLE sound 1 st * vol)))
      (preDecCount samples) ⟨dest, 0, v.position_, v.fractPosition_⟩)

/-- Embedding of `SoundSource::MixMonoToStereoIP`. -/
def MixMonoToStereoIP (v : SoundSource) (masterGain : ℚ) (sound : Sound) (dest : Nat → Int)
    (samples : Nat) (mixRate : Int) : Option (SoundSource × (Nat → Int)) :=
  let totalGain := masterGain * v.attenuation_ * v.gain_
  let leftVol := truncQ ((-v.panning_ + 1) * (256 * totalGain + 1 / 2))
  let rightVol := truncQ ((v.panning_ + 1) * (256 * totalGain + 1 / 2))
  if leftVol = 0 ∧ rightVol = 0 then
    (v.MixZeroVolume sound samples mixRate).map fun w => (w, dest)
  else
    let add : ℚ := v.frequency_ / mixRate
    let intAdd := truncQ add
    let fractAdd := truncQ ((add - ⌊add⌋) * 65536)
    v.finishMix (mixLoops sound false intAdd fractAdd
      (fun st => (st.add (Int.tdiv (wrap32 (GET_IP_SAMPLE sound 2 st * leftVol)) 256)).add
        (Int.tdiv (wrap32 (GET_IP_SAMPLE sound 2 st * rightVol)) 256))
      (fun st => (st.add (wrap32 (GET_IP_SAMPLE sound 1 st * leftVol))).add
        (wrap32 (GET_IP_SAMPLE sound 1 st * rightVol)))
      (preDecCount samples) ⟨dest, 0, v.position_, v.fractPosition_⟩)

/-- Embedding of `SoundSource::MixStereoToMono`. -/
def MixStereoToMono (v : SoundSource) (masterGain : ℚ) (sound : Sound) (dest : Nat → Int)
    (samples : Nat) (mixRate : Int) : Option (SoundSource × (Nat → Int)) :=
  let totalGain := masterGain * v.attenuation_ * v.gain_
  let vol := truncQ (256 * totalGain + 1 / 2)
  if vol = 0 then (v.MixZeroVolume sound samples mixRate).map fun w => (w, dest)
  else
    let add : ℚ := v.frequency_ / mixRate
    let intAdd := truncQ add
    let fractAdd := truncQ ((add - ⌊add⌋) * 65536)
    v.finishMix (mixLoops sound true intAdd fractAdd
      (fun st => st.add (Int.tdiv (wrap32
        (Int.tdiv (sound.elemAt 2 st.pos 0 + sound.elemAt 2 st.pos 1) 2 * vol)) 256))
      (fun st => st.add (wrap32
        (Int.tdiv (sound.elemAt 1 st.pos 0 + sound.elemAt 1 st.pos 1) 2 * vol)))
      (preDecCount samples) ⟨dest, 0, v.position_, v.fractPosition_⟩)

/-- Embedding of `SoundSource::MixStereoToStereo`. -/
def MixStereoToStereo (v : SoundSource) (masterGain : ℚ) (sound : Sound) (dest : Nat → Int)
    (samples : Nat) (mixRate : Int) : Option (SoundSource × (Nat → Int)) :=
  let totalGain := masterGain * v.attenuation_ * v.gain_
  let vol := truncQ (256 * totalGain + 1 / 2)
  if vol = 0 then (v.MixZeroVolume sound samples mixRate).map fun w => (w, dest)
  else
    let add : ℚ := v.frequency_ / mixRate
    let intAdd := truncQ add
    let fractAdd := truncQ ((add - ⌊add⌋) * 65536)
    v.finishMix (mixLoops sound true intAdd fractAdd
      (fun st => (st.add (Int.tdiv (wrap32 (sound.elemAt 2 st.pos 0 * vol)) 256)).add
        (Int.tdiv (wrap32 (sound.elemAt 2 st.pos 1 * vol)) 256))
      (fun st => (st.add (wrap32 (sound.elemAt 1 st.pos 0 * vol))).add
        (wrap32 (sound.elemAt 1 st.pos 1 * vol)))
      (preDecCount samples) ⟨dest, 0, v.position_, v.fractPosition_⟩)

/-- Embedding of `SoundSource::MixStereoToMonoIP`. -/
def MixStereoToMonoIP (v : SoundSource) (masterGain : ℚ) (sound : Sound) (dest : Nat → Int)
    (samples : Nat) (mixRate : Int) : Option (SoundSource × (Nat → Int)) :=
  let totalGain := masterGain * v.attenuation_ * v.gain_
  let vol := truncQ (256 * totalGain + 1 / 2)
  if vol = 0 then (v.MixZeroVolume sound samples mixRate).map fun w => (w, dest)
  else
    let add : ℚ := v.frequency_ / mixRate
    let intAdd := truncQ add
    let fractAdd := truncQ ((add - ⌊add⌋) * 65536)
    v.finishMix (mixLoops sound true intAdd fractAdd
      (fun st => st.add (Int.tdiv (wrap32
        (Int.tdiv (GET_IP_SAMPLE_LEFT sound 2 st + GET_IP_SAMPLE_RIGHT sound 2 st) 2 * vol)) 256))
      (fun st => st.add (wrap32
        (Int.tdiv (GET_IP_SAMPLE_LEFT sound 1 st + GET_IP_SAMPLE_RIGHT sound 1 st) 2 * vol)))
      (preDecCount samples) ⟨dest, 0, v.position_, v.fractPosition_⟩)

/-- Embedding of `SoundSource::MixStereoToStereoIP`. -/
def MixStereoToStereoIP (v : SoundSource) (masterGain : ℚ) (sound : Sound) (dest : Nat → Int)
    (samples : Nat) (mixRate : Int) : Option (SoundSource × (Nat → Int)) :=
  let totalGain := masterGain * v.attenuation_ * v.gain_
  let vol := truncQ (256 * totalGain + 1 / 2)
  if vol = 0 then (v.MixZeroVolume sound samples mixRate).map fun w => (w, dest)
  else
    let add : ℚ := v.frequency_ / mixRate
    let intAdd := truncQ add
    let fractAdd := truncQ ((add - ⌊add⌋) * 65536)
    v.finishMix (mixLoops sound true intAdd fractAdd
      (fun st => (st.add (Int.tdiv (wrap32 (GET_IP_SAMPLE_LEFT sound 2 st * vol)) 256)).add
        (Int.tdiv (wrap32 (GET_IP_SAMPLE_RIGHT sound 2 st * vol)) 256))
      (fun st => (st.add (wrap32 (GET_IP_SAMPLE_LEFT sound 1 st * vol))).add
        (wrap32 (GET_IP_SAMPLE_RIGHT sound 1 st * vol)))
      (preDecCount samples) ⟨dest, 0, v.position_, v.fractPosition_⟩)


/-- The variables that the refill of the decode buffer updates. -/
structure Refill where
  buf : Sound
  decoder : Option Decoder
  decodePosition : Nat
  eof : Bool

/-- The statements shared by the two refill branches of `Mix`: decode `bytes`
bytes to `decodePosition` and zero the part the decoder did not produce.  The
flag is `outBytes < bytes`. -/
def Refill.decodeInto (snd : Sound) (r : Refill) (bytes : Nat) : Refill × Bool :=
  let d := snd.Decode r.decoder bytes
  let outBytes := d.1
  let buf := r.buf.storeBytes r.decodePosition d.2.1
  let buf :=
    if outBytes < bytes then
      buf.storeBytes (r.decodePosition + outBytes) (List.replicate (bytes - outBytes) 0)
    else buf
  ({ r with buf := buf, decoder := d.2.2 }, decide (outBytes < bytes))

/-- The branch `if (decoder_)` of `Mix` for a compressed sound `snd` whose
decode buffer is `buf`. -/
def mixRefill (v : SoundSource) (snd buf : Sound) : SoundSource :=
  let currentPos : Nat := ((v.position_ - buf.start) % 4294967296).toNat
  let r0 : Refill := ⟨buf, v.decoder_, v.decodePosition_, false⟩
  let r2 : Refill :=
    if currentPos ≠ r0.decodePosition then
      let r1 : Refill :=
        if currentPos < r0.decodePosition then
          let bytes := r0.buf.dataSize_ - r0.decodePosition
          let d := r0.decodeInto snd bytes
          { d.1 with eof := d.2, decodePosition := 0 }
        else r0
      if currentPos > r1.decodePosition then
        let bytes := currentPos - r1.decodePosition
        let d := r1.decodeInto snd bytes
        let r : Refill := if d.2 && snd.looped_ then { d.1 with eof := true } else d.1
        if r.decodePosition = 0 then { r with buf := r.buf.FixInterpolation } else r
      else r1
    else r0
  let rewind : Bool := r2.eof && snd.looped_
  let stop : Bool := r2.eof && !snd.looped_
  { v with
    decoder_ := if rewind then Sound.RewindDecoder r2.decoder else r2.decoder
    timePosition_ := if rewind then 0 else v.timePosition_
    decodeBuffer_ := some (if stop then r2.buf.SetLooped false else r2.buf)
    decodePosition_ := currentPos }

/-- The branch of `Mix` that sets up the decoder and the decode buffer of a
compressed sound `snd`. -/
def mixAllocate (v : SoundSource) (env : MixEnv) (snd : Sound) : SoundSource :=
  let decoder := snd.AllocateDecoder env.vorbis
  let sampleSize := snd.GetSampleSize
  let DecodeBufferSize := sampleSize * snd.frequency_ * DECODE_BUFFER_LENGTH / 1000
  let buf := (Sound.new env.bufferId).SetSize DecodeBufferSize env.bufferAddr env.bufferFresh
  let buf := buf.SetFormat snd.frequency_ true snd.stereo_
  let buf := buf.storeBytes 0 (List.replicate DecodeBufferSize 0)
  let d := snd.Decode decoder DecodeBufferSize
  let buf := buf.storeBytes 0 d.2.1
  let buf := buf.SetLooped true
  { v with
    decoder_ := d.2.2
    decodeBuffer_ := some buf
    decodePosition_ := 0
    position_ := buf.start
    fractPosition_ := 0 }

/-- The part of `Mix` that serves a compressed sound before mixing; `none` when
a decoder exists without a decode buffer (null dereference). -/
def mixDecode (v : SoundSource) (env : MixEnv) (snd : Sound) : Option SoundSource :=
  if snd.compressed_ then
    if v.decoder_.isSome then
      match v.decodeBuffer_ with
      | none => none
      | some buf => some (v.mixRefill snd buf)
    else some (v.mixAllocate env snd)
  else some v

/-- The choice of the mixing routine in `Mix`. -/
def mixRoutine (v : SoundSource) (masterGain : ℚ) (sound : Sound) (dest : Nat → Int)
    (samples : Nat) (mixRate : Int) (stereo interpolation : Bool) :
    Option (SoundSource × (Nat → Int)) :=
  if !sound.stereo_ then
    if interpolation then
      if stereo then v.MixMonoToStereoIP masterGain sound dest samples mixRate
      else v.MixMonoToMonoIP masterGain sound dest samples mixRate
    else
      if stereo then v.MixMonoToStereo masterGain sound dest samples mixRate
      else v.MixMonoToMono masterGain sound dest samples mixRate
  else
    if interpolation then
      if stereo then v.MixStereoToStereoIP masterGain sound dest samples mixRate
      else v.MixStereoToMonoIP masterGain sound dest samples mixRate
    else
      if stereo then v.MixStereoToStereo masterGain sound dest samples mixRate
      else v.MixStereoToMono masterGain sound dest samples mixRate

/-- The update of `timePosition_` that ends `Mix`. -/
def mixTime (v : SoundSource) (snd : Sound) (samples : Nat) (mixRate : Int) : SoundSource :=
  if !snd.compressed_ then
    { v with timePosition_ :=
        (wrap32 (v.position_ - snd.start) : ℚ) / ((snd.GetSampleSize * snd.frequency_ : Nat) : ℚ) }
  else
    { v with timePosition_ :=
        v.timePosition_ + ((samples : ℚ) / (mixRate : ℚ)) * v.frequency_ / (snd.frequency_ : ℚ) }

/-- Embedding of `SoundSource::Mix`. -/
def Mix (v : SoundSource) (env : MixEnv) (dest : Nat → Int) (samples : Nat) (mixRate : Int)
    (stereo interpolation : Bool) : Option (SoundSource × (Nat → Int)) :=
  match v.sound_ with
  | none => some (v, dest)
  | some snd =>
    if v.position_ = 0 ∨ v.enabledEffective = false then some (v, dest)
    else
      match v.mixDecode env snd with
      | none => none
      | some v1 =>
        match (if snd.compressed_ then v1.decodeBuffer_ else some snd) with
        | none => some (v1, dest)
        | some sound =>
          (v1.mixRoutine env.masterGain sound dest samples mixRate stereo interpolation).map
            fun r => (r.1.mixTime snd samples mixRate, r.2)

end SoundSource

/-! ## Audio (mixer engine) -/

/-- The fields of `Audio` that rendering uses.  `clipBuffer_` is `none` while no
buffer is allocated; `clipSize` is the number of `int` slots allocated. -/
structure Audio where
  deviceID_ : Nat
  sampleSize_ : Nat
  playing_ : Bool
  clipBuffer_ : Option (Nat → Int)
  clipSize : Nat
  fragmentSize_ : Int
  mixRate_ : Int
  stereo_ : Bool
  interpolation_ : Bool
  captureDataSize_ : Int
  masterGain_ : Nat → ℚ
  soundSources_ : List SoundSource

/-- Store of a `short` at a byte offset of the output stream, little-endian;
the cells of the output stream are bytes in `0..255`. -/
def storeShort (out : Nat → Int) (off : Nat) (x : Int) : Nat → Int :=
  Function.update (Function.update out off (x % 256)) (off + 1) (x / 256 % 256)

/-- The `short` held at a byte offset of the output stream. -/
def loadShort (out : Nat → Int) (off : Nat) : Int :=
  (out off + 256 * out (off + 1) + 32768) % 65536 - 32768

namespace Audio

/-- The loop over `soundSources_` in `MixOutput`; `env i` is the environment of
the source at index `i`. -/
def mixSources (env : Nat → MixEnv) (workSamples : Nat) (mixRate : Int)
    (stereo interpolation : Bool) :
    List SoundSource → Nat → (Nat → Int) → Option (List SoundSource × (Nat → Int))
  | [], _, clip => some ([], clip)
  | v :: vs, i, clip =>
    match v.Mix (env i) clip workSamples mixRate stereo interpolation with
    | none => none
    | some r =>
      (mixSources env workSamples mixRate stereo interpolation vs (i + 1) r.2).map
        fun t => (r.1 :: t.1, t.2)

/-- The loop `while (clipSamples--) *destPtr++ = Clamp(*clipPtr++, -32768, 32767);`
with `n` passes left, `j` the distance both pointers have moved. -/
def copyClamped (clip : Nat → Int) (destOff : Nat) : Nat → Nat → (Nat → Int) → (Nat → Int)
  | 0, _, out => out
  | n + 1, j, out =>
    copyClamped clip destOff n (j + 1)
      (storeShort out (destOff + 2 * j) (Clamp (clip j) (-32768) 32767))

/-- What one pass of the `while (samples)` loop of `MixOutput` produces. -/
structure Fragment where
  workSamples : Nat
  clipSamples : Nat
  mixed : Nat → Int
  sources : List SoundSource
  out : Nat → Int

/-- One pass of the `while (samples)` loop of `MixOutput`: `clip` is the clip
buffer, `destOff` the byte offset of `dest` in the output stream. -/
def mixFragment (a : Audio) (env : Nat → MixEnv) (clip : Nat → Int) (out : Nat → Int)
    (destOff samples : Nat) : Option Fragment :=
  let workSamples : Nat := toUnsigned (min (toInt samples) a.fragmentSize_)
  let clipSamples := if a.stereo_ then workSamples * 2 else workSamples
  let cleared : Nat → Int := fun i => if i < clipSamples then 0 else clip i
  (mixSources env workSamples a.mixRate_ a.stereo_ a.interpolation_ a.soundSources_ 0 cleared).map
    fun r => ⟨workSamples, clipSamples, r.2, r.1, copyClamped r.2 destOff clipSamples 0 out⟩

/-- The loop `while (samples)` of `MixOutput`, run for at most `fuel` passes. -/
def mixOutputLoop (env : Nat → MixEnv) :
    Nat → Audio → (Nat → Int) → (Nat → Int) → Nat → Nat → Option (Audio × (Nat → Int))
  | 0, _, _, _, _, _ => none
  | fuel + 1, a, clip, out, destOff, samples =>
    if samples = 0 then some ({ a with clipBuffer_ := some clip }, out)
    else
      match a.mixFragment env clip out destOff samples with
      | none => none
      | some f =>
        mixOutputLoop env fuel { a with soundSources_ := f.sources } f.mixed f.out
          (destOff + a.sampleSize_ * f.workSamples)
          (if f.workSamples ≤ samples then samples - f.workSamples
           else samples + 4294967296 - f.workSamples)

/-- Embedding of `Audio::MixOutput`.  The output stream `out` is addressed in
bytes from `dest`; the size `samples * sampleSize_` given to `memset` is an
`unsigned` product.  A pass takes at least one sample off `samples` unless
`fragmentSize_` is not positive, so `samples + 1` passes suffice. -/
def MixOutput (a : Audio) (env : Nat → MixEnv) (out : Nat → Int) (samples : Nat) :
    Option (Audio × (Nat → Int)) :=
  match a.clipBuffer_ with
  | none => some (a, fun i => if i < samples * a.sampleSize_ % 4294967296 then 0 else out i)
  | some clip =>
    if a.playing_ = false then
      some (a, fun i => if i < samples * a.sampleSize_ % 4294967296 then 0 else out i)
    else mixOutputLoop env (samples + 1) a clip out 0 samples

end Audio

/-! ## Quantities used in the statements -/

/-- One cursor step without the end handling (the assignments that open every
`INC_POS` macro) for a step of `stride` bytes per unit of `intAdd`; the pair is
`(pos, fractPos)`. -/
def rawStep (stride intAdd fractAdd : Int) (c : Int × Int) : Int × Int :=
  if c.2 + fractAdd > 65535 then (c.1 + stride * intAdd + stride, (c.2 + fractAdd) % 65536)
  else (c.1 + stride * intAdd, c.2 + fractAdd)

/-- The cursor after `k` steps without end handling. -/
def rawSteps (stride intAdd fractAdd : Int) : Nat → Int × Int → Int × Int
  | 0, c => c
  | k + 1, c => rawSteps stride intAdd fractAdd k (rawStep stride intAdd fractAdd c)

/-- The integer part `(int)add` of the per-frame step `add = frequency_ / mixRate`. -/
def SoundSource.intAdd (v : SoundSource) (mixRate : Int) : Int :=
  truncQ (v.frequency_ / mixRate)

/-- The fraction `(int)((add - floorf(add)) * 65536.0f)` of the per-frame step. -/
def SoundSource.fractAdd (v : SoundSource) (mixRate : Int) : Int :=
  truncQ ((v.frequency_ / (mixRate : ℚ) - ⌊v.frequency_ / (mixRate : ℚ)⌋) * 65536)

/-- The test by which the routine that `Mix` selects for `sound` and the output
format `stereo` hands over to `MixZeroVolume`. -/
def SoundSource.zeroVolume (v : SoundSource) (masterGain : ℚ) (sound : Sound)
    (stereo : Bool) : Prop :=
  if sound.stereo_ = false ∧ stereo = true then
    truncQ ((-v.panning_ + 1) * (256 * (masterGain * v.attenuation_ * v.gain_) + 1 / 2)) = 0 ∧
    truncQ ((v.panning_ + 1) * (256 * (masterGain * v.attenuation_ * v.gain_) + 1 / 2)) = 0
  else truncQ (256 * (masterGain * v.attenuation_ * v.gain_) + 1 / 2) = 0

/-- A loop body that only accumulates: the values `f pos fractPos` are added to
consecutive cells of `dest`. -/
def emit (f : Int → Int → List Int) (st : MixRun) : MixRun :=
  (f st.pos st.fractPos).foldl MixRun.add st

/-- An 8-bit mono one-shot sound of four samples `10, 20, 30, 40` stored at
address 1000, with a zeroed guard region. -/
def demoSound : Sound :=
  { objectId := 1, start := 1000,
    mem := fun i => if 0 ≤ i ∧ i < 4 then 10 * (i + 1) else 0,
    repeat_ := 1000, end_ := 1004, dataSize_ := 4, frequency_ := 44100, looped_ := false,
    sixteenBit_ := false, stereo_ := false, compressed_ := false, compressedLength_ := 0 }

/-- A voice playing `demoSound` from its start at unit gain and at the
frequency 44100. -/
def demoVoice : SoundSource :=
  { audioAttached := true, enabledEffective := true, soundType_ := 0, frequency_ := 44100,
    gain_ := 1, attenuation_ := 1, panning_ := 0, pitch_ := 1, autoRemoveTimer_ := 0,
    autoRemove_ := false, sound_ := some demoSound, position_ := 1000, fractPosition_ := 0,
    timePosition_ := 0, decoder_ := none, decodeBuffer_ := none, decodePosition_ := 0 }

/-- An environment with master gain 1 and no decoder. -/
def demoEnv : MixEnv :=
  { masterGain := 1, vorbis := none, bufferId := 2, bufferAddr := 5000,
    bufferFresh := fun _ => 0 }

/-- Values an `int` cell can hold. -/
def InInt32 (x : Int) : Prop := -2147483648 ≤ x ∧ x < 2147483648

/-- An 8-bit stereo sound of ten bytes, used to evaluate `SetLoop`. -/
def tenByteSound : Sound := { demoSound with dataSize_ := 10, stereo_ := true }

/-- A 16-bit mono sound built by `SetFormat` and `SetSize(3)`: three bytes of data
at address 1000. -/
def oddSound : Sound :=
  ((Sound.new 1).SetFormat 44100 true false).SetSize 3 1000 (fun _ => 0)

/-- The sample sound looped over its bytes 1 and 2 (repeat offset 1, end
offset 3). -/
def twoByteLoop : Sound := { demoSound with looped_ := true, repeat_ := 1001, end_ := 1003 }

/-! ## Audio: device set-up -/

/-- The constant `MIN_BUFFERLENGTH` of `Audio.cpp`. -/
def MIN_BUFFERLENGTH : Int := 20

/-- The constant `MIN_MIXRATE` of `Audio.cpp`. -/
def MIN_MIXRATE : Int := 11025

/-- The constant `MAX_MIXRATE` of `Audio.cpp`. -/
def MAX_MIXRATE : Int := 48000

/-- The doubling loop of `NextPowerOfTwo`, run for at most `fuel` passes. -/
def nextPowerOfTwoLoop : Nat → Nat → Nat → Nat
  | 0, ret, _ => ret
  | fuel + 1, ret, value =>
    if ret < value ∧ ret < 2147483648 then nextPowerOfTwoLoop fuel (ret * 2) value else ret

/-- The value `NextPowerOfTwo(value)` of the math library.
Modelled from the spec: the helper is declared in the math header, which is not
part of the sources at hand; the spec asks for a power-of-two fragment size,
and the helper returns the smallest power of two that is not below `value`
(at most `2^31`), found by doubling from 1. -/
def NextPowerOfTwo (value : Nat) : Nat := nextPowerOfTwoLoop 32 1 value

/-- What the device layer (`SDL_OpenAudioDevice`) answers: the device
identifier (0 on failure), whether the obtained sample format is one of the
16-bit formats, and the obtained channel count and buffer size in samples. -/
structure DeviceAnswer where
  deviceID : Nat
  sixteenBitFormat : Bool
  channels : Nat
  samples : Nat

namespace Audio

/-- The state set up by the constructor `Audio::Audio`. -/
def new : Audio :=
  { deviceID_ := 0, sampleSize_ := 0, playing_ := false, clipBuffer_ := none, clipSize := 0,
    fragmentSize_ := 0, mixRate_ := 0, stereo_ := false, interpolation_ := false,
    captureDataSize_ := 0, masterGain_ := fun _ => 1, soundSources_ := [] }

/-- Embedding of `Audio::Stop`. -/
def Stop (a : Audio) : Audio := { a with playing_ := false }

/-- Embedding of `Audio::Play`; the flag is the return value. -/
def Play (a : Audio) : Audio × Bool :=
  if a.playing_ then (a, true)
  else if a.deviceID_ = 0 then (a, false)
  else ({ a with playing_ := true }, true)

/-- Embedding of `Audio::Release`. -/
def Release (a : Audio) : Audio :=
  let a := a.Stop
  if a.deviceID_ ≠ 0 then { a with deviceID_ := 0, clipBuffer_ := none, clipSize := 0 } else a

/-- Embedding of `Audio::SetMode` (SDL path); `dev` is the answer of the device
layer and `fresh` the contents of the newly allocated clip buffer.  The flag is
the return value. -/
def SetMode (a : Audio) (bufferLengthMSec mixRate : Int) (stereo interpolation : Bool)
    (dev : DeviceAnswer) (fresh : Nat → Int) : Audio × Bool :=
  let a := a.Release
  let _bufferLengthMSec := max bufferLengthMSec MIN_BUFFERLENGTH
  let mixRate := Clamp mixRate MIN_MIXRATE MAX_MIXRATE
  if dev.deviceID = 0 then ({ a with deviceID_ := 0 }, false)
  else if dev.sixteenBitFormat = false then ({ a with deviceID_ := 0 }, false)
  else
    let stereoOut : Bool := dev.channels = 2
    let fragmentSize : Int := min (toInt (NextPowerOfTwo (mixRate / 64).toNat)) (toInt dev.samples)
    let clipSize : Int := if stereo then fragmentSize * 2 else fragmentSize
    Play
      { a with deviceID_ := dev.deviceID, stereo_ := stereoOut,
               sampleSize_ := if stereoOut then 4 else 2,
               fragmentSize_ := fragmentSize, mixRate_ := mixRate,
               interpolation_ := interpolation,
               clipBuffer_ := some fresh, clipSize := clipSize.toNat }

/-- Embedding of `Audio::SetCaptureMode` (SDL path): the capture size is
computed, no capture device is opened and the call returns `false`. -/
def SetCaptureMode (a : Audio) (bufferLengthMSec mixRate : Int) (stereo : Bool) :
    Audio × Bool :=
  let bufferLengthMSec := max bufferLengthMSec MIN_BUFFERLENGTH
  let mixRate := Clamp mixRate MIN_MIXRATE MAX_MIXRATE
  ({ a with captureDataSize_ :=
      mixRate * (if stereo then 2 else 1) * (Int.tdiv 16 8) * (Int.tdiv bufferLengthMSec 1000) },
    false)

/-- Embedding of `Audio::SetMasterGain`; `maxSoundTypes` is the enumeration
bound `MAX_SOUND_TYPES`, declared in a header that is not at hand. -/
def SetMasterGain (maxSoundTypes : Nat) (a : Audio) (type : Nat) (gain : ℚ) : Audio :=
  if type ≥ maxSoundTypes then a
  else { a with masterGain_ := Function.update a.masterGain_ type (Clamp gain 0 1) }

/-- Embedding of `Audio::GetMasterGain`. -/
def GetMasterGain (maxSoundTypes : Nat) (a : Audio) (type : Nat) : ℚ :=
  if type ≥ maxSoundTypes then 0 else a.masterGain_ type

end Audio

/-! ## SoundSource: control operations -/

namespace SoundSource

/-- Embedding of `SoundSource::SetFrequency`. -/
def SetFrequency (v : SoundSource) (frequency : ℚ) : SoundSource :=
  { v with frequency_ := Clamp frequency 0 535232 }

/-- Embedding of `SoundSource::SetGain`. -/
def SetGain (v : SoundSource) (gain : ℚ) : SoundSource := { v with gain_ := max gain 0 }

/-- Embedding of `SoundSource::SetAttenuation`. -/
def SetAttenuation (v : SoundSource) (attenuation : ℚ) : SoundSource :=
  { v with attenuation_ := Clamp attenuation 0 1 }

/-- Embedding of `SoundSource::SetPanning`. -/
def SetPanning (v : SoundSource) (panning : ℚ) : SoundSource :=
  { v with panning_ := Clamp panning (-1) 1 }

/-- Embedding of `SoundSource::SetPitch`. -/
def SetPitch (v : SoundSource) (pitch : ℚ) : SoundSource :=
  { v with pitch_ := Clamp pitch 0 2 }

/-- Embedding of `SoundSource::FreeDecoder` (SDL path). -/
def FreeDecoder (v : SoundSource) : SoundSource :=
  let v := if v.sound_.isSome ∧ v.decoder_.isSome then { v with decoder_ := none } else v
  { v with decodeBuffer_ := none }

/-- Embedding of `SoundSource::PlayLockless`; `sound = none` is the null
pointer, and two sound pointers are equal when their `objectId` agree. -/
def PlayLockless (v : SoundSource) (sound : Option Sound) : SoundSource :=
  let v := { v with timePosition_ := 0 }
  let stop : SoundSource := { v.FreeDecoder with sound_ := none, position_ := 0 }
  match sound with
  | none => stop
  | some snd =>
    if snd.compressed_ = false then
      if snd.start ≠ 0 then
        { v.FreeDecoder with sound_ := some snd, position_ := snd.start, fractPosition_ := 0 }
      else stop
    else
      if v.sound_.map Sound.objectId = some snd.objectId ∧ v.decoder_.isSome then
        { v with decoder_ := Sound.RewindDecoder v.decoder_ }
      else
        { v.FreeDecoder with sound_ := some snd, position_ := snd.start }

/-- Embedding of `SoundSource::Play(Sound*)` (SDL path). -/
def Play (v : SoundSource) (sound : Option Sound) : SoundSource :=
  if v.audioAttached = false then v
  else
    let v :=
      match sound with
      | some snd => if v.frequency_ = 0 then v.SetFrequency snd.frequency_ else v
      | none => v
    v.PlayLockless sound

/-- Embedding of `SoundSource::StopLockless`. -/
def StopLockless (v : SoundSource) : SoundSource :=
  { v with position_ := 0, timePosition_ := 0 }

/-- Embedding of `SoundSource::Stop` (SDL path). -/
def Stop (v : SoundSource) : SoundSource :=
  if v.audioAttached = false then v
  else
    let v := if v.position_ ≠ 0 then v.StopLockless else v
    v.FreeDecoder

/-- Embedding of `SoundSource::SetPlayPositionLockless`. -/
def SetPlayPositionLockless (v : SoundSource) (pos : Int) : SoundSource :=
  match v.sound_ with
  | none => v
  | some snd =>
    if snd.compressed_ then v
    else
      let start := snd.start
      let e := snd.end_
      let pos := if pos < start then start else pos
      let pos := if snd.sixteenBit_ ∧ (pos - start) % 2 = 1 then pos + 1 else pos
      let pos := if pos > e then e else pos
      { v with position_ := pos,
               timePosition_ := (wrap32 (pos - snd.start) : ℚ) /
                 ((snd.GetSampleSize * snd.frequency_ : Nat) : ℚ) }

/-- Embedding of `SoundSource::SetPlayPosition`. -/
def SetPlayPosition (v : SoundSource) (pos : Int) : SoundSource :=
  if v.audioAttached = false ∨ v.sound_.isNone then v else v.SetPlayPositionLockless pos

end SoundSource

/-- A 16-bit mono sound holding the two samples `-32768` and `32767` (bytes
`00 80 FF 7F`) at address 1000. -/
def extremeSound : Sound :=
  { demoSound with
    sixteenBit_ := true,
    mem := fun i => if i = 1 then -128 else if i = 2 then -1 else if i = 3 then 127 else 0 }

/-- A voice that is attached to no audio engine and holds a sound reference
without playing it. -/
def detachedVoice : SoundSource := { demoVoice with audioAttached := false, position_ := 0 }

/-- A compressed sound asset (its `mem` holds the compressed bytes). -/
def demoCompressed : Sound := { demoSound with objectId := 7, compressed_ := true,
                                               sixteenBit_ := true }

/-- A voice playing `demoCompressed` that holds a decoder (eight bytes of PCM,
four already produced) and a decode buffer. -/
def streamingVoice : SoundSource :=
  { demoVoice with sound_ := some demoCompressed,
                   decoder_ := some ⟨[1, 0, 2, 0, 3, 0, 4, 0], 4⟩,
                   decodeBuffer_ := some { demoSound with objectId := 8, start := 3000,
                                                          sixteenBit_ := true },
                   position_ := 3000 }

/-- The sample sound looped over its whole length (repeat offset 0, end
offset 4). -/
def demoLooped : Sound := { demoSound with looped_ := true }

/-- The sample voice with gain 0. -/
def mutedVoice : SoundSource := { demoVoice with gain_ := 0 }

/-- The sample voice with gain 0 and panning -1. -/
def mutedLeftVoice : SoundSource := { demoVoice with gain_ := 0, panning_ := -1 }

/-- The sample voice playing the looped sample sound. -/
def loopVoice : SoundSource := { demoVoice with sound_ := some demoLooped }

/-- The muted sample voice playing the looped sample sound. -/
def mutedLoopVoice : SoundSource := { mutedVoice with sound_ := some demoLooped }

/-- The sample voice playing the sample sound after `SetLoop(2, 2)`, an empty
loop range. -/
def emptyLoopVoice : SoundSource := { demoVoice with sound_ := some (demoSound.SetLoop 2 2) }

/-- Two runs of a mixing loop that are at the same place (`dest` pointer and
cursor) and whose accumulation buffers are related cell by cell by `P`. -/
def runsAgree (P : Nat → Int → Int → Prop) (a b : MixRun) : Prop :=
  a.di = b.di ∧ a.pos = b.pos ∧ a.fractPos = b.fractPos ∧ ∀ i, P i (a.dest i) (b.dest i)

/-- Two results that are both missing, or both present and related by `R`. -/
def optRel {α : Type} (R : α → α → Prop) : Option α → Option α → Prop
  | some a, some b => R a b
  | none, none => True
  | _, _ => False

/-- An engine that is stopped: a clip buffer is allocated, `playing_` is false,
and the sample voice is registered. -/
def stoppedAudio : Audio :=
  { deviceID_ := 1, sampleSize_ := 2, playing_ := false, clipBuffer_ := some (fun _ => 7),
    clipSize := 4, fragmentSize_ := 4, mixRate_ := 44100, stereo_ := false,
    interpolation_ := false, captureDataSize_ := 0, masterGain_ := fun _ => 1,
    soundSources_ := [demoVoice] }

/-- A playing engine with mono 16-bit output and the sample voice registered. -/
def playingAudio : Audio := { stoppedAudio with playing_ := true }

/-- A playing engine with mono 16-bit output whose only voice has stopped. -/
def idleAudio : Audio :=
  { playingAudio with soundSources_ := [{ demoVoice with position_ := 0 }] }

/-- Bytes by which a cursor macro moves `pos` per source frame: the element
size of the pointer, doubled by the stereo macros. -/
def frameStride (sound : Sound) (stereoSource : Bool) : Int :=
  (if stereoSource then 2 else 1) * (if sound.sixteenBit_ then 2 else 1)

/-- A stereo run and a mono run at the same cursor in which both cells of every
stereo frame hold the value of the mono cell of that frame. -/
def pairsWith (a b : MixRun) : Prop :=
  a.pos = b.pos ∧ a.fractPos = b.fractPos ∧ a.di = 2 * b.di ∧ ∀ j, a.dest j = b.dest (j / 2)

/-- The sample voice playing one and a half times faster than the mix rate
44100, with the fractional cursor at 40000. -/
def fastVoice : SoundSource := { demoVoice with frequency_ := 66150, fractPosition_ := 40000 }

/-- The loop `while (samples)` of `MixOutput` with a ghost record: next to the
output stream it returns `acc`, which holds, at the byte offset of every 16-bit
sample that a pass stored, the 32-bit clip-buffer value `*clipPtr` that the
sample was copied from.  Everything else is `mixOutputLoop`. -/
def Audio.mixOutputTrace (env : Nat → MixEnv) :
    Nat → Audio → (Nat → Int) → (Nat → Int) → (Nat → Int) → Nat → Nat →
      Option (Audio × (Nat → Int) × (Nat → Int))
  | 0, _, _, _, _, _, _ => none
  | fuel + 1, a, clip, out, acc, destOff, samples =>
    if samples = 0 then some ({ a with clipBuffer_ := some clip }, out, acc)
    else
      match a.mixFragment env clip out destOff samples with
      | none => none
      | some f =>
        Audio.mixOutputTrace env fuel { a with soundSources_ := f.sources } f.mixed f.out
          (fun o => if destOff ≤ o ∧ o < destOff + 2 * f.clipSamples ∧ (o - destOff) % 2 = 0
            then f.mixed ((o - destOff) / 2) else acc o)
          (destOff + a.sampleSize_ * f.workSamples)
          (if f.workSamples ≤ samples then samples - f.workSamples
           else samples + 4294967296 - f.workSamples)

/-- The sample voice with gain 20. -/
def loudVoice : SoundSource := { demoVoice with gain_ := 20 }

/-- A playing engine with mono 16-bit output whose only voice is the loud one. -/
def loudAudio : Audio := { playingAudio with soundSources_ := [loudVoice] }

/-- A 16-bit mono one-shot sound of two samples `300, -2` (bytes `2C 01 FE FF`). -/
def pcmSound : Sound :=
  { demoSound with
    sixteenBit_ := true
    mem := fun i => if i = 0 then 44 else if i = 1 then 1 else if i = 2 then -2
      else if i = 3 then -1 else 0 }

/-- The sample voice playing `pcmSound`. -/
def pcmVoice : SoundSource := { demoVoice with sound_ := some pcmSound }

/-- A 16-bit stereo one-shot sound of two frames (eight bytes) at address 1000;
all bytes of the payload and of the guard region are zero. -/
def wideSound : Sound :=
  { demoSound with sixteenBit_ := true, stereo_ := true, dataSize_ := 8, end_ := 1008,
                   mem := fun _ => 0 }

/-- The same sound with a different byte at offset 14, which lies beyond the
`dataSize_ + IP_SAFETY = 12` bytes of the array. -/
def wideSoundBeyond : Sound :=
  { wideSound with mem := fun i => if i = 14 then 100 else 0 }

/-- A voice on `sound` with fractional cursor 32768 after `SetPlayPosition` to
the end of the sound. -/
def edgeVoice (sound : Sound) : SoundSource :=
  SoundSource.SetPlayPosition
    { demoVoice with sound_ := some sound, fractPosition_ := 32768 } sound.end_

/-- A run whose accumulation buffer is `dest` and whose cursor stands on a frame
of four bytes inside `sound`, with the fractional cursor in 16 bits. -/
def onFrame (sound : Sound) (dest : Nat → Int) (st : MixRun) : Prop :=
  st.dest = dest ∧ sound.start ≤ st.pos ∧ st.pos < sound.end_ ∧
    (st.pos - sound.start) % 4 = 0 ∧ 0 ≤ st.fractPos ∧ st.fractPos ≤ 65535

/-- A 16-bit stereo one-shot sound of two frames at address 1000, each frame
holding left = 100 and right = -100 (little-endian bytes 100, 0, -100, -1); the
guard bytes are zero. -/
def cancelSound : Sound :=
  { demoSound with sixteenBit_ := true, stereo_ := true, dataSize_ := 8, end_ := 1008,
                   mem := fun i => if i = 0 ∨ i = 4 then 100 else if i = 2 ∨ i = 6 then -100
                     else if i = 3 ∨ i = 7 then -1 else 0 }

/-- A voice on `cancelSound` at unit gain, at three quarters of the mix rate
44100, with the fractional cursor at 30000. -/
def cancelVoice : SoundSource :=
  { demoVoice with sound_ := some cancelSound, frequency_ := 33075, fractPosition_ := 30000 }

/-! ## Arithmetic lemmas -/

theorem wrap32_of_range {x : Int} (h : InInt32 x) : wrap32 x = x := by
  unfold InInt32 at h
  unfold wrap32
  omega

theorem wrap32_range (x : Int) : InInt32 (wrap32 x) := by
  unfold InInt32 wrap32
  omega

theorem wrap32_add_left (a b : Int) : wrap32 (wrap32 a + b) = wrap32 (a + b) := by
  unfold wrap32
  omega

theorem wrap32_add_right (a b : Int) : wrap32 (a + wrap32 b) = wrap32 (a + b) := by
  unfold wrap32
  omega

theorem wrap32_zero : wrap32 0 = 0 := by decide

theorem truncQ_intCast (n : Int) : truncQ (n : ℚ) = n := by
  unfold truncQ
  split
  · exact Int.floor_intCast n
  · rw [← Int.cast_neg, Int.floor_intCast]
    omega

theorem truncQ_fract_range (q : ℚ) :
    0 ≤ truncQ ((q - ⌊q⌋) * 65536) ∧ truncQ ((q - ⌊q⌋) * 65536) ≤ 65535 := by
  have h0 : (0 : ℚ) ≤ q - ⌊q⌋ := by
    have := Int.floor_le q
    linarith
  have h1 : q - ⌊q⌋ < 1 := by
    have := Int.lt_floor_add_one q
    linarith
  have hnn : (0 : ℚ) ≤ (q - ⌊q⌋) * 65536 := by positivity
  unfold truncQ
  rw [if_pos hnn]
  constructor
  · exact Int.floor_nonneg.mpr hnn
  · have : ⌊(q - ⌊q⌋) * 65536⌋ < 65536 := by
      rw [Int.floor_lt]
      push_cast
      linarith
    omega

/-! ## The wrap-around loop -/

theorem wrapLoop_spec (e r : Int) (h : r < e) :
    ∀ (fuel : Nat) (pos : Int), (pos - e + 1).toNat + 1 ≤ fuel →
      ∃ p : Int, wrapLoop fuel pos e r = some p ∧ p < e ∧ (pos < e → p = pos) ∧
        (e ≤ pos → r ≤ p) ∧ ∃ k : Nat, pos - p = k * (e - r) := by
  intro fuel
  induction fuel with
  | zero => intro pos hf; omega
  | succ n ih =>
    intro pos hf
    unfold wrapLoop
    by_cases hp : pos ≥ e
    · rw [if_pos hp]
      obtain ⟨p, hp1, hp2, hp3, hp4, k, hk⟩ := ih (pos - (e - r)) (by omega)
      refine ⟨p, hp1, hp2, fun hlt => by omega, fun _ => ?_, k + 1, ?_⟩
      · by_cases hq : pos - (e - r) < e
        · have := hp3 hq
          omega
        · exact hp4 (by omega)
      · push_cast
        linarith
    · rw [if_neg hp]
      exact ⟨pos, rfl, by omega, fun _ => rfl, fun hge => by omega, 0, by simp⟩

theorem wrapWhile_spec (pos e r : Int) (h : r < e) :
    ∃ p : Int, wrapWhile pos e r = some p ∧ p < e ∧ (pos < e → p = pos) ∧
      (e ≤ pos → r ≤ p) ∧ ∃ k : Nat, pos - p = k * (e - r) :=
  wrapLoop_spec e r h _ pos (by omega)

theorem wrapLoop_diverges (e r : Int) (h : e ≤ r) :
    ∀ (fuel : Nat) (pos : Int), e ≤ pos → wrapLoop fuel pos e r = none := by
  intro fuel
  induction fuel with
  | zero => intro pos _; rfl
  | succ n ih =>
    intro pos hp
    unfold wrapLoop
    rw [if_pos hp]
    exact ih _ (by omega)

theorem wrapWhile_of_lt (pos e r : Int) (h : pos < e) : wrapWhile pos e r = some pos := by
  unfold wrapWhile
  have : (pos - e).toNat + 2 = ((pos - e).toNat + 1) + 1 := rfl
  rw [this]
  unfold wrapLoop
  rw [if_neg (by omega)]

/-! ## The cursor macros -/

theorem INC_POS_STEREO_LOOPED_eq (es intAdd fractAdd e r : Int) (st : MixRun) :
    INC_POS_STEREO_LOOPED es intAdd fractAdd e r st =
      INC_POS_LOOPED (2 * es) intAdd fractAdd e r st := by
  have h1 : es * (2 * intAdd) = 2 * es * intAdd := by ring
  have h2 : es * 2 = 2 * es := by ring
  simp only [INC_POS_STEREO_LOOPED, INC_POS_LOOPED, h1, h2]

theorem INC_POS_STEREO_ONESHOT_eq (es intAdd fractAdd e : Int) (st : MixRun) :
    INC_POS_STEREO_ONESHOT es intAdd fractAdd e st =
      INC_POS_ONESHOT (2 * es) intAdd fractAdd e st := by
  have h1 : es * (2 * intAdd) = 2 * es * intAdd := by ring
  have h2 : es * 2 = 2 * es := by ring
  simp only [INC_POS_STEREO_ONESHOT, INC_POS_ONESHOT, h1, h2]

theorem INC_POS_LOOPED_raw (es intAdd fractAdd e r : Int) (st : MixRun) :
    INC_POS_LOOPED es intAdd fractAdd e r st =
      (wrapWhile (rawStep es intAdd fractAdd (st.pos, st.fractPos)).1 e r).map
        fun p => { st with pos := p,
                           fractPos := (rawStep es intAdd fractAdd (st.pos, st.fractPos)).2 } := by
  unfold INC_POS_LOOPED rawStep
  by_cases hc : st.fractPos + fractAdd > 65535
  · simp [hc]
  · simp [hc]

theorem INC_POS_ONESHOT_raw (es intAdd fractAdd e : Int) (st : MixRun) :
    INC_POS_ONESHOT es intAdd fractAdd e st =
      if e ≤ (rawStep es intAdd fractAdd (st.pos, st.fractPos)).1 then
        ({ st with pos := 0,
                   fractPos := (rawStep es intAdd fractAdd (st.pos, st.fractPos)).2 }, true)
      else
        ({ st with pos := (rawStep es intAdd fractAdd (st.pos, st.fractPos)).1,
                   fractPos := (rawStep es intAdd fractAdd (st.pos, st.fractPos)).2 }, false) := by
  unfold INC_POS_ONESHOT rawStep
  by_cases hc : st.fractPos + fractAdd > 65535
  · simp [hc]
  · simp [hc]

/-! ## Accumulating loop bodies -/

theorem foldl_add_pos (xs : List Int) (st : MixRun) :
    (xs.foldl MixRun.add st).pos = st.pos ∧ (xs.foldl MixRun.add st).fractPos = st.fractPos := by
  induction xs generalizing st with
  | nil => exact ⟨rfl, rfl⟩
  | cons x xs ih => exact ih (st.add x)

theorem emit_pos (f : Int → Int → List Int) (st : MixRun) : (emit f st).pos = st.pos :=
  (foldl_add_pos _ st).1

theorem emit_fractPos (f : Int → Int → List Int) (st : MixRun) :
    (emit f st).fractPos = st.fractPos :=
  (foldl_add_pos _ st).2

/-! ## The four loops -/

/-- Bytes per source frame step of the cursor macro chosen by `mixLoops`. -/
theorem mixLoops_oneshot (sound : Sound) (intAdd fractAdd : Int)
    (body16 body8 : MixRun → MixRun) (n : Nat) (st : MixRun) (h : sound.looped_ = false) :
    mixLoops sound sound.stereo_ intAdd fractAdd body16 body8 n st =
      some (whileOneshot (if sound.sixteenBit_ then body16 else body8)
        (INC_POS_ONESHOT sound.GetSampleSize intAdd fractAdd sound.end_) n st) := by
  unfold mixLoops Sound.GetSampleSize
  rcases hb : sound.sixteenBit_ <;> rcases hs : sound.stereo_ <;>
    simp [h, hb, hs] <;> congr 1 <;> funext t <;>
    simp [INC_POS_STEREO_ONESHOT_eq]

theorem mixLoops_looped (sound : Sound) (intAdd fractAdd : Int)
    (body16 body8 : MixRun → MixRun) (n : Nat) (st : MixRun) (h : sound.looped_ = true) :
    mixLoops sound sound.stereo_ intAdd fractAdd body16 body8 n st =
      whileLooped (if sound.sixteenBit_ then body16 else body8)
        (INC_POS_LOOPED sound.GetSampleSize intAdd fractAdd sound.end_ sound.repeat_) n st := by
  unfold mixLoops Sound.GetSampleSize
  rcases hb : sound.sixteenBit_ <;> rcases hs : sound.stereo_ <;>
    simp [h, hb, hs] <;> congr 1 <;> funext t <;>
    simp [INC_POS_STEREO_LOOPED_eq]

theorem whileOneshot_stops (f : Int → Int → List Int) (stride intAdd fractAdd e : Int) :
    ∀ (n : Nat) (st : MixRun),
      (∃ k, 1 ≤ k ∧ k ≤ n ∧
        e ≤ (rawSteps stride intAdd fractAdd k (st.pos, st.fractPos)).1) →
      (whileOneshot (emit f) (INC_POS_ONESHOT stride intAdd fractAdd e) n st).pos = 0 := by
  intro n
  induction n with
  | zero => rintro st ⟨k, h1, h2, _⟩; omega
  | succ n ih =>
    rintro st ⟨k, h1, h2, h3⟩
    unfold whileOneshot
    simp only [INC_POS_ONESHOT_raw, emit_pos, emit_fractPos]
    by_cases hb : e ≤ (rawStep stride intAdd fractAdd (st.pos, st.fractPos)).1
    · simp [hb]
    · simp only [hb, if_false]
      apply ih
      obtain ⟨j, rfl⟩ : ∃ j, k = j + 1 := ⟨k - 1, by omega⟩
      cases j with
      | zero => exact absurd h3 hb
      | succ j => exact ⟨j + 1, by omega, by omega, h3⟩


theorem mixRoutine_zero (v : SoundSource) (g : ℚ) (sound : Sound) (dest : Nat → Int)
    (n : Nat) (mixRate : Int) (stereo ip : Bool) (hz : v.zeroVolume g sound stereo) :
    v.mixRoutine g sound dest n mixRate stereo ip =
      (v.MixZeroVolume sound n mixRate).map fun w => (w, dest) := by
  unfold SoundSource.zeroVolume at hz
  unfold SoundSource.mixRoutine
  rcases hs : sound.stereo_ <;> rcases ho : stereo <;> rcases hi : ip <;>
    simp only [hs, ho, Bool.false_eq_true, Bool.true_eq_false, and_self, and_false, false_and, if_false, if_true,
      true_and, and_true, Bool.not_false, Bool.not_true] at hz ⊢ <;>
    simp only [SoundSource.MixMonoToMono, SoundSource.MixMonoToStereo,
      SoundSource.MixMonoToMonoIP, SoundSource.MixMonoToStereoIP, SoundSource.MixStereoToMono,
      SoundSource.MixStereoToStereo, SoundSource.MixStereoToMonoIP,
      SoundSource.MixStereoToStereoIP, hz, and_self, if_true]

theorem mixRoutine_synth (v : SoundSource) (g : ℚ) (sound : Sound)
    (n : Nat) (mixRate : Int) (stereo ip : Bool) (hz : ¬ v.zeroVolume g sound stereo) :
    ∃ f16 f8 : Int → Int → List Int, ∀ dest : Nat → Int,
      v.mixRoutine g sound dest n mixRate stereo ip =
        v.finishMix (mixLoops sound sound.stereo_ (v.intAdd mixRate) (v.fractAdd mixRate)
          (emit f16) (emit f8) (preDecCount n) ⟨dest, 0, v.position_, v.fractPosition_⟩) := by
  unfold SoundSource.zeroVolume at hz
  unfold SoundSource.mixRoutine
  rcases hs : sound.stereo_ <;> rcases ho : stereo <;> rcases hi : ip <;>
    simp only [hs, ho, Bool.false_eq_true, Bool.true_eq_false, and_self, and_false, false_and, if_false, if_true,
      true_and, and_true, Bool.not_false, Bool.not_true] at hz ⊢
  · exact ⟨fun pos _ => [Int.tdiv (wrap32 (sound.shortAt pos *
        truncQ (256 * (g * v.attenuation_ * v.gain_) + 1 / 2))) 256],
      fun pos _ => [wrap32 (sound.byteAt pos *
        truncQ (256 * (g * v.attenuation_ * v.gain_) + 1 / 2))],
      fun dest => by simp only [SoundSource.MixMonoToMono, hz, if_false]; rfl⟩
  · exact ⟨fun pos fp => [Int.tdiv (wrap32 (GET_IP_SAMPLE sound 2 ⟨fun _ => 0, 0, pos, fp⟩ *
        truncQ (256 * (g * v.attenuation_ * v.gain_) + 1 / 2))) 256],
      fun pos fp => [wrap32 (GET_IP_SAMPLE sound 1 ⟨fun _ => 0, 0, pos, fp⟩ *
        truncQ (256 * (g * v.attenuation_ * v.gain_) + 1 / 2))],
      fun dest => by simp only [SoundSource.MixMonoToMonoIP, hz, if_false]; rfl⟩
  · exact ⟨fun pos _ =>
        [Int.tdiv (wrap32 (sound.shortAt pos *
          truncQ ((-v.panning_ + 1) * (256 * (g * v.attenuation_ * v.gain_) + 1 / 2)))) 256,
         Int.tdiv (wrap32 (sound.shortAt pos *
          truncQ ((v.panning_ + 1) * (256 * (g * v.attenuation_ * v.gain_) + 1 / 2)))) 256],
      fun pos _ =>
        [wrap32 (sound.byteAt pos *
          truncQ ((-v.panning_ + 1) * (256 * (g * v.attenuation_ * v.gain_) + 1 / 2))),
         wrap32 (sound.byteAt pos *
          truncQ ((v.panning_ + 1) * (256 * (g * v.attenuation_ * v.gain_) + 1 / 2)))],
      fun dest => by simp only [SoundSource.MixMonoToStereo, hz, if_false]; rfl⟩
  · exact ⟨fun pos fp =>
        [Int.tdiv (wrap32 (GET_IP_SAMPLE sound 2 ⟨fun _ => 0, 0, pos, fp⟩ *
          truncQ ((-v.panning_ + 1) * (256 * (g * v.attenuation_ * v.gain_) + 1 / 2)))) 256,
         Int.tdiv (wrap32 (GET_IP_SAMPLE sound 2 ⟨fun _ => 0, 0, pos, fp⟩ *
          truncQ ((v.panning_ + 1) * (256 * (g * v.attenuation_ * v.gain_) + 1 / 2)))) 256],
      fun pos fp =>
        [wrap32 (GET_IP_SAMPLE sound 1 ⟨fun _ => 0, 0, pos, fp⟩ *
          truncQ ((-v.panning_ + 1) * (256 * (g * v.attenuation_ * v.gain_) + 1 / 2))),
         wrap32 (GET_IP_SAMPLE sound 1 ⟨fun _ => 0, 0, pos, fp⟩ *
          truncQ ((v.panning_ + 1) * (256 * (g * v.attenuation_ * v.gain_) + 1 / 2)))],
      fun dest => by simp only [SoundSource.MixMonoToStereoIP, hz, if_false]; rfl⟩
  · exact ⟨fun pos _ => [Int.tdiv (wrap32
        (Int.tdiv (sound.elemAt 2 pos 0 + sound.elemAt 2 pos 1) 2 *
          truncQ (256 * (g * v.attenuation_ * v.gain_) + 1 / 2))) 256],
      fun pos _ => [wrap32
        (Int.tdiv (sound.elemAt 1 pos 0 + sound.elemAt 1 pos 1) 2 *
          truncQ (256 * (g * v.attenuation_ * v.gain_) + 1 / 2))],
      fun dest => by simp only [SoundSource.MixStereoToMono, hz, if_false]; rfl⟩
  · exact ⟨fun pos fp => [Int.tdiv (wrap32
        (Int.tdiv (GET_IP_SAMPLE_LEFT sound 2 ⟨fun _ => 0, 0, pos, fp⟩ +
          GET_IP_SAMPLE_RIGHT sound 2 ⟨fun _ => 0, 0, pos, fp⟩) 2 *
          truncQ (256 * (g * v.attenuation_ * v.gain_) + 1 / 2))) 256],
      fun pos fp => [wrap32
        (Int.tdiv (GET_IP_SAMPLE_LEFT sound 1 ⟨fun _ => 0, 0, pos, fp⟩ +
          GET_IP_SAMPLE_RIGHT sound 1 ⟨fun _ => 0, 0, pos, fp⟩) 2 *
          truncQ (256 * (g * v.attenuation_ * v.gain_) + 1 / 2))],
      fun dest => by simp only [SoundSource.MixStereoToMonoIP, hz, if_false]; rfl⟩
  · exact ⟨fun pos _ =>
        [Int.tdiv (wrap32 (sound.elemAt 2 pos 0 *
          truncQ (256 * (g * v.attenuation_ * v.gain_) + 1 / 2))) 256,
         Int.tdiv (wrap32 (sound.elemAt 2 pos 1 *
          truncQ (256 * (g * v.attenuation_ * v.gain_) + 1 / 2))) 256],
      fun pos _ =>
        [wrap32 (sound.elemAt 1 pos 0 * truncQ (256 * (g * v.attenuation_ * v.gain_) + 1 / 2)),
         wrap32 (sound.elemAt 1 pos 1 * truncQ (256 * (g * v.attenuation_ * v.gain_) + 1 / 2))],
      fun dest => by simp only [SoundSource.MixStereoToStereo, hz, if_false]; rfl⟩
  · exact ⟨fun pos fp =>
        [Int.tdiv (wrap32 (GET_IP_SAMPLE_LEFT sound 2 ⟨fun _ => 0, 0, pos, fp⟩ *
          truncQ (256 * (g * v.attenuation_ * v.gain_) + 1 / 2))) 256,
         Int.tdiv (wrap32 (GET_IP_SAMPLE_RIGHT sound 2 ⟨fun _ => 0, 0, pos, fp⟩ *
          truncQ (256 * (g * v.attenuation_ * v.gain_) + 1 / 2))) 256],
      fun pos fp =>
        [wrap32 (GET_IP_SAMPLE_LEFT sound 1 ⟨fun _ => 0, 0, pos, fp⟩ *
          truncQ (256 * (g * v.attenuation_ * v.gain_) + 1 / 2)),
         wrap32 (GET_IP_SAMPLE_RIGHT sound 1 ⟨fun _ => 0, 0, pos, fp⟩ *
          truncQ (256 * (g * v.attenuation_ * v.gain_) + 1 / 2))],
      fun dest => by simp only [SoundSource.MixStereoToStereoIP, hz, if_false]; rfl⟩


theorem ite_emit (b : Bool) (f16 f8 : Int → Int → List Int) :
    (if b then emit f16 else emit f8) = emit (if b then f16 else f8) := by
  cases b <;> rfl

theorem mixTime_position (v : SoundSource) (snd : Sound) (n : Nat) (mixRate : Int) :
    (v.mixTime snd n mixRate).position_ = v.position_ := by
  unfold SoundSource.mixTime
  split <;> rfl

theorem mixTime_fractPosition (v : SoundSource) (snd : Sound) (n : Nat) (mixRate : Int) :
    (v.mixTime snd n mixRate).fractPosition_ = v.fractPosition_ := by
  unfold SoundSource.mixTime
  split <;> rfl

theorem Mix_of_null_position (w : SoundSource) (h : w.position_ = 0) (env : MixEnv)
    (dest : Nat → Int) (n : Nat) (mixRate : Int) (stereo ip : Bool) :
    w.Mix env dest n mixRate stereo ip = some (w, dest) := by
  unfold SoundSource.Mix
  cases w.sound_ <;> simp [h]

theorem finish_stopped (v1 : SoundSource) (snd : Sound) (samples : Nat) (mixRate : Int)
    (st : MixRun) (h : st.pos = 0) :
    ∃ w d, Option.map (fun r : SoundSource × (Nat → Int) =>
        (r.1.mixTime snd samples mixRate, r.2)) (v1.finishMix (some st)) = some (w, d) ∧
      w.position_ = 0 ∧ w.IsPlaying = false ∧
      ∀ (env2 : MixEnv) (dest2 : Nat → Int) (samples2 : Nat) (mixRate2 : Int)
        (stereo2 ip2 : Bool),
        w.Mix env2 dest2 samples2 mixRate2 stereo2 ip2 = some (w, dest2) := by
  have hw : (({ v1 with position_ := st.pos, fractPosition_ := st.fractPos } :
      SoundSource).mixTime snd samples mixRate).position_ = 0 := by
    rw [mixTime_position]
    exact h
  refine ⟨({ v1 with position_ := st.pos, fractPosition_ := st.fractPos } :
      SoundSource).mixTime snd samples mixRate, st.dest, ?_, hw, ?_, ?_⟩
  · simp only [SoundSource.finishMix, Option.map_some']
  · unfold SoundSource.IsPlaying
    rw [hw]
    simp
  · intro env2 dest2 samples2 mixRate2 stereo2 ip2
    exact Mix_of_null_position _ hw _ _ _ _ _ _

/-! ## Evaluation at the sample voice -/

theorem demo_intAdd : demoVoice.intAdd 44100 = 1 := by
  norm_num [SoundSource.intAdd, demoVoice, truncQ]

theorem demo_fractAdd : demoVoice.fractAdd 44100 = 0 := by
  norm_num [SoundSource.fractAdd, demoVoice, truncQ]

theorem demo_not_zeroVolume (stereo : Bool) :
    ¬ demoVoice.zeroVolume demoEnv.masterGain demoSound stereo := by
  cases stereo <;>
    norm_num [SoundSource.zeroVolume, demoVoice, demoEnv, demoSound, truncQ, Int.floor_eq_iff]

/-! ## Sound operations -/

theorem land_align (x k : Nat) (hx : x < 2 ^ 32) (hk : k ≤ 32) :
    x &&& (2 ^ 32 - 2 ^ k) = 2 ^ k * (x / 2 ^ k) := by
  have h1 : 2 ^ k * (x / 2 ^ k) = (x >>> k) <<< k := by
    rw [Nat.shiftLeft_eq, Nat.shiftRight_eq_div_pow, Nat.mul_comm]
  rw [h1]
  apply Nat.eq_of_testBit_eq
  intro i
  have hpos : 1 ≤ 2 ^ k := Nat.one_le_two_pow
  have hle : 2 ^ k ≤ 2 ^ 32 := Nat.pow_le_pow_right (by decide) hk
  have h2 : 2 ^ 32 - 2 ^ k = 2 ^ 32 - ((2 ^ k - 1) + 1) := by omega
  have hlt : 2 ^ k - 1 < 2 ^ 32 := by omega
  rw [Nat.testBit_and, h2, Nat.testBit_two_pow_sub_succ hlt, Nat.testBit_two_pow_sub_one,
    Nat.testBit_shiftLeft, Nat.testBit_shiftRight]
  by_cases hik : i < k
  · simp [hik]
  · have h3 : k + (i - k) = i := by omega
    by_cases hi : i < 32
    · simp [hik, hi, h3]
      omega
    · have hxi : x.testBit i = false := by
        apply Nat.testBit_lt_two_pow
        have : 2 ^ 32 ≤ 2 ^ i := Nat.pow_le_pow_right (by decide) (by omega)
        omega
      simp [hik, hi, h3, hxi]

theorem GetSampleSize_cases (s : Sound) :
    s.GetSampleSize = 1 ∨ s.GetSampleSize = 2 ∨ s.GetSampleSize = 4 := by
  unfold Sound.GetSampleSize
  cases s.sixteenBit_ <;> cases s.stereo_ <;> simp

theorem land_sampleSize (s : Sound) (x : Nat) (hx : x < 4294967296) :
    x &&& (4294967296 - s.GetSampleSize) = s.GetSampleSize * (x / s.GetSampleSize) := by
  rcases GetSampleSize_cases s with h | h | h <;> rw [h]
  · exact land_align x 0 hx (by decide)
  · exact land_align x 1 hx (by decide)
  · exact land_align x 2 hx (by decide)

theorem range_IP_SAFETY : List.range IP_SAFETY = [0, 1, 2, 3] := by decide


theorem byteAt_storeByte (s : Sound) (a v b : Int) :
    (s.storeByte a v).byteAt b = if b = a then v else s.byteAt b := by
  unfold Sound.storeByte Sound.byteAt
  by_cases h : b = a
  · subst h
    simp
  · have : b - s.start ≠ a - s.start := by omega
    simp [h, this]

theorem FixInterpolation_fields (s : Sound) :
    s.FixInterpolation.start = s.start ∧ s.FixInterpolation.end_ = s.end_ ∧
    s.FixInterpolation.repeat_ = s.repeat_ ∧ s.FixInterpolation.looped_ = s.looped_ ∧
    s.FixInterpolation.dataSize_ = s.dataSize_ ∧
    s.FixInterpolation.sixteenBit_ = s.sixteenBit_ ∧ s.FixInterpolation.stereo_ = s.stereo_ ∧
    s.FixInterpolation.compressed_ = s.compressed_ ∧
    s.FixInterpolation.frequency_ = s.frequency_ := by
  unfold Sound.FixInterpolation
  rw [range_IP_SAFETY]
  split
  · simp
  · split <;> simp [Sound.storeByte]

theorem FixInterpolation_mem_other (s : Sound) (off : Int)
    (h : off < s.end_ - s.start ∨ s.end_ - s.start + 4 ≤ off) :
    s.FixInterpolation.mem off = s.mem off := by
  unfold Sound.FixInterpolation
  rw [range_IP_SAFETY]
  split
  · rfl
  · split <;>
      simp only [List.foldl_cons, List.foldl_nil, Sound.storeByte, Function.update_apply] <;>
      repeat' (rw [if_neg (by push_cast; omega)])

theorem FixInterpolation_oneshot_guard (s : Sound) (h0 : s.start ≠ 0) (hl : s.looped_ = false)
    (i : Int) (hi : 0 ≤ i ∧ i < 4) : s.FixInterpolation.mem (s.end_ - s.start + i) = 0 := by
  unfold Sound.FixInterpolation
  rw [range_IP_SAFETY]
  simp only [h0, hl, if_false, List.foldl_cons, List.foldl_nil, Sound.storeByte,
    Function.update_apply, Bool.false_eq_true]
  push_cast
  split_ifs <;> first | rfl | omega


theorem SetLoop_eq (s : Sound) (r e : Nat) (hc : s.compressed_ = false) :
    s.SetLoop r e = Sound.FixInterpolation
      { s with repeat_ := s.start + ((min r s.dataSize_ &&& (4294967296 - s.GetSampleSize) : Nat) : Int),
               end_ := s.start + ((min e s.dataSize_ &&& (4294967296 - s.GetSampleSize) : Nat) : Int),
               looped_ := true } := by
  unfold Sound.SetLoop
  have h1 : (if r > s.dataSize_ then s.dataSize_ else r) = min r s.dataSize_ := by
    rw [Nat.min_def]; split <;> split <;> omega
  have h2 : (if e > s.dataSize_ then s.dataSize_ else e) = min e s.dataSize_ := by
    rw [Nat.min_def]; split <;> split <;> omega
  simp only [hc, Bool.not_false, if_true, h1, h2]

theorem SetLooped_false_eq (s : Sound) (hc : s.compressed_ = false) :
    s.SetLooped false = Sound.FixInterpolation
      { s with end_ := s.start + s.dataSize_, looped_ := false } := by
  unfold Sound.SetLooped
  simp [hc]

theorem SetLooped_true_eq (s : Sound) : s.SetLooped true = s.SetLoop 0 s.dataSize_ := by
  unfold Sound.SetLooped
  simp

theorem SetLoop_result (s : Sound) (r e : Nat) (hc : s.compressed_ = false)
    (hn : s.dataSize_ < 4294967296) :
    (s.SetLoop r e).start = s.start ∧
    (s.SetLoop r e).repeat_
      = s.start + ((s.GetSampleSize * (min r s.dataSize_ / s.GetSampleSize) : Nat) : Int) ∧
    (s.SetLoop r e).end_
      = s.start + ((s.GetSampleSize * (min e s.dataSize_ / s.GetSampleSize) : Nat) : Int) ∧
    (s.SetLoop r e).looped_ = true ∧ (s.SetLoop r e).dataSize_ = s.dataSize_ ∧
    (s.SetLoop r e).GetSampleSize = s.GetSampleSize ∧ (s.SetLoop r e).compressed_ = false := by
  obtain ⟨f1, f2, f3, f4, f5, f6, f7, f8, -⟩ := FixInterpolation_fields
    { s with repeat_ := s.start + ((min r s.dataSize_ &&& (4294967296 - s.GetSampleSize) : Nat) : Int),
             end_ := s.start + ((min e s.dataSize_ &&& (4294967296 - s.GetSampleSize) : Nat) : Int),
             looped_ := true }
  have hr : min r s.dataSize_ < 4294967296 := lt_of_le_of_lt (Nat.min_le_right _ _) hn
  have he : min e s.dataSize_ < 4294967296 := lt_of_le_of_lt (Nat.min_le_right _ _) hn
  have hsz : (s.SetLoop r e).GetSampleSize = s.GetSampleSize := by
    unfold Sound.GetSampleSize
    rw [SetLoop_eq s r e hc, f6, f7]
  rw [SetLoop_eq s r e hc] at hsz ⊢
  rw [f1, f2, f3, f4, f5, f8]
  refine ⟨rfl, ?_, ?_, rfl, rfl, hsz, hc⟩
  · simp only [land_sampleSize s _ hr]
  · simp only [land_sampleSize s _ he]

theorem oddSound_facts :
    oddSound.dataSize_ = 3 ∧ oddSound.compressed_ = false ∧ oddSound.start = 1000 ∧
    oddSound.end_ = 1003 ∧ oddSound.GetSampleSize = 2 := by
  refine ⟨rfl, rfl, rfl, ?_, rfl⟩
  decide

theorem storeByte_end (s : Sound) (a v : Int) : (s.storeByte a v).end_ = s.end_ := rfl

theorem storeByte_repeat (s : Sound) (a v : Int) : (s.storeByte a v).repeat_ = s.repeat_ := rfl

theorem FixInterpolation_looped_byte (s : Sound) (h0 : s.start ≠ 0) (hl : s.looped_ = true)
    (hre : s.repeat_ < s.end_) (i : Nat) (hi : i < 4) :
    s.FixInterpolation.byteAt (s.end_ + i)
      = s.byteAt (s.repeat_ + (i : Int) % (s.end_ - s.repeat_)) := by
  unfold Sound.FixInterpolation
  rw [range_IP_SAFETY]
  simp only [h0, hl, if_false, if_true, List.foldl_cons, List.foldl_nil, byteAt_storeByte,
    storeByte_end, storeByte_repeat]
  have hL : s.end_ = s.repeat_ + 1 ∨ s.end_ = s.repeat_ + 2 ∨ s.end_ = s.repeat_ + 3 ∨
      s.repeat_ + 4 ≤ s.end_ := by omega
  rcases hL with h | h | h | h
  · have hm : s.end_ - s.repeat_ = 1 := by omega
    rw [hm]
    simp only [h]
    interval_cases i <;> norm_num <;> (try split_ifs) <;>
      first
        | rfl
        | omega
        | (intro hh; first | omega | exact absurd (by omega) hh)
  · have hm : s.end_ - s.repeat_ = 2 := by omega
    rw [hm]
    simp only [h]
    interval_cases i <;> norm_num <;> (try split_ifs) <;>
      first
        | rfl
        | omega
        | (intro hh; first | omega | exact absurd (by omega) hh)
  · have hm : s.end_ - s.repeat_ = 3 := by omega
    rw [hm]
    simp only [h]
    interval_cases i <;> norm_num <;> (try split_ifs) <;>
      first
        | rfl
        | omega
        | (intro hh; first | omega | exact absurd (by omega) hh)
  · rw [Int.emod_eq_of_lt (by omega) (by omega)]
    interval_cases i <;> split_ifs <;> first | rfl | omega

theorem SetLoop_mem_other (s : Sound) (r e : Nat) (off : Int)
    (h : off < (s.SetLoop r e).end_ - (s.SetLoop r e).start ∨
      (s.SetLoop r e).end_ - (s.SetLoop r e).start + 4 ≤ off) :
    (s.SetLoop r e).mem off = s.mem off := by
  rcases hc : s.compressed_ with _ | _
  · obtain ⟨f1, f2, -⟩ := FixInterpolation_fields
      { s with repeat_ := s.start + ((min r s.dataSize_ &&& (4294967296 - s.GetSampleSize) : Nat) : Int),
               end_ := s.start + ((min e s.dataSize_ &&& (4294967296 - s.GetSampleSize) : Nat) : Int),
               looped_ := true }
    rw [SetLoop_eq s r e hc] at h ⊢
    rw [f1, f2] at h
    exact FixInterpolation_mem_other _ off h
  · unfold Sound.SetLoop
    simp [hc]

theorem SetLooped_mem_other (s : Sound) (b : Bool) (off : Int)
    (h : off < (s.SetLooped b).end_ - (s.SetLooped b).start ∨
      (s.SetLooped b).end_ - (s.SetLooped b).start + 4 ≤ off) :
    (s.SetLooped b).mem off = s.mem off := by
  cases b
  · rcases hc : s.compressed_ with _ | _
    · obtain ⟨f1, f2, -⟩ := FixInterpolation_fields
        { s with end_ := s.start + s.dataSize_, looped_ := false }
      rw [SetLooped_false_eq s hc] at h ⊢
      rw [f1, f2] at h
      exact FixInterpolation_mem_other _ off h
    · unfold Sound.SetLooped
      simp [hc]
  · rw [SetLooped_true_eq] at h ⊢
    exact SetLoop_mem_other s 0 s.dataSize_ off h

/-! ## Device set-up -/

theorem nextPowerOfTwoLoop_pow (value : Nat) :
    ∀ (fuel j : Nat), ∃ k : Nat, nextPowerOfTwoLoop fuel (2 ^ j) value = 2 ^ k := by
  intro fuel
  induction fuel with
  | zero => intro j; exact ⟨j, rfl⟩
  | succ n ih =>
    intro j
    unfold nextPowerOfTwoLoop
    split
    · have h := ih (j + 1)
      rw [Nat.pow_succ] at h
      exact h
    · exact ⟨j, rfl⟩

theorem NextPowerOfTwo_pow (value : Nat) : ∃ k : Nat, NextPowerOfTwo value = 2 ^ k :=
  nextPowerOfTwoLoop_pow value 32 0

theorem NextPowerOfTwo_256 (x : Nat) (h1 : 129 ≤ x) (h2 : x ≤ 256) : NextPowerOfTwo x = 256 := by
  simp (disch := omega) only [NextPowerOfTwo, nextPowerOfTwoLoop, if_pos, if_neg, and_self]

theorem NextPowerOfTwo_512 (x : Nat) (h1 : 257 ≤ x) (h2 : x ≤ 512) : NextPowerOfTwo x = 512 := by
  simp (disch := omega) only [NextPowerOfTwo, nextPowerOfTwoLoop, if_pos, if_neg, and_self]

theorem NextPowerOfTwo_1024 (x : Nat) (h1 : 513 ≤ x) (h2 : x ≤ 1024) :
    NextPowerOfTwo x = 1024 := by
  simp (disch := omega) only [NextPowerOfTwo, nextPowerOfTwoLoop, if_pos, if_neg, and_self]

theorem toInt_small (n : Nat) (h : n < 2147483648) : toInt n = n := by
  unfold toInt
  rw [if_pos h]

theorem Clamp_range {x lo hi : Int} (h : lo ≤ hi) : lo ≤ Clamp x lo hi ∧ Clamp x lo hi ≤ hi := by
  unfold Clamp
  split_ifs <;> constructor <;> omega

theorem fragment_lt (m : Int) (hm1 : 11025 ≤ m) (hm2 : m ≤ 48000) :
    32 * toInt (NextPowerOfTwo (m / 64).toNat) < m := by
  have hx : 172 ≤ (m / 64).toNat ∧ (m / 64).toNat ≤ 750 := by omega
  by_cases ha : (m / 64).toNat ≤ 256
  · rw [NextPowerOfTwo_256 _ (by omega) ha, toInt_small _ (by decide)]
    omega
  · by_cases hb : (m / 64).toNat ≤ 512
    · rw [NextPowerOfTwo_512 _ (by omega) hb, toInt_small _ (by decide)]
      omega
    · rw [NextPowerOfTwo_1024 _ (by omega) (by omega), toInt_small _ (by decide)]
      omega

theorem SetMode_success (a : Audio) (len mixRate : Int) (stereo ip : Bool) (dev : DeviceAnswer)
    (fresh : Nat → Int) (h : (a.SetMode len mixRate stereo ip dev fresh).2 = true) :
    (a.SetMode len mixRate stereo ip dev fresh).1.mixRate_ = Clamp mixRate MIN_MIXRATE MAX_MIXRATE ∧
    (a.SetMode len mixRate stereo ip dev fresh).1.fragmentSize_ =
      min (toInt (NextPowerOfTwo (Clamp mixRate MIN_MIXRATE MAX_MIXRATE / 64).toNat))
        (toInt dev.samples) ∧
    (a.SetMode len mixRate stereo ip dev fresh).1.stereo_ = decide (dev.channels = 2) ∧
    (a.SetMode len mixRate stereo ip dev fresh).1.clipSize =
      (if stereo then
        min (toInt (NextPowerOfTwo (Clamp mixRate MIN_MIXRATE MAX_MIXRATE / 64).toNat))
          (toInt dev.samples) * 2
       else min (toInt (NextPowerOfTwo (Clamp mixRate MIN_MIXRATE MAX_MIXRATE / 64).toNat))
          (toInt dev.samples)).toNat := by
  unfold Audio.SetMode at h ⊢
  by_cases h1 : dev.deviceID = 0
  · simp [h1] at h
  · by_cases h2 : dev.sixteenBitFormat = false
    · simp [h1, h2] at h
    · simp only [h1, h2, if_false]
      unfold Audio.Play
      simp only [Audio.Release, Audio.Stop]
      split_ifs <;> simp_all

/-! ## Clamping and the cursor step -/

theorem Clamp_mem {α : Type} [LinearOrder α] (x lo hi : α) (h : lo ≤ hi) :
    lo ≤ Clamp x lo hi ∧ Clamp x lo hi ≤ hi := by
  unfold Clamp
  split_ifs with h1 h2
  · exact ⟨le_refl _, h⟩
  · exact ⟨h, le_refl _⟩
  · exact ⟨not_lt.mp h1, not_lt.mp h2⟩

theorem Clamp_of_mem {α : Type} [LinearOrder α] (x lo hi : α) (h1 : lo ≤ x) (h2 : x ≤ hi) :
    Clamp x lo hi = x := by
  unfold Clamp
  rw [if_neg (not_lt.mpr h1), if_neg (not_lt.mpr h2)]

theorem Clamp_idem {α : Type} [LinearOrder α] (x lo hi : α) (h : lo ≤ hi) :
    Clamp (Clamp x lo hi) lo hi = Clamp x lo hi :=
  Clamp_of_mem _ lo hi (Clamp_mem x lo hi h).1 (Clamp_mem x lo hi h).2

theorem rawStep_exact (stride ia fa pos fp base k : Int) (hfp : 0 ≤ fp ∧ fp ≤ 65535)
    (hfa : 0 ≤ fa ∧ fa ≤ 65535) (hpos : pos = base + stride * k) :
    ∃ k2 : Int, (rawStep stride ia fa (pos, fp)).1 = base + stride * k2 ∧
      k2 * 65536 + (rawStep stride ia fa (pos, fp)).2 = k * 65536 + fp + ia * 65536 + fa ∧
      0 ≤ (rawStep stride ia fa (pos, fp)).2 ∧ (rawStep stride ia fa (pos, fp)).2 ≤ 65535 := by
  unfold rawStep
  by_cases hc : fp + fa > 65535
  · simp only [hc, if_true]
    refine ⟨k + ia + 1, by rw [hpos]; ring, by omega, by omega, by omega⟩
  · simp only [hc, if_false]
    refine ⟨k + ia, by rw [hpos]; ring, by omega, by omega, by omega⟩

/-! ## Control operations of a voice -/

theorem FreeDecoder_fields (v : SoundSource) :
    v.FreeDecoder.position_ = v.position_ ∧ v.FreeDecoder.sound_ = v.sound_ ∧
    v.FreeDecoder.decodeBuffer_ = none ∧
    ((v.decoder_.isSome = true → v.sound_.isSome = true) → v.FreeDecoder.decoder_ = none) := by
  unfold SoundSource.FreeDecoder
  split_ifs with hc
  · exact ⟨rfl, rfl, rfl, fun _ => rfl⟩
  · refine ⟨rfl, rfl, rfl, fun hinv => ?_⟩
    rcases hd : v.decoder_ with _ | d
    · rfl
    · exact absurd ⟨hinv (by rw [hd]; rfl), by rw [hd]; rfl⟩ hc

theorem Stop_eq (v : SoundSource) (hat : v.audioAttached = true) :
    v.Stop = (if v.position_ ≠ 0 then v.StopLockless else v).FreeDecoder := by
  unfold SoundSource.Stop
  simp [hat]

/-! ## Reduction of `Mix` to the integer loops -/

theorem Mix_uncompressed (v : SoundSource) (snd : Sound) (env : MixEnv) (dest : Nat → Int)
    (n : Nat) (mixRate : Int) (stereo ip : Bool) (hs : v.sound_ = some snd)
    (hc : snd.compressed_ = false) (hp : v.position_ ≠ 0) (he : v.enabledEffective = true) :
    v.Mix env dest n mixRate stereo ip =
      (v.mixRoutine env.masterGain snd dest n mixRate stereo ip).map
        fun r => (r.1.mixTime snd n mixRate, r.2) := by
  unfold SoundSource.Mix
  simp only [hs, hp, he, SoundSource.mixDecode, hc, Bool.false_eq_true, Bool.true_eq_false,
    or_self, if_false]

theorem MixMonoToMono_synth (v : SoundSource) (g : ℚ) (sound : Sound) (dest : Nat → Int)
    (n : Nat) (mixRate vol ia fa : Int)
    (hvol : truncQ (256 * (g * v.attenuation_ * v.gain_) + 1 / 2) = vol) (hv : vol ≠ 0)
    (hia : v.intAdd mixRate = ia) (hfa : v.fractAdd mixRate = fa) :
    v.MixMonoToMono g sound dest n mixRate =
      v.finishMix (mixLoops sound false ia fa
        (fun st => st.add (Int.tdiv (wrap32 (sound.shortAt st.pos * vol)) 256))
        (fun st => st.add (wrap32 (sound.byteAt st.pos * vol)))
        (preDecCount n) ⟨dest, 0, v.position_, v.fractPosition_⟩) := by
  subst hvol hia hfa
  simp only [SoundSource.MixMonoToMono, hv, if_false]
  rfl

theorem MixMonoToStereo_synth (v : SoundSource) (g : ℚ) (sound : Sound) (dest : Nat → Int)
    (n : Nat) (mixRate leftVol rightVol ia fa : Int)
    (hl : truncQ ((-v.panning_ + 1) * (256 * (g * v.attenuation_ * v.gain_) + 1 / 2)) = leftVol)
    (hr : truncQ ((v.panning_ + 1) * (256 * (g * v.attenuation_ * v.gain_) + 1 / 2)) = rightVol)
    (hv : ¬ (leftVol = 0 ∧ rightVol = 0))
    (hia : v.intAdd mixRate = ia) (hfa : v.fractAdd mixRate = fa) :
    v.MixMonoToStereo g sound dest n mixRate =
      v.finishMix (mixLoops sound false ia fa
        (fun st => (st.add (Int.tdiv (wrap32 (sound.shortAt st.pos * leftVol)) 256)).add
          (Int.tdiv (wrap32 (sound.shortAt st.pos * rightVol)) 256))
        (fun st => (st.add (wrap32 (sound.byteAt st.pos * leftVol))).add
          (wrap32 (sound.byteAt st.pos * rightVol)))
        (preDecCount n) ⟨dest, 0, v.position_, v.fractPosition_⟩) := by
  subst hl hr hia hfa
  simp only [SoundSource.MixMonoToStereo, hv, if_false]
  rfl

theorem MixZeroVolume_eq (v : SoundSource) (sound : Sound) (n : Nat) (mixRate ia fa : Int)
    (hia : truncQ (v.frequency_ * n / mixRate) = ia)
    (hfa : truncQ ((v.frequency_ * n / mixRate - ⌊v.frequency_ * n / mixRate⌋) * 65536) = fa) :
    v.MixZeroVolume sound n mixRate =
      (if (if v.fractPosition_ + fa > 65535 then v.position_ + sound.GetSampleSize
            else v.position_) + ia * sound.GetSampleSize > sound.end_ then
        if sound.looped_ then
          (wrapWhile ((if v.fractPosition_ + fa > 65535 then v.position_ + sound.GetSampleSize
            else v.position_) + ia * sound.GetSampleSize) sound.end_ sound.repeat_).map fun p =>
            { v with position_ := p,
                     fractPosition_ := if v.fractPosition_ + fa > 65535
                       then (v.fractPosition_ + fa) % 65536 else v.fractPosition_ + fa }
        else
          some { v with position_ := 0,
                        fractPosition_ := if v.fractPosition_ + fa > 65535
                          then (v.fractPosition_ + fa) % 65536 else v.fractPosition_ + fa }
      else
        some { v with position_ := (if v.fractPosition_ + fa > 65535
                          then v.position_ + sound.GetSampleSize else v.position_)
                        + ia * sound.GetSampleSize,
                      fractPosition_ := if v.fractPosition_ + fa > 65535
                        then (v.fractPosition_ + fa) % 65536 else v.fractPosition_ + fa }) := by
  subst hia hfa
  unfold SoundSource.MixZeroVolume
  simp only [decide_eq_true_eq]

theorem demo_volume : truncQ (256 * (demoEnv.masterGain * demoVoice.attenuation_ *
    demoVoice.gain_) + 1 / 2) = 256 := by
  norm_num [demoEnv, demoVoice, truncQ, Int.floor_eq_iff]

theorem muted_zeroVolume (sound : Sound) (hs : sound.stereo_ = false) :
    mutedVoice.zeroVolume demoEnv.masterGain sound false ∧
    mutedLoopVoice.zeroVolume demoEnv.masterGain sound false := by
  constructor <;>
    norm_num [SoundSource.zeroVolume, mutedVoice, mutedLoopVoice, demoVoice, demoEnv, truncQ, hs,
      Int.floor_eq_iff]

theorem muted_step :
    truncQ (mutedVoice.frequency_ * (4 : Nat) / (44100 : Int)) = 4 ∧
    truncQ ((mutedVoice.frequency_ * (4 : Nat) / (44100 : Int) -
      ⌊mutedVoice.frequency_ * (4 : Nat) / (44100 : Int)⌋) * 65536) = 0 := by
  constructor <;> norm_num [mutedVoice, demoVoice, truncQ]

theorem mutedLeft_volumes :
    truncQ ((-mutedLeftVoice.panning_ + 1) * (256 * (demoEnv.masterGain *
      mutedLeftVoice.attenuation_ * mutedLeftVoice.gain_) + 1 / 2)) = 1 ∧
    truncQ ((mutedLeftVoice.panning_ + 1) * (256 * (demoEnv.masterGain *
      mutedLeftVoice.attenuation_ * mutedLeftVoice.gain_) + 1 / 2)) = 0 ∧
    demoEnv.masterGain * mutedLeftVoice.attenuation_ * mutedLeftVoice.gain_ = 0 := by
  refine ⟨?_, ?_, ?_⟩ <;> norm_num [mutedLeftVoice, demoVoice, demoEnv, truncQ]

theorem whileLooped_terminates (body : MixRun → MixRun) (stride ia fa e r : Int) (h : r < e) :
    ∀ (n : Nat) (st : MixRun),
      ∃ st2, whileLooped body (INC_POS_LOOPED stride ia fa e r) n st = some st2 := by
  intro n
  induction n with
  | zero => intro st; exact ⟨st, rfl⟩
  | succ n ih =>
    intro st
    unfold whileLooped
    rw [INC_POS_LOOPED_raw]
    obtain ⟨p, hp, -⟩ := wrapWhile_spec
      (rawStep stride ia fa ((body st).pos, (body st).fractPos)).1 e r h
    rw [hp]
    simp only [Option.map_some', Option.some_bind]
    exact ih _

theorem wrap_branch_terminates (x e r : Int) (looped : Bool) (h : r < e)
    (f : Int → SoundSource) (a b : SoundSource) :
    ∃ w, (if x > e then if looped = true then (wrapWhile x e r).map f else some a
      else some b) = some w := by
  obtain ⟨p, hp, -⟩ := wrapWhile_spec x e r h
  rw [hp]
  split_ifs
  · exact ⟨_, rfl⟩
  · exact ⟨_, rfl⟩
  · exact ⟨_, rfl⟩

theorem MixZeroVolume_terminates (v : SoundSource) (sound : Sound) (n : Nat) (mixRate : Int)
    (h : sound.repeat_ < sound.end_) : ∃ w, v.MixZeroVolume sound n mixRate = some w := by
  rw [MixZeroVolume_eq v sound n mixRate _ _ rfl rfl]
  exact wrap_branch_terminates _ _ _ _ h _ _ _

theorem mixLoops_zero (sound : Sound) (stereoSource : Bool) (ia fa : Int)
    (body16 body8 : MixRun → MixRun) (st : MixRun) :
    mixLoops sound stereoSource ia fa body16 body8 0 st = some st := by
  unfold mixLoops
  split_ifs <;> rfl

theorem zeroVolume_mixTime (v : SoundSource) (snd sound : Sound) (n : Nat) (mixRate : Int)
    (g : ℚ) (stereo : Bool) :
    (v.mixTime snd n mixRate).zeroVolume g sound stereo ↔ v.zeroVolume g sound stereo := by
  unfold SoundSource.mixTime
  split_ifs <;> rfl

theorem mixTime_sound (v : SoundSource) (snd : Sound) (n : Nat) (mixRate : Int) :
    (v.mixTime snd n mixRate).sound_ = v.sound_ ∧
    (v.mixTime snd n mixRate).enabledEffective = v.enabledEffective := by
  unfold SoundSource.mixTime
  split_ifs <;> exact ⟨rfl, rfl⟩

theorem Mix_one_frame (v : SoundSource) (snd : Sound) (env : MixEnv) (dest : Nat → Int)
    (mixRate : Int) (stereo ip : Bool) (hs : v.sound_ = some snd)
    (hc : snd.compressed_ = false) (hp : v.position_ ≠ 0) (he : v.enabledEffective = true)
    (hz : ¬ v.zeroVolume env.masterGain snd stereo) :
    v.Mix env dest 1 mixRate stereo ip = some (v.mixTime snd 1 mixRate, dest) := by
  rw [Mix_uncompressed v snd env dest 1 mixRate stereo ip hs hc hp he]
  obtain ⟨f16, f8, hr⟩ := mixRoutine_synth v env.masterGain snd 1 mixRate stereo ip hz
  rw [hr dest, show preDecCount 1 = 0 from rfl, mixLoops_zero]
  rfl

/-! ## Mixing is uniform in the accumulation buffer -/

theorem optRel_map {α β : Type} (R : α → α → Prop) (S : β → β → Prop) (f g : α → β)
    (h : ∀ a b, R a b → S (f a) (g b)) :
    ∀ x y : Option α, optRel R x y → optRel S (x.map f) (y.map g)
  | some a, some b, hr => h a b hr
  | none, none, _ => trivial
  | some _, none, hr => hr.elim
  | none, some _, hr => hr.elim

theorem add_agree (P : Nat → Int → Int → Prop)
    (hP : ∀ i x a b, P i a b → P i (wrap32 (a + x)) (wrap32 (b + x)))
    (a b : MixRun) (x : Int) (h : runsAgree P a b) : runsAgree P (a.add x) (b.add x) := by
  obtain ⟨h1, h2, h3, h4⟩ := h
  refine ⟨?_, h2, h3, ?_⟩
  · show a.di + 1 = b.di + 1
    rw [h1]
  · intro i
    show P i (Function.update a.dest a.di (wrap32 (a.dest a.di + x)) i)
      (Function.update b.dest b.di (wrap32 (b.dest b.di + x)) i)
    rw [h1]
    by_cases hi : i = b.di
    · subst hi
      rw [Function.update_same, Function.update_same]
      exact hP _ _ _ _ (h4 _)
    · rw [Function.update_noteq hi, Function.update_noteq hi]
      exact h4 i

theorem foldl_add_agree (P : Nat → Int → Int → Prop)
    (hP : ∀ i x a b, P i a b → P i (wrap32 (a + x)) (wrap32 (b + x))) :
    ∀ (l : List Int) (a b : MixRun), runsAgree P a b →
      runsAgree P (l.foldl MixRun.add a) (l.foldl MixRun.add b)
  | [], _, _, h => h
  | x :: l, a, b, h => foldl_add_agree P hP l _ _ (add_agree P hP a b x h)

theorem emit_agree (P : Nat → Int → Int → Prop)
    (hP : ∀ i x a b, P i a b → P i (wrap32 (a + x)) (wrap32 (b + x)))
    (f : Int → Int → List Int) (a b : MixRun) (h : runsAgree P a b) :
    runsAgree P (emit f a) (emit f b) := by
  unfold emit
  rw [h.2.1, h.2.2.1]
  exact foldl_add_agree P hP _ a b h

theorem INC_POS_LOOPED_agree (P : Nat → Int → Int → Prop) (es ia fa e r : Int) (a b : MixRun)
    (h : runsAgree P a b) :
    optRel (runsAgree P) (INC_POS_LOOPED es ia fa e r a) (INC_POS_LOOPED es ia fa e r b) := by
  obtain ⟨h1, h2, h3, h4⟩ := h
  unfold INC_POS_LOOPED
  simp only [h2, h3]
  cases wrapWhile (if decide (b.fractPos + fa > 65535) = true then b.pos + es * ia + es
      else b.pos + es * ia) e r with
  | none => trivial
  | some p => exact ⟨h1, rfl, rfl, h4⟩

theorem INC_POS_STEREO_LOOPED_agree (P : Nat → Int → Int → Prop) (es ia fa e r : Int)
    (a b : MixRun) (h : runsAgree P a b) :
    optRel (runsAgree P) (INC_POS_STEREO_LOOPED es ia fa e r a)
      (INC_POS_STEREO_LOOPED es ia fa e r b) := by
  obtain ⟨h1, h2, h3, h4⟩ := h
  unfold INC_POS_STEREO_LOOPED
  simp only [h2, h3]
  cases wrapWhile (if decide (b.fractPos + fa > 65535) = true then b.pos + es * (2 * ia) + es * 2
      else b.pos + es * (2 * ia)) e r with
  | none => trivial
  | some p => exact ⟨h1, rfl, rfl, h4⟩

theorem INC_POS_ONESHOT_agree (P : Nat → Int → Int → Prop) (es ia fa e : Int) (a b : MixRun)
    (h : runsAgree P a b) :
    runsAgree P (INC_POS_ONESHOT es ia fa e a).1 (INC_POS_ONESHOT es ia fa e b).1 ∧
      (INC_POS_ONESHOT es ia fa e a).2 = (INC_POS_ONESHOT es ia fa e b).2 := by
  obtain ⟨h1, h2, h3, h4⟩ := h
  unfold INC_POS_ONESHOT
  simp only [h2, h3]
  split_ifs <;> exact ⟨⟨h1, rfl, rfl, h4⟩, rfl⟩

theorem INC_POS_STEREO_ONESHOT_agree (P : Nat → Int → Int → Prop) (es ia fa e : Int)
    (a b : MixRun) (h : runsAgree P a b) :
    runsAgree P (INC_POS_STEREO_ONESHOT es ia fa e a).1 (INC_POS_STEREO_ONESHOT es ia fa e b).1 ∧
      (INC_POS_STEREO_ONESHOT es ia fa e a).2 = (INC_POS_STEREO_ONESHOT es ia fa e b).2 := by
  obtain ⟨h1, h2, h3, h4⟩ := h
  unfold INC_POS_STEREO_ONESHOT
  simp only [h2, h3]
  split_ifs <;> exact ⟨⟨h1, rfl, rfl, h4⟩, rfl⟩

theorem whileLooped_agree (P : Nat → Int → Int → Prop) (body : MixRun → MixRun)
    (inc : MixRun → Option MixRun)
    (hb : ∀ a b, runsAgree P a b → runsAgree P (body a) (body b))
    (hi : ∀ a b, runsAgree P a b → optRel (runsAgree P) (inc a) (inc b)) :
    ∀ (n : Nat) (a b : MixRun), runsAgree P a b →
      optRel (runsAgree P) (whileLooped body inc n a) (whileLooped body inc n b) := by
  intro n
  induction n with
  | zero => intro a b h; exact h
  | succ n ih =>
    intro a b h
    unfold whileLooped
    have h2 := hi _ _ (hb a b h)
    cases ha : inc (body a) <;> cases hb2 : inc (body b) <;> rw [ha, hb2] at h2
    · trivial
    · exact h2.elim
    · exact h2.elim
    · exact ih _ _ h2

theorem whileOneshot_agree (P : Nat → Int → Int → Prop) (body : MixRun → MixRun)
    (inc : MixRun → MixRun × Bool)
    (hb : ∀ a b, runsAgree P a b → runsAgree P (body a) (body b))
    (hi : ∀ a b, runsAgree P a b → runsAgree P (inc a).1 (inc b).1 ∧ (inc a).2 = (inc b).2) :
    ∀ (n : Nat) (a b : MixRun), runsAgree P a b →
      runsAgree P (whileOneshot body inc n a) (whileOneshot body inc n b) := by
  intro n
  induction n with
  | zero => intro a b h; exact h
  | succ n ih =>
    intro a b h
    unfold whileOneshot
    obtain ⟨h2, h3⟩ := hi _ _ (hb a b h)
    simp only [h3]
    split_ifs
    · exact h2
    · exact ih _ _ h2

theorem mixLoops_agree (P : Nat → Int → Int → Prop)
    (hP : ∀ i x a b, P i a b → P i (wrap32 (a + x)) (wrap32 (b + x)))
    (sound : Sound) (stereoSource : Bool) (ia fa : Int) (f16 f8 : Int → Int → List Int)
    (n : Nat) (a b : MixRun) (h : runsAgree P a b) :
    optRel (runsAgree P) (mixLoops sound stereoSource ia fa (emit f16) (emit f8) n a)
      (mixLoops sound stereoSource ia fa (emit f16) (emit f8) n b) := by
  unfold mixLoops
  by_cases h16 : sound.sixteenBit_ = true <;> by_cases hl : sound.looped_ = true <;>
    cases stereoSource <;>
    simp only [h16, hl, if_true, if_false, Bool.false_eq_true]
  · exact whileLooped_agree P _ _ (emit_agree P hP _) (INC_POS_LOOPED_agree P _ _ _ _ _) n a b h
  · exact whileLooped_agree P _ _ (emit_agree P hP _)
      (INC_POS_STEREO_LOOPED_agree P _ _ _ _ _) n a b h
  · exact whileOneshot_agree P _ _ (emit_agree P hP _) (INC_POS_ONESHOT_agree P _ _ _ _) n a b h
  · exact whileOneshot_agree P _ _ (emit_agree P hP _)
      (INC_POS_STEREO_ONESHOT_agree P _ _ _ _) n a b h
  · exact whileLooped_agree P _ _ (emit_agree P hP _) (INC_POS_LOOPED_agree P _ _ _ _ _) n a b h
  · exact whileLooped_agree P _ _ (emit_agree P hP _)
      (INC_POS_STEREO_LOOPED_agree P _ _ _ _ _) n a b h
  · exact whileOneshot_agree P _ _ (emit_agree P hP _) (INC_POS_ONESHOT_agree P _ _ _ _) n a b h
  · exact whileOneshot_agree P _ _ (emit_agree P hP _)
      (INC_POS_STEREO_ONESHOT_agree P _ _ _ _) n a b h

theorem mixRoutine_agree (P : Nat → Int → Int → Prop)
    (hP : ∀ i x a b, P i a b → P i (wrap32 (a + x)) (wrap32 (b + x)))
    (v : SoundSource) (g : ℚ) (sound : Sound) (d d0 : Nat → Int) (n : Nat) (mixRate : Int)
    (stereo ip : Bool) (h : ∀ i, P i (d i) (d0 i)) :
    optRel (fun r r0 : SoundSource × (Nat → Int) => r.1 = r0.1 ∧ ∀ i, P i (r.2 i) (r0.2 i))
      (v.mixRoutine g sound d n mixRate stereo ip)
      (v.mixRoutine g sound d0 n mixRate stereo ip) := by
  by_cases hz : v.zeroVolume g sound stereo
  · rw [mixRoutine_zero _ _ _ _ _ _ _ _ hz, mixRoutine_zero _ _ _ _ _ _ _ _ hz]
    cases v.MixZeroVolume sound n mixRate with
    | none => trivial
    | some w => exact ⟨rfl, h⟩
  · obtain ⟨f16, f8, hr⟩ := mixRoutine_synth v g sound n mixRate stereo ip hz
    rw [hr d, hr d0]
    unfold SoundSource.finishMix
    refine optRel_map (runsAgree P) _ _ _ ?_ _ _
      (mixLoops_agree P hP sound sound.stereo_ _ _ f16 f8 _ _ _ ⟨rfl, rfl, rfl, h⟩)
    intro a b hab
    obtain ⟨-, h2, h3, h4⟩ := hab
    exact ⟨by simp only [h2, h3], h4⟩

theorem Mix_agree (P : Nat → Int → Int → Prop)
    (hP : ∀ i x a b, P i a b → P i (wrap32 (a + x)) (wrap32 (b + x)))
    (v : SoundSource) (env : MixEnv) (d d0 : Nat → Int) (n : Nat) (mixRate : Int)
    (stereo ip : Bool) (h : ∀ i, P i (d i) (d0 i)) :
    optRel (fun r r0 : SoundSource × (Nat → Int) => r.1 = r0.1 ∧ ∀ i, P i (r.2 i) (r0.2 i))
      (v.Mix env d n mixRate stereo ip) (v.Mix env d0 n mixRate stereo ip) := by
  unfold SoundSource.Mix
  cases v.sound_ with
  | none => exact ⟨rfl, h⟩
  | some snd =>
    simp only
    by_cases hpe : v.position_ = 0 ∨ v.enabledEffective = false
    · rw [if_pos hpe, if_pos hpe]
      exact ⟨rfl, h⟩
    · rw [if_neg hpe, if_neg hpe]
      cases v.mixDecode env snd with
      | none => trivial
      | some v1 =>
        simp only
        generalize (if snd.compressed_ = true then v1.decodeBuffer_ else some snd) = ob
        cases ob with
        | none => exact ⟨rfl, h⟩
        | some sound =>
          simp only
          refine optRel_map _ _ _ _ ?_ _ _
            (mixRoutine_agree P hP v1 env.masterGain sound d d0 n mixRate stereo ip h)
          intro a b hab
          exact ⟨by rw [hab.1], hab.2⟩

/-! ## The output stream -/

theorem storeShort_other (out : Nat → Int) (off : Nat) (x : Int) (k : Nat)
    (h1 : k ≠ off) (h2 : k ≠ off + 1) : storeShort out off x k = out k := by
  unfold storeShort
  rw [Function.update_noteq h2, Function.update_noteq h1]

theorem storeShort_low (out : Nat → Int) (off : Nat) (x : Int) :
    storeShort out off x off = x % 256 := by
  unfold storeShort
  rw [Function.update_noteq (by omega), Function.update_same]

theorem storeShort_high (out : Nat → Int) (off : Nat) (x : Int) :
    storeShort out off x (off + 1) = x / 256 % 256 := by
  unfold storeShort
  rw [Function.update_same]

theorem copyClamped_below (clip : Nat → Int) (destOff : Nat) :
    ∀ (n j : Nat) (out : Nat → Int) (k : Nat), k < destOff + 2 * j →
      Audio.copyClamped clip destOff n j out k = out k := by
  intro n
  induction n with
  | zero => intro j out k _; rfl
  | succ n ih =>
    intro j out k hk
    unfold Audio.copyClamped
    rw [ih (j + 1) _ k (by omega), storeShort_other _ _ _ _ (by omega) (by omega)]

theorem copyClamped_above (clip : Nat → Int) (destOff : Nat) :
    ∀ (n j : Nat) (out : Nat → Int) (k : Nat), destOff + 2 * (j + n) ≤ k →
      Audio.copyClamped clip destOff n j out k = out k := by
  intro n
  induction n with
  | zero => intro j out k _; rfl
  | succ n ih =>
    intro j out k hk
    unfold Audio.copyClamped
    rw [ih (j + 1) _ k (by omega), storeShort_other _ _ _ _ (by omega) (by omega)]

theorem copyClamped_bytes (clip : Nat → Int) (destOff : Nat) :
    ∀ (n j : Nat) (out : Nat → Int) (k : Nat), j ≤ k → k < j + n →
      Audio.copyClamped clip destOff n j out (destOff + 2 * k) =
          Clamp (clip k) (-32768) 32767 % 256 ∧
      Audio.copyClamped clip destOff n j out (destOff + 2 * k + 1) =
          Clamp (clip k) (-32768) 32767 / 256 % 256 := by
  intro n
  induction n with
  | zero => intro j out k h1 h2; omega
  | succ n ih =>
    intro j out k h1 h2
    unfold Audio.copyClamped
    by_cases hk : k = j
    · subst hk
      rw [copyClamped_below clip destOff n (k + 1) _ _ (by omega),
        copyClamped_below clip destOff n (k + 1) _ _ (by omega), storeShort_low, storeShort_high]
      exact ⟨rfl, rfl⟩
    · exact ih (j + 1) _ k (by omega) (by omega)

theorem loadShort_bytes (out : Nat → Int) (off : Nat) (x : Int) (hx : -32768 ≤ x ∧ x ≤ 32767)
    (h1 : out off = x % 256) (h2 : out (off + 1) = x / 256 % 256) : loadShort out off = x := by
  unfold loadShort
  rw [h1, h2]
  omega

theorem Clamp_eq_min_max (x lo hi : Int) (h : lo ≤ hi) : Clamp x lo hi = min (max x lo) hi := by
  unfold Clamp
  split_ifs <;> omega

theorem copyClamped_congr (c1 c2 : Nat → Int) (destOff : Nat) :
    ∀ (n j : Nat) (out : Nat → Int), (∀ k, j ≤ k → k < j + n → c1 k = c2 k) →
      Audio.copyClamped c1 destOff n j out = Audio.copyClamped c2 destOff n j out := by
  intro n
  induction n with
  | zero => intro j out _; rfl
  | succ n ih =>
    intro j out h
    unfold Audio.copyClamped
    rw [h j (le_refl _) (by omega)]
    exact ih (j + 1) _ (fun k hk1 hk2 => h k (by omega) (by omega))

theorem mixFragment_some (a : Audio) (env : Nat → MixEnv) (clip out : Nat → Int)
    (destOff samples : Nat) (f : Audio.Fragment)
    (h : a.mixFragment env clip out destOff samples = some f) :
    f.out = Audio.copyClamped f.mixed destOff f.clipSamples 0 out ∧
    f.workSamples = toUnsigned (min (toInt samples) a.fragmentSize_) ∧
    f.clipSamples = (if a.stereo_ then f.workSamples * 2 else f.workSamples) ∧
    Audio.mixSources env f.workSamples a.mixRate_ a.stereo_ a.interpolation_ a.soundSources_ 0
      (fun i => if i < f.clipSamples then 0 else clip i) = some (f.sources, f.mixed) := by
  unfold Audio.mixFragment at h
  simp only at h
  cases hm : Audio.mixSources env (toUnsigned (min (toInt samples) a.fragmentSize_)) a.mixRate_
      a.stereo_ a.interpolation_ a.soundSources_ 0
      (fun i => if i < (if a.stereo_ = true then
        toUnsigned (min (toInt samples) a.fragmentSize_) * 2
        else toUnsigned (min (toInt samples) a.fragmentSize_)) then 0 else clip i) with
  | none => rw [hm] at h; exact absurd h (by simp)
  | some r =>
    rw [hm, Option.map_some', Option.some.injEq] at h
    subst h
    exact ⟨rfl, rfl, rfl, hm⟩

theorem uncompressed_Mix_terminates (v : SoundSource) (snd : Sound) (env : MixEnv)
    (dest : Nat → Int) (samples : Nat) (mixRate : Int) (stereo ip : Bool)
    (hs : v.sound_ = some snd) (hc : snd.compressed_ = false) (hl : snd.looped_ = false) :
    ∃ r, v.Mix env dest samples mixRate stereo ip = some r := by
  by_cases hp : v.position_ = 0
  · exact ⟨_, Mix_of_null_position v hp env dest samples mixRate stereo ip⟩
  · by_cases he : v.enabledEffective = true
    · rw [Mix_uncompressed v snd env dest samples mixRate stereo ip hs hc hp he]
      by_cases hz : v.zeroVolume env.masterGain snd stereo
      · rw [mixRoutine_zero _ _ _ _ _ _ _ _ hz, MixZeroVolume_eq v snd samples mixRate _ _ rfl rfl]
        simp only [hl, Bool.false_eq_true, if_false]
        split_ifs <;> exact ⟨_, rfl⟩
      · obtain ⟨f16, f8, hr⟩ := mixRoutine_synth v env.masterGain snd samples mixRate stereo ip hz
        rw [hr dest, mixLoops_oneshot _ _ _ _ _ _ _ hl]
        exact ⟨_, rfl⟩
    · refine ⟨(v, dest), ?_⟩
      unfold SoundSource.Mix
      simp [hs, he]

/-! ## A render pass -/

theorem mixSources_agree (P : Nat → Int → Int → Prop)
    (hP : ∀ i x a b, P i a b → P i (wrap32 (a + x)) (wrap32 (b + x)))
    (env : Nat → MixEnv) (ws : Nat) (mixRate : Int) (stereo ip : Bool) :
    ∀ (l : List SoundSource) (i0 : Nat) (c c0 : Nat → Int), (∀ i, P i (c i) (c0 i)) →
      optRel (fun r r0 : List SoundSource × (Nat → Int) =>
          r.1 = r0.1 ∧ ∀ i, P i (r.2 i) (r0.2 i))
        (Audio.mixSources env ws mixRate stereo ip l i0 c)
        (Audio.mixSources env ws mixRate stereo ip l i0 c0) := by
  intro l
  induction l with
  | nil => intro i0 c c0 h; exact ⟨rfl, h⟩
  | cons v vs ih =>
    intro i0 c c0 h
    unfold Audio.mixSources
    have hm := Mix_agree P hP v (env i0) c c0 ws mixRate stereo ip h
    cases hA : v.Mix (env i0) c ws mixRate stereo ip with
    | none =>
      cases hB : v.Mix (env i0) c0 ws mixRate stereo ip with
      | none => trivial
      | some r0 =>
        rw [hA, hB] at hm
        exact hm.elim
    | some r =>
      cases hB : v.Mix (env i0) c0 ws mixRate stereo ip with
      | none =>
        rw [hA, hB] at hm
        exact hm.elim
      | some r0 =>
        rw [hA, hB] at hm
        simp only
        obtain ⟨h1, h2⟩ := hm
        refine optRel_map _ _ _ _ ?_ _ _ (ih (i0 + 1) _ _ h2)
        intro t t0 ht
        exact ⟨by rw [h1, ht.1], ht.2⟩

theorem mixFragment_clip_free (a : Audio) (env : Nat → MixEnv) (cb1 cb2 : Option (Nat → Int))
    (clip1 clip2 out : Nat → Int) (destOff samples : Nat) :
    optRel (fun f1 f2 : Audio.Fragment =>
        f1.workSamples = f2.workSamples ∧ f1.sources = f2.sources ∧ f1.out = f2.out)
      (Audio.mixFragment { a with clipBuffer_ := cb1 } env clip1 out destOff samples)
      (Audio.mixFragment { a with clipBuffer_ := cb2 } env clip2 out destOff samples) := by
  unfold Audio.mixFragment
  simp only
  refine optRel_map _ _ _ _ ?_ _ _
    (mixSources_agree
      (fun i x y => i < (if a.stereo_ = true then
        toUnsigned (min (toInt samples) a.fragmentSize_) * 2
        else toUnsigned (min (toInt samples) a.fragmentSize_)) → x = y)
      (fun i x p q hpq hi => by rw [hpq hi]) env _ a.mixRate_ a.stereo_ a.interpolation_
      a.soundSources_ 0 _ _ ?_)
  · intro r r0 hr
    refine ⟨rfl, hr.1, ?_⟩
    exact copyClamped_congr _ _ _ _ _ _ (fun k _ hk => hr.2 k (by omega))
  · intro i hi
    simp only [hi, if_true]

theorem mixOutputLoop_clip_free (env : Nat → MixEnv) :
    ∀ (fuel : Nat) (a : Audio) (cb1 cb2 : Option (Nat → Int)) (clip1 clip2 out : Nat → Int)
      (destOff samples : Nat),
      (Audio.mixOutputLoop env fuel { a with clipBuffer_ := cb1 } clip1 out destOff samples).map
          (fun r => (({ r.1 with clipBuffer_ := none } : Audio), r.2)) =
        (Audio.mixOutputLoop env fuel { a with clipBuffer_ := cb2 } clip2 out destOff samples).map
          (fun r => (({ r.1 with clipBuffer_ := none } : Audio), r.2)) := by
  intro fuel
  induction fuel with
  | zero => intro a cb1 cb2 clip1 clip2 out destOff samples; rfl
  | succ fuel ih =>
    intro a cb1 cb2 clip1 clip2 out destOff samples
    unfold Audio.mixOutputLoop
    by_cases hs : samples = 0
    · rw [if_pos hs, if_pos hs]
      rfl
    · rw [if_neg hs, if_neg hs]
      have hf := mixFragment_clip_free a env cb1 cb2 clip1 clip2 out destOff samples
      cases hA : Audio.mixFragment { a with clipBuffer_ := cb1 } env clip1 out destOff samples with
      | none =>
        cases hB : Audio.mixFragment { a with clipBuffer_ := cb2 } env clip2 out destOff
            samples with
        | none => rfl
        | some f2 =>
          rw [hA, hB] at hf
          exact hf.elim
      | some f1 =>
        cases hB : Audio.mixFragment { a with clipBuffer_ := cb2 } env clip2 out destOff
            samples with
        | none =>
          rw [hA, hB] at hf
          exact hf.elim
        | some f2 =>
          rw [hA, hB] at hf
          obtain ⟨h1, h2, h3⟩ := hf
          simp only [h1, h2, h3]
          exact ih { a with soundSources_ := f2.sources } cb1 cb2 _ _ _ _ _

theorem Mix_idle (v : SoundSource) (h : v.IsPlaying = false) (env : MixEnv) (dest : Nat → Int)
    (n : Nat) (mixRate : Int) (stereo ip : Bool) :
    v.Mix env dest n mixRate stereo ip = some (v, dest) := by
  unfold SoundSource.IsPlaying at h
  cases hs : v.sound_ with
  | none =>
    unfold SoundSource.Mix
    rw [hs]
  | some snd =>
    rw [hs] at h
    have hp : v.position_ = 0 := by simpa using h
    exact Mix_of_null_position v hp env dest n mixRate stereo ip

theorem mixSources_idle (env : Nat → MixEnv) (ws : Nat) (mixRate : Int) (stereo ip : Bool) :
    ∀ (l : List SoundSource) (i0 : Nat) (c : Nat → Int), (∀ v ∈ l, v.IsPlaying = false) →
      Audio.mixSources env ws mixRate stereo ip l i0 c = some (l, c) := by
  intro l
  induction l with
  | nil => intro i0 c _; rfl
  | cons v vs ih =>
    intro i0 c h
    unfold Audio.mixSources
    rw [Mix_idle v (h v (List.mem_cons_self _ _))]
    simp only
    rw [ih (i0 + 1) c (fun w hw => h w (List.mem_cons_of_mem _ hw))]
    rfl

theorem workSamples_bounds (samples : Nat) (frag : Int) (h0 : samples ≠ 0)
    (hs : samples < 2147483648) (hf : 0 < frag) :
    1 ≤ toUnsigned (min (toInt samples) frag) ∧
      toUnsigned (min (toInt samples) frag) ≤ samples := by
  rw [toInt_small samples hs]
  unfold toUnsigned
  rw [if_pos (by omega)]
  omega

theorem copyClamped_zero (clip : Nat → Int) (destOff n : Nat) (out : Nat → Int)
    (hc : ∀ j, j < n → clip j = 0) (ho : ∀ i, i < destOff → out i = 0) :
    ∀ i, i < destOff + 2 * n → Audio.copyClamped clip destOff n 0 out i = 0 := by
  intro i hi
  by_cases hlt : i < destOff
  · rw [copyClamped_below _ _ _ _ _ _ (by omega)]
    exact ho i hlt
  · have hb := copyClamped_bytes clip destOff n 0 out ((i - destOff) / 2) (Nat.zero_le _)
      (by omega)
    rw [hc _ (by omega)] at hb
    rcases Nat.mod_two_eq_zero_or_one (i - destOff) with hm | hm
    · have : destOff + 2 * ((i - destOff) / 2) = i := by omega
      rw [this] at hb
      rw [hb.1]
      rfl
    · have : destOff + 2 * ((i - destOff) / 2) + 1 = i := by omega
      rw [this] at hb
      rw [hb.2]
      rfl

theorem mixOutputLoop_idle (env : Nat → MixEnv) :
    ∀ (fuel : Nat) (a : Audio) (clip out : Nat → Int) (destOff samples : Nat),
      samples < fuel → 0 < a.fragmentSize_ → samples < 2147483648 →
      a.sampleSize_ = (if a.stereo_ then 4 else 2) →
      (∀ v ∈ a.soundSources_, v.IsPlaying = false) → (∀ i, i < destOff → out i = 0) →
      ∃ r, Audio.mixOutputLoop env fuel a clip out destOff samples = some r ∧
        (∀ i, i < destOff + a.sampleSize_ * samples → r.2 i = 0) ∧
        r.1.soundSources_ = a.soundSources_ := by
  intro fuel
  induction fuel with
  | zero => intro a clip out destOff samples h; omega
  | succ fuel ih =>
    intro a clip out destOff samples hfuel hfrag hs hsz hidle hout
    unfold Audio.mixOutputLoop
    by_cases h0 : samples = 0
    · rw [if_pos h0]
      refine ⟨_, rfl, ?_, rfl⟩
      intro i hi
      subst h0
      exact hout i (by simpa using hi)
    · rw [if_neg h0]
      obtain ⟨hw1, hw2⟩ := workSamples_bounds samples a.fragmentSize_ h0 hs hfrag
      have hfr : a.mixFragment env clip out destOff samples = some
          ⟨toUnsigned (min (toInt samples) a.fragmentSize_),
            (if a.stereo_ then toUnsigned (min (toInt samples) a.fragmentSize_) * 2
              else toUnsigned (min (toInt samples) a.fragmentSize_)),
            (fun i => if i < (if a.stereo_ then
                toUnsigned (min (toInt samples) a.fragmentSize_) * 2
              else toUnsigned (min (toInt samples) a.fragmentSize_)) then 0 else clip i),
            a.soundSources_,
            Audio.copyClamped (fun i => if i < (if a.stereo_ then
                toUnsigned (min (toInt samples) a.fragmentSize_) * 2
              else toUnsigned (min (toInt samples) a.fragmentSize_)) then 0 else clip i) destOff
              (if a.stereo_ then toUnsigned (min (toInt samples) a.fragmentSize_) * 2
                else toUnsigned (min (toInt samples) a.fragmentSize_)) 0 out⟩ := by
        unfold Audio.mixFragment
        simp only
        rw [mixSources_idle env _ _ _ _ _ _ _ hidle]
        rfl
      rw [hfr]
      simp only [hw2, if_true]
      generalize hws : toUnsigned (min (toInt samples) a.fragmentSize_) = ws at hw1 hw2
      have hbytes : 2 * (if a.stereo_ = true then ws * 2 else ws) = a.sampleSize_ * ws := by
        rw [hsz]
        split_ifs <;> omega
      obtain ⟨r, hr, hz, hsrc⟩ := ih { a with soundSources_ := a.soundSources_ }
        (fun i => if i < (if a.stereo_ = true then ws * 2 else ws) then 0 else clip i)
        (Audio.copyClamped (fun i => if i < (if a.stereo_ = true then ws * 2 else ws) then 0
          else clip i) destOff (if a.stereo_ = true then ws * 2 else ws) 0 out)
        (destOff + a.sampleSize_ * ws) (samples - ws) (by omega) hfrag (by omega) hsz hidle
        (by
          intro i hi
          apply copyClamped_zero _ _ _ _ _ hout i (by omega)
          intro j hj
          simp only [hj, if_true])
      refine ⟨r, hr, ?_, hsrc⟩
      intro i hi
      apply hz
      have : a.sampleSize_ * ws + a.sampleSize_ * (samples - ws) = a.sampleSize_ * samples := by
        rw [← Nat.mul_add]
        congr 1
        omega
      show i < destOff + a.sampleSize_ * ws + a.sampleSize_ * (samples - ws)
      omega

/-! ## The fractional cursor -/

theorem rawStep_fract_range (stride ia fa : Int) (c : Int × Int) (hfa : 0 ≤ fa ∧ fa ≤ 65535)
    (hc : 0 ≤ c.2 ∧ c.2 ≤ 65535) :
    0 ≤ (rawStep stride ia fa c).2 ∧ (rawStep stride ia fa c).2 ≤ 65535 := by
  unfold rawStep
  split_ifs
  · show 0 ≤ (c.2 + fa) % 65536 ∧ (c.2 + fa) % 65536 ≤ 65535
    omega
  · show 0 ≤ c.2 + fa ∧ c.2 + fa ≤ 65535
    omega

theorem whileLooped_fract (f : Int → Int → List Int) (stride ia fa e r : Int)
    (hfa : 0 ≤ fa ∧ fa ≤ 65535) :
    ∀ (n : Nat) (st st2 : MixRun), 0 ≤ st.fractPos ∧ st.fractPos ≤ 65535 →
      whileLooped (emit f) (INC_POS_LOOPED stride ia fa e r) n st = some st2 →
      0 ≤ st2.fractPos ∧ st2.fractPos ≤ 65535 := by
  intro n
  induction n with
  | zero =>
    intro st st2 h hs
    have : st = st2 := Option.some.inj hs
    rw [← this]
    exact h
  | succ n ih =>
    intro st st2 h hs
    unfold whileLooped at hs
    rw [INC_POS_LOOPED_raw, emit_pos, emit_fractPos] at hs
    cases hw : wrapWhile (rawStep stride ia fa (st.pos, st.fractPos)).1 e r with
    | none =>
      rw [hw] at hs
      exact absurd hs (by simp)
    | some p =>
      rw [hw] at hs
      exact ih _ st2 (rawStep_fract_range stride ia fa (st.pos, st.fractPos) hfa h) hs

theorem whileOneshot_fract (f : Int → Int → List Int) (stride ia fa e : Int)
    (hfa : 0 ≤ fa ∧ fa ≤ 65535) :
    ∀ (n : Nat) (st : MixRun), 0 ≤ st.fractPos ∧ st.fractPos ≤ 65535 →
      0 ≤ (whileOneshot (emit f) (INC_POS_ONESHOT stride ia fa e) n st).fractPos ∧
        (whileOneshot (emit f) (INC_POS_ONESHOT stride ia fa e) n st).fractPos ≤ 65535 := by
  intro n
  induction n with
  | zero => intro st h; exact h
  | succ n ih =>
    intro st h
    unfold whileOneshot
    simp only [INC_POS_ONESHOT_raw, emit_pos, emit_fractPos]
    have hr := rawStep_fract_range stride ia fa (st.pos, st.fractPos) hfa h
    by_cases hb : e ≤ (rawStep stride ia fa (st.pos, st.fractPos)).1
    · simp only [hb, if_true]
      exact hr
    · simp only [hb, if_false, Bool.false_eq_true]
      exact ih _ hr

theorem fractAdd_range (v : SoundSource) (mixRate : Int) :
    0 ≤ v.fractAdd mixRate ∧ v.fractAdd mixRate ≤ 65535 :=
  truncQ_fract_range _

theorem MixZeroVolume_fract (v : SoundSource) (sound : Sound) (n : Nat) (mixRate : Int)
    (w : SoundSource) (hf : 0 ≤ v.fractPosition_ ∧ v.fractPosition_ ≤ 65535)
    (h : v.MixZeroVolume sound n mixRate = some w) :
    0 ≤ w.fractPosition_ ∧ w.fractPosition_ ≤ 65535 := by
  have hfa := truncQ_fract_range (v.frequency_ * n / mixRate)
  have hx : 0 ≤ (if v.fractPosition_ + truncQ ((v.frequency_ * n / mixRate -
        ⌊v.frequency_ * n / mixRate⌋) * 65536) > 65535
      then (v.fractPosition_ + truncQ ((v.frequency_ * n / mixRate -
        ⌊v.frequency_ * n / mixRate⌋) * 65536)) % 65536
      else v.fractPosition_ + truncQ ((v.frequency_ * n / mixRate -
        ⌊v.frequency_ * n / mixRate⌋) * 65536)) ∧
      (if v.fractPosition_ + truncQ ((v.frequency_ * n / mixRate -
        ⌊v.frequency_ * n / mixRate⌋) * 65536) > 65535
      then (v.fractPosition_ + truncQ ((v.frequency_ * n / mixRate -
        ⌊v.frequency_ * n / mixRate⌋) * 65536)) % 65536
      else v.fractPosition_ + truncQ ((v.frequency_ * n / mixRate -
        ⌊v.frequency_ * n / mixRate⌋) * 65536)) ≤ 65535 := by
    split_ifs <;> omega
  rw [MixZeroVolume_eq v sound n mixRate _ _ rfl rfl] at h
  by_cases hc : (if v.fractPosition_ + truncQ ((v.frequency_ * n / mixRate -
        ⌊v.frequency_ * n / mixRate⌋) * 65536) > 65535 then v.position_ + sound.GetSampleSize
      else v.position_) + truncQ (v.frequency_ * n / mixRate) * sound.GetSampleSize > sound.end_
  · rw [if_pos hc] at h
    by_cases hl : sound.looped_ = true
    · rw [if_pos hl] at h
      obtain ⟨p, -, hp⟩ := Option.map_eq_some'.mp h
      rw [← hp]
      exact hx
    · rw [if_neg hl] at h
      rw [← Option.some.inj h]
      exact hx
  · rw [if_neg hc] at h
    rw [← Option.some.inj h]
    exact hx

theorem mixRoutine_fract (v : SoundSource) (g : ℚ) (sound : Sound) (dest : Nat → Int)
    (n : Nat) (mixRate : Int) (stereo ip : Bool) (r : SoundSource × (Nat → Int))
    (hf : 0 ≤ v.fractPosition_ ∧ v.fractPosition_ ≤ 65535)
    (h : v.mixRoutine g sound dest n mixRate stereo ip = some r) :
    0 ≤ r.1.fractPosition_ ∧ r.1.fractPosition_ ≤ 65535 := by
  by_cases hz : v.zeroVolume g sound stereo
  · rw [mixRoutine_zero _ _ _ _ _ _ _ _ hz] at h
    obtain ⟨w, hw, hr⟩ := Option.map_eq_some'.mp h
    rw [← hr]
    exact MixZeroVolume_fract v sound n mixRate w hf hw
  · obtain ⟨f16, f8, hr⟩ := mixRoutine_synth v g sound n mixRate stereo ip hz
    rw [hr dest] at h
    unfold SoundSource.finishMix at h
    obtain ⟨st2, hst, hr2⟩ := Option.map_eq_some'.mp h
    rw [← hr2]
    show 0 ≤ st2.fractPos ∧ st2.fractPos ≤ 65535
    by_cases hl : sound.looped_ = true
    · rw [mixLoops_looped _ _ _ _ _ _ _ hl, ite_emit] at hst
      exact whileLooped_fract _ _ _ _ _ _ (fractAdd_range v mixRate) _ _ st2 hf hst
    · rw [mixLoops_oneshot _ _ _ _ _ _ _ (by simpa using hl), ite_emit] at hst
      rw [← Option.some.inj hst]
      exact whileOneshot_fract _ _ _ _ _ (fractAdd_range v mixRate) _ _ hf

theorem mixDecode_fract (v v1 : SoundSource) (env : MixEnv) (snd : Sound)
    (hf : 0 ≤ v.fractPosition_ ∧ v.fractPosition_ ≤ 65535)
    (h : v.mixDecode env snd = some v1) :
    0 ≤ v1.fractPosition_ ∧ v1.fractPosition_ ≤ 65535 := by
  unfold SoundSource.mixDecode at h
  split_ifs at h
  · cases hb : v.decodeBuffer_ with
    | none => rw [hb] at h; exact absurd h (by simp)
    | some buf =>
      rw [hb] at h
      rw [← Option.some.inj h]
      exact hf
  · rw [← Option.some.inj h]
    exact ⟨le_refl _, show (0 : Int) ≤ 65535 by decide⟩
  · rw [← Option.some.inj h]
    exact hf

/-! ## Two loops run side by side -/

theorem mixLoops_nf (sound : Sound) (stereoSource : Bool) (ia fa : Int)
    (body16 body8 : MixRun → MixRun) (n : Nat) (st : MixRun) :
    mixLoops sound stereoSource ia fa body16 body8 n st =
      if sound.looped_ then
        whileLooped (if sound.sixteenBit_ then body16 else body8)
          (INC_POS_LOOPED (frameStride sound stereoSource) ia fa sound.end_ sound.repeat_) n st
      else
        some (whileOneshot (if sound.sixteenBit_ then body16 else body8)
          (INC_POS_ONESHOT (frameStride sound stereoSource) ia fa sound.end_) n st) := by
  have e1 : INC_POS_STEREO_LOOPED 2 ia fa sound.end_ sound.repeat_ =
      INC_POS_LOOPED (2 * 2) ia fa sound.end_ sound.repeat_ :=
    funext fun t => INC_POS_STEREO_LOOPED_eq 2 ia fa sound.end_ sound.repeat_ t
  have e2 : INC_POS_STEREO_LOOPED 1 ia fa sound.end_ sound.repeat_ =
      INC_POS_LOOPED (2 * 1) ia fa sound.end_ sound.repeat_ :=
    funext fun t => INC_POS_STEREO_LOOPED_eq 1 ia fa sound.end_ sound.repeat_ t
  have e3 : INC_POS_STEREO_ONESHOT 2 ia fa sound.end_ =
      INC_POS_ONESHOT (2 * 2) ia fa sound.end_ :=
    funext fun t => INC_POS_STEREO_ONESHOT_eq 2 ia fa sound.end_ t
  have e4 : INC_POS_STEREO_ONESHOT 1 ia fa sound.end_ =
      INC_POS_ONESHOT (2 * 1) ia fa sound.end_ :=
    funext fun t => INC_POS_STEREO_ONESHOT_eq 1 ia fa sound.end_ t
  unfold mixLoops frameStride
  rcases hb : sound.sixteenBit_ <;> rcases hl : sound.looped_ <;> rcases stereoSource <;>
    simp only [Bool.false_eq_true, if_false, if_true, e1, e2, e3, e4, one_mul]

theorem whileLooped_rel (R : MixRun → MixRun → Prop) (bodyA bodyB : MixRun → MixRun)
    (incA incB : MixRun → Option MixRun)
    (h : ∀ a b, R a b → optRel R (incA (bodyA a)) (incB (bodyB b))) :
    ∀ (n : Nat) (a b : MixRun), R a b →
      optRel R (whileLooped bodyA incA n a) (whileLooped bodyB incB n b) := by
  intro n
  induction n with
  | zero => intro a b hab; exact hab
  | succ n ih =>
    intro a b hab
    unfold whileLooped
    have h2 := h a b hab
    cases hA : incA (bodyA a) with
    | none =>
      cases hB : incB (bodyB b) with
      | none => trivial
      | some b2 => rw [hA, hB] at h2; exact h2.elim
    | some a2 =>
      cases hB : incB (bodyB b) with
      | none => rw [hA, hB] at h2; exact h2.elim
      | some b2 =>
        rw [hA, hB] at h2
        exact ih a2 b2 h2

theorem whileOneshot_rel (R : MixRun → MixRun → Prop) (bodyA bodyB : MixRun → MixRun)
    (incA incB : MixRun → MixRun × Bool)
    (h : ∀ a b, R a b → R (incA (bodyA a)).1 (incB (bodyB b)).1 ∧
      (incA (bodyA a)).2 = (incB (bodyB b)).2) :
    ∀ (n : Nat) (a b : MixRun), R a b →
      R (whileOneshot bodyA incA n a) (whileOneshot bodyB incB n b) := by
  intro n
  induction n with
  | zero => intro a b hab; exact hab
  | succ n ih =>
    intro a b hab
    unfold whileOneshot
    obtain ⟨h2, h3⟩ := h a b hab
    simp only [h3]
    split_ifs
    · exact h2
    · exact ih _ _ h2

theorem optRel_eq {α : Type} (P : α → Prop) :
    ∀ x y : Option α, optRel (fun a b => a = b ∧ P a) x y → x = y
  | some _, some _, h => congrArg some h.1
  | none, none, _ => rfl
  | some _, none, h => h.elim
  | none, some _, h => h.elim

theorem add_pos (st : MixRun) (x : Int) :
    (st.add x).pos = st.pos ∧ (st.add x).fractPos = st.fractPos :=
  ⟨rfl, rfl⟩

/-- When the two bodies agree on every state with fractional cursor 0, keep the
cursor, and the fractional step is 0, the two loops are the same. -/
theorem mixLoops_fract_zero (sound : Sound) (stereoSource : Bool) (ia : Int)
    (b16A b8A b16B b8B : MixRun → MixRun)
    (h16 : ∀ st, st.fractPos = 0 → b16A st = b16B st)
    (h8 : ∀ st, st.fractPos = 0 → b8A st = b8B st)
    (k16 : ∀ st, (b16B st).pos = st.pos ∧ (b16B st).fractPos = st.fractPos)
    (k8 : ∀ st, (b8B st).pos = st.pos ∧ (b8B st).fractPos = st.fractPos)
    (n : Nat) (st : MixRun) (hst : st.fractPos = 0) :
    mixLoops sound stereoSource ia 0 b16A b8A n st =
      mixLoops sound stereoSource ia 0 b16B b8B n st := by
  have hbody : ∀ a, a.fractPos = 0 →
      (if sound.sixteenBit_ then b16A else b8A) a = (if sound.sixteenBit_ then b16B else b8B) a := by
    intro a ha
    cases sound.sixteenBit_
    · exact h8 a ha
    · exact h16 a ha
  have hkeep : ∀ a, ((if sound.sixteenBit_ then b16B else b8B) a).pos = a.pos ∧
      ((if sound.sixteenBit_ then b16B else b8B) a).fractPos = a.fractPos := by
    intro a
    cases sound.sixteenBit_
    · exact k8 a
    · exact k16 a
  rw [mixLoops_nf, mixLoops_nf]
  by_cases hl : sound.looped_ = true
  · rw [if_pos hl, if_pos hl]
    apply optRel_eq (fun a => a.fractPos = 0)
    apply whileLooped_rel _ _ _ _ _ _ n st st ⟨rfl, hst⟩
    rintro a b ⟨rfl, ha⟩
    rw [hbody a ha, INC_POS_LOOPED_raw, (hkeep a).1, (hkeep a).2, ha]
    cases wrapWhile (rawStep (frameStride sound stereoSource) ia 0 (a.pos, 0)).1 sound.end_
        sound.repeat_ with
    | none => trivial
    | some p => exact ⟨rfl, rfl⟩
  · rw [if_neg hl, if_neg hl]
    have := whileOneshot_rel (fun a b => a = b ∧ a.fractPos = 0)
      (if sound.sixteenBit_ then b16A else b8A) (if sound.sixteenBit_ then b16B else b8B)
      (INC_POS_ONESHOT (frameStride sound stereoSource) ia 0 sound.end_)
      (INC_POS_ONESHOT (frameStride sound stereoSource) ia 0 sound.end_) (by
      rintro a b ⟨rfl, ha⟩
      rw [hbody a ha, INC_POS_ONESHOT_raw, (hkeep a).1, (hkeep a).2, ha]
      by_cases hb : sound.end_ ≤ (rawStep (frameStride sound stereoSource) ia 0 (a.pos, 0)).1
      · rw [if_pos hb]
        exact ⟨⟨rfl, rfl⟩, rfl⟩
      · rw [if_neg hb]
        exact ⟨⟨rfl, rfl⟩, rfl⟩) n st st ⟨rfl, hst⟩
    rw [this.1]

theorem GET_IP_SAMPLE_zero (s : Sound) (es : Int) (st : MixRun) (h : st.fractPos = 0) :
    GET_IP_SAMPLE s es st = s.elemAt es st.pos 0 ∧
    GET_IP_SAMPLE_LEFT s es st = s.elemAt es st.pos 0 ∧
    GET_IP_SAMPLE_RIGHT s es st = s.elemAt es st.pos 1 := by
  unfold GET_IP_SAMPLE GET_IP_SAMPLE_LEFT GET_IP_SAMPLE_RIGHT
  rw [h]
  simp only [mul_zero, wrap32_zero, Int.zero_tdiv, zero_add, and_self]

theorem elemAt_zero (s : Sound) (pos : Int) :
    s.elemAt 2 pos 0 = s.shortAt pos ∧ s.elemAt 1 pos 0 = s.byteAt pos := by
  unfold Sound.elemAt
  simp

theorem fractAdd_of_multiple (v : SoundSource) (mixRate k : Int) (hm : mixRate ≠ 0)
    (hk : v.frequency_ = k * mixRate) : v.fractAdd mixRate = 0 := by
  have hm2 : (mixRate : ℚ) ≠ 0 := Int.cast_ne_zero.mpr hm
  unfold SoundSource.fractAdd
  rw [hk, mul_div_assoc, div_self hm2, mul_one, Int.floor_intCast, sub_self, zero_mul]
  unfold truncQ
  simp

theorem MixMonoToMonoIP_eq (v : SoundSource) (g : ℚ) (sound : Sound) (dest : Nat → Int)
    (n : Nat) (mixRate : Int) (hfp : v.fractPosition_ = 0) (hfa : v.fractAdd mixRate = 0) :
    v.MixMonoToMonoIP g sound dest n mixRate = v.MixMonoToMono g sound dest n mixRate := by
  unfold SoundSource.MixMonoToMonoIP SoundSource.MixMonoToMono
  simp only
  split_ifs with hv
  · rfl
  · show v.finishMix (mixLoops sound false _ (v.fractAdd mixRate) _ _ _ _) =
      v.finishMix (mixLoops sound false _ (v.fractAdd mixRate) _ _ _ _)
    rw [hfa]
    congr 1
    apply mixLoops_fract_zero
    · intro st hst
      rw [(GET_IP_SAMPLE_zero sound 2 st hst).1, (elemAt_zero sound st.pos).1]
    · intro st hst
      rw [(GET_IP_SAMPLE_zero sound 1 st hst).1, (elemAt_zero sound st.pos).2]
    · intro st; exact ⟨rfl, rfl⟩
    · intro st; exact ⟨rfl, rfl⟩
    · exact hfp

theorem MixMonoToStereoIP_eq (v : SoundSource) (g : ℚ) (sound : Sound) (dest : Nat → Int)
    (n : Nat) (mixRate : Int) (hfp : v.fractPosition_ = 0) (hfa : v.fractAdd mixRate = 0) :
    v.MixMonoToStereoIP g sound dest n mixRate = v.MixMonoToStereo g sound dest n mixRate := by
  unfold SoundSource.MixMonoToStereoIP SoundSource.MixMonoToStereo
  simp only
  split_ifs with hv
  · rfl
  · show v.finishMix (mixLoops sound false _ (v.fractAdd mixRate) _ _ _ _) =
      v.finishMix (mixLoops sound false _ (v.fractAdd mixRate) _ _ _ _)
    rw [hfa]
    congr 1
    apply mixLoops_fract_zero
    · intro st hst
      rw [(GET_IP_SAMPLE_zero sound 2 st hst).1, (elemAt_zero sound st.pos).1]
    · intro st hst
      rw [(GET_IP_SAMPLE_zero sound 1 st hst).1, (elemAt_zero sound st.pos).2]
    · intro st; exact ⟨rfl, rfl⟩
    · intro st; exact ⟨rfl, rfl⟩
    · exact hfp

theorem MixStereoToMonoIP_eq (v : SoundSource) (g : ℚ) (sound : Sound) (dest : Nat → Int)
    (n : Nat) (mixRate : Int) (hfp : v.fractPosition_ = 0) (hfa : v.fractAdd mixRate = 0) :
    v.MixStereoToMonoIP g sound dest n mixRate = v.MixStereoToMono g sound dest n mixRate := by
  unfold SoundSource.MixStereoToMonoIP SoundSource.MixStereoToMono
  simp only
  split_ifs with hv
  · rfl
  · show v.finishMix (mixLoops sound true _ (v.fractAdd mixRate) _ _ _ _) =
      v.finishMix (mixLoops sound true _ (v.fractAdd mixRate) _ _ _ _)
    rw [hfa]
    congr 1
    apply mixLoops_fract_zero
    · intro st hst
      rw [(GET_IP_SAMPLE_zero sound 2 st hst).2.1, (GET_IP_SAMPLE_zero sound 2 st hst).2.2]
    · intro st hst
      rw [(GET_IP_SAMPLE_zero sound 1 st hst).2.1, (GET_IP_SAMPLE_zero sound 1 st hst).2.2]
    · intro st; exact ⟨rfl, rfl⟩
    · intro st; exact ⟨rfl, rfl⟩
    · exact hfp

theorem MixStereoToStereoIP_eq (v : SoundSource) (g : ℚ) (sound : Sound) (dest : Nat → Int)
    (n : Nat) (mixRate : Int) (hfp : v.fractPosition_ = 0) (hfa : v.fractAdd mixRate = 0) :
    v.MixStereoToStereoIP g sound dest n mixRate = v.MixStereoToStereo g sound dest n mixRate := by
  unfold SoundSource.MixStereoToStereoIP SoundSource.MixStereoToStereo
  simp only
  split_ifs with hv
  · rfl
  · show v.finishMix (mixLoops sound true _ (v.fractAdd mixRate) _ _ _ _) =
      v.finishMix (mixLoops sound true _ (v.fractAdd mixRate) _ _ _ _)
    rw [hfa]
    congr 1
    apply mixLoops_fract_zero
    · intro st hst
      rw [(GET_IP_SAMPLE_zero sound 2 st hst).2.1, (GET_IP_SAMPLE_zero sound 2 st hst).2.2]
    · intro st hst
      rw [(GET_IP_SAMPLE_zero sound 1 st hst).2.1, (GET_IP_SAMPLE_zero sound 1 st hst).2.2]
    · intro st; exact ⟨rfl, rfl⟩
    · intro st; exact ⟨rfl, rfl⟩
    · exact hfp

/-! ## Centre panning -/

theorem add_add_pairsWith (a b : MixRun) (x : Int) (h : pairsWith a b) :
    pairsWith ((a.add x).add x) (b.add x) := by
  obtain ⟨h1, h2, h3, h4⟩ := h
  refine ⟨h1, h2, ?_, ?_⟩
  · show a.di + 1 + 1 = 2 * (b.di + 1)
    omega
  · intro j
    show Function.update (Function.update a.dest a.di (wrap32 (a.dest a.di + x))) (a.di + 1)
        (wrap32 (Function.update a.dest a.di (wrap32 (a.dest a.di + x)) (a.di + 1) + x)) j =
      Function.update b.dest b.di (wrap32 (b.dest b.di + x)) (j / 2)
    rw [Function.update_noteq (show a.di + 1 ≠ a.di by omega)]
    by_cases hj1 : j = a.di + 1
    · rw [hj1, Function.update_same, show (a.di + 1) / 2 = b.di by omega, Function.update_same,
        h4 (a.di + 1), show (a.di + 1) / 2 = b.di by omega]
    · rw [Function.update_noteq hj1]
      by_cases hj0 : j = a.di
      · rw [hj0, Function.update_same, show a.di / 2 = b.di by omega, Function.update_same,
          h4 a.di, show a.di / 2 = b.di by omega]
      · rw [Function.update_noteq hj0, Function.update_noteq (show j / 2 ≠ b.di by omega)]
        exact h4 j

theorem INC_POS_LOOPED_pairsWith (es ia fa e r : Int) (p q : MixRun) (h : pairsWith p q) :
    optRel pairsWith (INC_POS_LOOPED es ia fa e r p) (INC_POS_LOOPED es ia fa e r q) := by
  obtain ⟨h1, h2, h3, h4⟩ := h
  rw [INC_POS_LOOPED_raw, INC_POS_LOOPED_raw, h1, h2]
  cases wrapWhile (rawStep es ia fa (q.pos, q.fractPos)).1 e r with
  | none => trivial
  | some c => exact ⟨rfl, rfl, h3, h4⟩

theorem INC_POS_ONESHOT_pairsWith (es ia fa e : Int) (p q : MixRun) (h : pairsWith p q) :
    pairsWith (INC_POS_ONESHOT es ia fa e p).1 (INC_POS_ONESHOT es ia fa e q).1 ∧
      (INC_POS_ONESHOT es ia fa e p).2 = (INC_POS_ONESHOT es ia fa e q).2 := by
  obtain ⟨h1, h2, h3, h4⟩ := h
  rw [INC_POS_ONESHOT_raw, INC_POS_ONESHOT_raw, h1, h2]
  by_cases hb : e ≤ (rawStep es ia fa (q.pos, q.fractPos)).1
  · rw [if_pos hb, if_pos hb]
    exact ⟨⟨rfl, rfl, h3, h4⟩, rfl⟩
  · rw [if_neg hb, if_neg hb]
    exact ⟨⟨rfl, rfl, h3, h4⟩, rfl⟩

theorem mixLoops_pairsWith (sound : Sound) (ia fa : Int) (x16 x8 : Int → Int) (n : Nat)
    (a b : MixRun) (h : pairsWith a b) :
    optRel pairsWith
      (mixLoops sound false ia fa (fun st => (st.add (x16 st.pos)).add (x16 st.pos))
        (fun st => (st.add (x8 st.pos)).add (x8 st.pos)) n a)
      (mixLoops sound false ia fa (fun st => st.add (x16 st.pos))
        (fun st => st.add (x8 st.pos)) n b) := by
  have hbody : ∀ p q, pairsWith p q →
      pairsWith
        ((if sound.sixteenBit_ then fun st : MixRun => (st.add (x16 st.pos)).add (x16 st.pos)
          else fun st => (st.add (x8 st.pos)).add (x8 st.pos)) p)
        ((if sound.sixteenBit_ then fun st : MixRun => st.add (x16 st.pos)
          else fun st => st.add (x8 st.pos)) q) := by
    intro p q hpq
    cases sound.sixteenBit_
    · show pairsWith ((p.add (x8 p.pos)).add (x8 p.pos)) (q.add (x8 q.pos))
      rw [hpq.1]
      exact add_add_pairsWith p q _ hpq
    · show pairsWith ((p.add (x16 p.pos)).add (x16 p.pos)) (q.add (x16 q.pos))
      rw [hpq.1]
      exact add_add_pairsWith p q _ hpq
  rw [mixLoops_nf, mixLoops_nf]
  by_cases hl : sound.looped_ = true
  · rw [if_pos hl, if_pos hl]
    apply whileLooped_rel pairsWith _ _ _ _ _ n a b h
    intro p q hpq
    exact INC_POS_LOOPED_pairsWith _ _ _ _ _ _ _ (hbody p q hpq)
  · rw [if_neg hl, if_neg hl]
    apply whileOneshot_rel pairsWith _ _ _ _ _ n a b h
    intro p q hpq
    exact INC_POS_ONESHOT_pairsWith _ _ _ _ _ _ (hbody p q hpq)

/-! ## The whole render call -/

theorem mixOutputTrace_forget (env : Nat → MixEnv) :
    ∀ (fuel : Nat) (a : Audio) (clip out acc : Nat → Int) (destOff samples : Nat),
      (Audio.mixOutputTrace env fuel a clip out acc destOff samples).map
          (fun r => (r.1, r.2.1)) =
        Audio.mixOutputLoop env fuel a clip out destOff samples := by
  intro fuel
  induction fuel with
  | zero => intro a clip out acc destOff samples; rfl
  | succ fuel ih =>
    intro a clip out acc destOff samples
    unfold Audio.mixOutputTrace Audio.mixOutputLoop
    by_cases h0 : samples = 0
    · rw [if_pos h0, if_pos h0]
      rfl
    · rw [if_neg h0, if_neg h0]
      cases a.mixFragment env clip out destOff samples with
      | none => rfl
      | some f => exact ih _ _ _ _ _ _

theorem mixOutputTrace_saturates (env : Nat → MixEnv) :
    ∀ (fuel : Nat) (a : Audio) (clip out acc : Nat → Int) (destOff samples : Nat)
      (r : Audio × (Nat → Int) × (Nat → Int)),
      a.sampleSize_ = (if a.stereo_ then 4 else 2) → 0 < a.fragmentSize_ →
      samples < 2147483648 → destOff % 2 = 0 →
      (∀ o, o < destOff → o % 2 = 0 → loadShort out o = Clamp (acc o) (-32768) 32767) →
      Audio.mixOutputTrace env fuel a clip out acc destOff samples = some r →
      ∀ o, o < destOff + a.sampleSize_ * samples → o % 2 = 0 →
        loadShort r.2.1 o = Clamp (r.2.2 o) (-32768) 32767 := by
  intro fuel
  induction fuel with
  | zero =>
    intro a clip out acc destOff samples r _ _ _ _ _ h
    exact absurd h (by simp [Audio.mixOutputTrace])
  | succ fuel ih =>
    intro a clip out acc destOff samples r hsz hfrag hs hpar hinv h
    unfold Audio.mixOutputTrace at h
    by_cases h0 : samples = 0
    · rw [if_pos h0] at h
      rw [← Option.some.inj h]
      intro o ho hpo
      subst h0
      exact hinv o (by simpa using ho) hpo
    · rw [if_neg h0] at h
      cases hfr : a.mixFragment env clip out destOff samples with
      | none =>
        rw [hfr] at h
        exact absurd h (by simp)
      | some f =>
        rw [hfr] at h
        simp only at h
        obtain ⟨ho, hw, hcs, -⟩ := mixFragment_some a env clip out destOff samples f hfr
        obtain ⟨hw1, hw2⟩ := workSamples_bounds samples a.fragmentSize_ h0 hs hfrag
        rw [← hw] at hw1 hw2
        rw [if_pos hw2] at h
        have hbytes : a.sampleSize_ * f.workSamples = 2 * f.clipSamples := by
          rw [hsz, hcs]
          split_ifs <;> omega
        rw [hbytes] at h
        have hfin := ih { a with soundSources_ := f.sources } f.mixed f.out _
          (destOff + 2 * f.clipSamples) (samples - f.workSamples) r hsz hfrag (by omega)
          (by omega) (by
            intro o ho2 hpo
            by_cases hlt : o < destOff
            · rw [if_neg (by omega), ← hinv o hlt hpo]
              unfold loadShort
              rw [ho, copyClamped_below _ _ _ _ _ _ (by omega),
                copyClamped_below _ _ _ _ _ _ (by omega)]
            · have hj : destOff + 2 * ((o - destOff) / 2) = o := by omega
              rw [if_pos ⟨by omega, by omega, by omega⟩]
              have hb := copyClamped_bytes f.mixed destOff f.clipSamples 0 out
                ((o - destOff) / 2) (Nat.zero_le _) (by omega)
              rw [hj] at hb
              rw [ho]
              exact loadShort_bytes _ _ _ (@Clamp_range _ (-32768) 32767 (by decide))
                hb.1 hb.2) h
        intro o ho2 hpo
        apply hfin o _ hpo
        show o < destOff + 2 * f.clipSamples + a.sampleSize_ * (samples - f.workSamples)
        have : a.sampleSize_ * f.workSamples + a.sampleSize_ * (samples - f.workSamples) =
            a.sampleSize_ * samples := by
          rw [← Nat.mul_add]
          congr 1
          omega
        omega

theorem loud_volume : truncQ (256 * (demoEnv.masterGain * loudVoice.attenuation_ *
    loudVoice.gain_) + 1 / 2) = 5120 := by
  norm_num [demoEnv, loudVoice, demoVoice, truncQ, Int.floor_eq_iff]

/-! ## Unity gain -/

theorem shortAt_range (sound : Sound) (hbytes : ∀ i, -128 ≤ sound.mem i ∧ sound.mem i ≤ 127)
    (p : Int) : -32768 ≤ sound.shortAt p ∧ sound.shortAt p ≤ 32767 := by
  unfold Sound.shortAt Sound.byteAt
  have h1 := hbytes (p - sound.start)
  have h2 := hbytes (p + 1 - sound.start)
  omega

theorem unity_body (s : Int) (h : -32768 ≤ s ∧ s ≤ 32767) :
    Int.tdiv (wrap32 (s * 256)) 256 = s := by
  rw [wrap32_of_range (by unfold InInt32; omega)]
  exact Int.mul_tdiv_cancel s (by decide)

theorem rawStep_unit (stride pos fp : Int) (hfp : fp ≤ 65535) :
    rawStep stride 1 0 (pos, fp) = (pos + stride, fp) := by
  unfold rawStep
  rw [if_neg (by simp only [add_zero]; omega)]
  simp

theorem whileLooped_straight (x : Int → Int) (stride e r : Int) (hs : 0 ≤ stride) :
    ∀ (m : Nat) (st : MixRun), st.fractPos ≤ 65535 → st.pos + stride * m < e →
      ∃ st2, whileLooped (fun t => t.add (x t.pos)) (INC_POS_LOOPED stride 1 0 e r) m st
          = some st2 ∧
        st2.pos = st.pos + stride * m ∧ st2.fractPos = st.fractPos ∧ st2.di = st.di + m ∧
        ∀ i, st2.dest i = if st.di ≤ i ∧ i < st.di + m
          then wrap32 (st.dest i + x (st.pos + stride * ((i - st.di : Nat) : Int)))
          else st.dest i := by
  intro m
  induction m with
  | zero =>
    intro st _ _
    refine ⟨st, rfl, by simp, rfl, rfl, ?_⟩
    intro i
    rw [if_neg (by omega)]
  | succ m ih =>
    intro st hfp hend
    have hmul : stride * ((m + 1 : Nat) : Int) = stride + stride * (m : Int) := by
      push_cast
      ring
    have hnn : 0 ≤ stride * (m : Int) := mul_nonneg hs (Int.ofNat_nonneg m)
    unfold whileLooped
    rw [INC_POS_LOOPED_raw]
    have hraw : rawStep stride 1 0 ((st.add (x st.pos)).pos, (st.add (x st.pos)).fractPos)
        = (st.pos + stride, st.fractPos) := rawStep_unit stride st.pos st.fractPos hfp
    rw [hraw, wrapWhile_of_lt _ _ _ (by
      show st.pos + stride < e
      omega)]
    simp only [Option.map_some', Option.some_bind]
    obtain ⟨st2, h1, h2, h3, h4, h5⟩ := ih
      { (st.add (x st.pos)) with pos := st.pos + stride, fractPos := st.fractPos } hfp (by
        show st.pos + stride + stride * (m : Int) < e
        omega)
    refine ⟨st2, h1, ?_, h3, ?_, ?_⟩
    · rw [h2, hmul]
      show st.pos + stride + stride * (m : Int) = _
      ring
    · rw [h4]
      show st.di + 1 + m = st.di + (m + 1)
      omega
    · intro i
      rw [h5 i]
      show (if st.di + 1 ≤ i ∧ i < st.di + 1 + m then
          wrap32 (Function.update st.dest st.di (wrap32 (st.dest st.di + x st.pos)) i +
            x (st.pos + stride + stride * ((i - (st.di + 1) : Nat) : Int)))
        else Function.update st.dest st.di (wrap32 (st.dest st.di + x st.pos)) i) = _
      by_cases hi : i = st.di
      · subst hi
        rw [if_neg (by omega), if_pos (by omega), Function.update_same, Nat.sub_self]
        simp
      · rw [Function.update_noteq hi]
        by_cases hin : st.di + 1 ≤ i ∧ i < st.di + 1 + m
        · rw [if_pos hin, if_pos (by omega)]
          have : ((i - st.di : Nat) : Int) = ((i - (st.di + 1) : Nat) : Int) + 1 := by omega
          rw [this]
          congr 3
          ring
        · rw [if_neg hin, if_neg (by omega)]

theorem whileOneshot_straight (x : Int → Int) (stride e : Int) (hs : 0 ≤ stride) :
    ∀ (m : Nat) (st : MixRun), st.fractPos ≤ 65535 → st.pos + stride * m < e →
      (whileOneshot (fun t => t.add (x t.pos)) (INC_POS_ONESHOT stride 1 0 e) m st).pos
          = st.pos + stride * m ∧
      (whileOneshot (fun t => t.add (x t.pos)) (INC_POS_ONESHOT stride 1 0 e) m st).fractPos
          = st.fractPos ∧
      (whileOneshot (fun t => t.add (x t.pos)) (INC_POS_ONESHOT stride 1 0 e) m st).di
          = st.di + m ∧
      ∀ i, (whileOneshot (fun t => t.add (x t.pos)) (INC_POS_ONESHOT stride 1 0 e) m st).dest i =
        if st.di ≤ i ∧ i < st.di + m
          then wrap32 (st.dest i + x (st.pos + stride * ((i - st.di : Nat) : Int)))
          else st.dest i := by
  intro m
  induction m with
  | zero =>
    intro st _ _
    refine ⟨by simp [whileOneshot], rfl, rfl, ?_⟩
    intro i
    rw [if_neg (by omega)]
    rfl
  | succ m ih =>
    intro st hfp hend
    have hmul : stride * ((m + 1 : Nat) : Int) = stride + stride * (m : Int) := by
      push_cast
      ring
    have hnn : 0 ≤ stride * (m : Int) := mul_nonneg hs (Int.ofNat_nonneg m)
    unfold whileOneshot
    simp only [INC_POS_ONESHOT_raw]
    have hraw : rawStep stride 1 0 ((st.add (x st.pos)).pos, (st.add (x st.pos)).fractPos)
        = (st.pos + stride, st.fractPos) := rawStep_unit stride st.pos st.fractPos hfp
    rw [hraw]
    have hlt : ¬ e ≤ st.pos + stride := by omega
    simp only [hlt, if_false, Bool.false_eq_true]
    obtain ⟨h2, h3, h4, h5⟩ := ih
      { (st.add (x st.pos)) with pos := st.pos + stride, fractPos := st.fractPos } hfp (by
        show st.pos + stride + stride * (m : Int) < e
        omega)
    refine ⟨?_, h3, ?_, ?_⟩
    · rw [h2, hmul]
      show st.pos + stride + stride * (m : Int) = _
      ring
    · rw [h4]
      show st.di + 1 + m = st.di + (m + 1)
      omega
    · intro i
      rw [h5 i]
      show (if st.di + 1 ≤ i ∧ i < st.di + 1 + m then
          wrap32 (Function.update st.dest st.di (wrap32 (st.dest st.di + x st.pos)) i +
            x (st.pos + stride + stride * ((i - (st.di + 1) : Nat) : Int)))
        else Function.update st.dest st.di (wrap32 (st.dest st.di + x st.pos)) i) = _
      by_cases hi : i = st.di
      · subst hi
        rw [if_neg (by omega), if_pos (by omega), Function.update_same, Nat.sub_self]
        simp
      · rw [Function.update_noteq hi]
        by_cases hin : st.di + 1 ≤ i ∧ i < st.di + 1 + m
        · rw [if_pos hin, if_pos (by omega)]
          have : ((i - st.di : Nat) : Int) = ((i - (st.di + 1) : Nat) : Int) + 1 := by omega
          rw [this]
          congr 3
          ring
        · rw [if_neg hin, if_neg (by omega)]

/-! ## How far one pass moves the cursor -/

theorem MixStereoToStereoIP_synth (v : SoundSource) (g : ℚ) (sound : Sound) (dest : Nat → Int)
    (n : Nat) (mixRate vol ia fa : Int)
    (hvol : truncQ (256 * (g * v.attenuation_ * v.gain_) + 1 / 2) = vol) (hv : vol ≠ 0)
    (hia : v.intAdd mixRate = ia) (hfa : v.fractAdd mixRate = fa) :
    v.MixStereoToStereoIP g sound dest n mixRate =
      v.finishMix (mixLoops sound true ia fa
        (fun st => (st.add (Int.tdiv (wrap32 (GET_IP_SAMPLE_LEFT sound 2 st * vol)) 256)).add
          (Int.tdiv (wrap32 (GET_IP_SAMPLE_RIGHT sound 2 st * vol)) 256))
        (fun st => (st.add (wrap32 (GET_IP_SAMPLE_LEFT sound 1 st * vol))).add
          (wrap32 (GET_IP_SAMPLE_RIGHT sound 1 st * vol)))
        (preDecCount n) ⟨dest, 0, v.position_, v.fractPosition_⟩) := by
  subst hvol hia hfa
  simp only [SoundSource.MixStereoToStereoIP, hv, if_false]
  rfl

/-! ## The bytes the refill writes -/

theorem whileLooped_inv (I : MixRun → Prop) (body : MixRun → MixRun)
    (inc : MixRun → Option MixRun)
    (h : ∀ a, I a → ∃ a2, inc (body a) = some a2 ∧ I a2) :
    ∀ (n : Nat) (a : MixRun), I a → ∃ r, whileLooped body inc n a = some r ∧ I r := by
  intro n
  induction n with
  | zero => intro a ha; exact ⟨a, rfl, ha⟩
  | succ n ih =>
    intro a ha
    obtain ⟨a2, h1, h2⟩ := h a ha
    unfold whileLooped
    rw [h1]
    exact ih a2 h2

theorem whileOneshot_inv (I J : MixRun → Prop) (body : MixRun → MixRun)
    (inc : MixRun → MixRun × Bool) (hIJ : ∀ a, I a → J a)
    (h : ∀ a, I a → J (inc (body a)).1 ∧ ((inc (body a)).2 = false → I (inc (body a)).1)) :
    ∀ (n : Nat) (a : MixRun), I a → J (whileOneshot body inc n a) := by
  intro n
  induction n with
  | zero => intro a ha; exact hIJ a ha
  | succ n ih =>
    intro a ha
    obtain ⟨h1, h2⟩ := h a ha
    unfold whileOneshot
    simp only
    by_cases hb : (inc (body a)).2 = true
    · rw [if_pos hb]
      exact h1
    · rw [if_neg hb]
      exact ih _ (h2 (by simpa using hb))

theorem rawStep_frames (ia fa : Int) (c : Int × Int) (hia : 0 ≤ ia) :
    ∃ m : Int, 0 ≤ m ∧ (rawStep 4 ia fa c).1 = c.1 + 4 * m := by
  unfold rawStep
  split_ifs
  · exact ⟨ia + 1, by omega, by show c.1 + 4 * ia + 4 = c.1 + 4 * (ia + 1); ring⟩
  · exact ⟨ia, hia, rfl⟩

theorem intAdd_nonneg (v : SoundSource) (mixRate : Int) (hf : 0 ≤ v.frequency_)
    (hm : 0 < mixRate) : 0 ≤ v.intAdd mixRate := by
  have hmq : (0 : ℚ) < mixRate := by exact_mod_cast hm
  have hq : (0 : ℚ) ≤ v.frequency_ / mixRate := div_nonneg hf (le_of_lt hmq)
  unfold SoundSource.intAdd truncQ
  rw [if_pos hq]
  exact Int.floor_nonneg.mpr hq

theorem add_zero_dest (st : MixRun) (h : InInt32 (st.dest st.di)) :
    (st.add 0).dest = st.dest := by
  unfold MixRun.add
  simp only [add_zero, wrap32_of_range h, Function.update_eq_self]

theorem looped_onFrame (sound : Sound) (dest : Nat → Int) (ia fa : Int)
    (body : MixRun → MixRun)
    (hloop : sound.start ≤ sound.repeat_ ∧ sound.repeat_ < sound.end_ ∧
      (sound.repeat_ - sound.start) % 4 = 0)
    (hend : (sound.end_ - sound.start) % 4 = 0) (hia : 0 ≤ ia)
    (hfa : 0 ≤ fa ∧ fa ≤ 65535)
    (hbody : ∀ st, onFrame sound dest st → onFrame sound dest (body st)) :
    ∀ (n : Nat) (st : MixRun), onFrame sound dest st →
      ∃ r, whileLooped body (INC_POS_LOOPED 4 ia fa sound.end_ sound.repeat_) n st = some r ∧
        onFrame sound dest r := by
  apply whileLooped_inv
  intro a ha
  obtain ⟨b1, b2, b3, b4, b5, b6⟩ := hbody a ha
  rw [INC_POS_LOOPED_raw]
  obtain ⟨m, hm0, hm⟩ := rawStep_frames ia fa ((body a).pos, (body a).fractPos) hia
  obtain ⟨f1, f2⟩ := rawStep_fract_range 4 ia fa ((body a).pos, (body a).fractPos) hfa ⟨b5, b6⟩
  obtain ⟨p, hp1, hp2, hp3, hp4, k, hk⟩ := wrapWhile_spec
    (rawStep 4 ia fa ((body a).pos, (body a).fractPos)).1 sound.end_ sound.repeat_ hloop.2.1
  rw [hp1]
  refine ⟨_, rfl, b1, ?_, hp2, ?_, f1, f2⟩
  · show sound.start ≤ p
    by_cases hlt : (rawStep 4 ia fa ((body a).pos, (body a).fractPos)).1 < sound.end_
    · have := hp3 hlt
      simp only at hm
      omega
    · have := hp4 (by omega)
      omega
  · show (p - sound.start) % 4 = 0
    obtain ⟨q, hq⟩ : ∃ q : Int, sound.end_ - sound.repeat_ = 4 * q :=
      ⟨(sound.end_ - sound.repeat_) / 4, by omega⟩
    have hkq : (k : Int) * (sound.end_ - sound.repeat_) = 4 * (k * q) := by
      rw [hq]
      ring
    simp only at hm
    generalize (k : Int) * q = t at hkq
    omega

theorem oneshot_onFrame (sound : Sound) (dest : Nat → Int) (ia fa : Int)
    (body : MixRun → MixRun) (hia : 0 ≤ ia) (hfa : 0 ≤ fa ∧ fa ≤ 65535)
    (hbody : ∀ st, onFrame sound dest st → onFrame sound dest (body st)) :
    ∀ (n : Nat) (st : MixRun), onFrame sound dest st →
      (whileOneshot body (INC_POS_ONESHOT 4 ia fa sound.end_) n st).dest = dest := by
  apply whileOneshot_inv (onFrame sound dest) (fun r => r.dest = dest)
  · intro a ha
    exact ha.1
  · intro a ha
    obtain ⟨b1, b2, b3, b4, b5, b6⟩ := hbody a ha
    obtain ⟨m, hm0, hm⟩ := rawStep_frames ia fa ((body a).pos, (body a).fractPos) hia
    obtain ⟨f1, f2⟩ := rawStep_fract_range 4 ia fa ((body a).pos, (body a).fractPos) hfa
      ⟨b5, b6⟩
    rw [INC_POS_ONESHOT_raw]
    by_cases he : sound.end_ ≤ (rawStep 4 ia fa ((body a).pos, (body a).fractPos)).1
    · rw [if_pos he]
      exact ⟨b1, fun h => absurd h (by simp)⟩
    · rw [if_neg he]
      refine ⟨b1, fun _ => ⟨b1, ?_, by simpa using he, ?_, f1, f2⟩⟩
      · show sound.start ≤ (rawStep 4 ia fa ((body a).pos, (body a).fractPos)).1
        simp only at hm
        omega
      · show ((rawStep 4 ia fa ((body a).pos, (body a).fractPos)).1 - sound.start) % 4 = 0
        simp only at hm
        omega

theorem elemAt_two (s : Sound) (p k : Int) : s.elemAt 2 p k = s.shortAt (p + 2 * k) := by
  unfold Sound.elemAt
  rw [if_pos rfl]

theorem fade_cancels (L f : Int) (hL : -32767 ≤ L ∧ L ≤ 32767) (hf : 0 ≤ f ∧ f ≤ 65535) :
    Int.tdiv (wrap32 ((0 - L) * f)) 65536 + L +
      (Int.tdiv (wrap32 ((0 - -L) * f)) 65536 + -L) = 0 := by
  have hb : -2147385345 ≤ L * f ∧ L * f ≤ 2147385345 := by
    constructor <;> nlinarith [hL.1, hL.2, hf.1, hf.2]
  have e1 : (0 - L) * f = -(L * f) := by ring
  have e2 : (0 - -L) * f = L * f := by ring
  rw [e1, e2, wrap32_of_range (show InInt32 (-(L * f)) from ⟨by omega, by omega⟩),
    wrap32_of_range (show InInt32 (L * f) from ⟨by omega, by omega⟩), Int.neg_tdiv]
  ring

theorem stereo_sum_cancels (sound : Sound) (L : Int) (st : MixRun) (dest : Nat → Int)
    (hframes : ∀ a : Int, sound.start ≤ a → a < sound.end_ → (a - sound.start) % 4 = 0 →
      sound.shortAt a = L ∧ sound.shortAt (a + 2) = -L)
    (h : onFrame sound dest st) :
    sound.elemAt 2 st.pos 0 + sound.elemAt 2 st.pos 1 = 0 := by
  obtain ⟨_, h2, h3, h4, _, _⟩ := h
  obtain ⟨a1, a2⟩ := hframes st.pos h2 h3 h4
  rw [elemAt_two, elemAt_two]
  simp only [mul_zero, add_zero, mul_one]
  rw [a1, a2]
  omega

theorem stereo_ip_sum_cancels (sound : Sound) (L : Int) (st : MixRun) (dest : Nat → Int)
    (hL : -32767 ≤ L ∧ L ≤ 32767)
    (hframes : ∀ a : Int, sound.start ≤ a → a < sound.end_ → (a - sound.start) % 4 = 0 →
      sound.shortAt a = L ∧ sound.shortAt (a + 2) = -L)
    (hguard : if sound.looped_ then
        sound.shortAt sound.end_ = L ∧ sound.shortAt (sound.end_ + 2) = -L
      else sound.shortAt sound.end_ = 0 ∧ sound.shortAt (sound.end_ + 2) = 0)
    (hend : (sound.end_ - sound.start) % 4 = 0)
    (h : onFrame sound dest st) :
    GET_IP_SAMPLE_LEFT sound 2 st + GET_IP_SAMPLE_RIGHT sound 2 st = 0 := by
  obtain ⟨_, h2, h3, h4, h5, h6⟩ := h
  obtain ⟨a1, a2⟩ := hframes st.pos h2 h3 h4
  unfold GET_IP_SAMPLE_LEFT GET_IP_SAMPLE_RIGHT
  simp only [elemAt_two, mul_zero, add_zero, mul_one]
  have e2 : st.pos + 2 * 2 = st.pos + 4 := by ring
  have e3 : st.pos + 2 * 3 = st.pos + 4 + 2 := by ring
  rw [e2, e3, a1, a2]
  have same : sound.shortAt (st.pos + 4) = L ∧ sound.shortAt (st.pos + 4 + 2) = -L →
      Int.tdiv (wrap32 ((sound.shortAt (st.pos + 4) - L) * st.fractPos)) 65536 + L +
        (Int.tdiv (wrap32 ((sound.shortAt (st.pos + 4 + 2) - -L) * st.fractPos)) 65536 + -L)
        = 0 := by
    intro hn
    rw [hn.1, hn.2]
    simp only [sub_self, zero_mul, wrap32_zero]
    show (0 : Int) + L + (0 + -L) = 0
    omega
  by_cases hlast : st.pos + 4 < sound.end_
  · exact same (hframes (st.pos + 4) (by omega) hlast (by omega))
  · have hpe : st.pos + 4 = sound.end_ := by omega
    rw [hpe]
    rw [hpe] at same
    by_cases hl : sound.looped_ = true
    · rw [if_pos hl] at hguard
      exact same hguard
    · rw [if_neg hl] at hguard
      rw [hguard.1, hguard.2]
      exact fade_cancels L st.fractPos hL ⟨h5, h6⟩

theorem MixZeroVolume_total (v : SoundSource) (sound : Sound) (n : Nat) (mixRate : Int)
    (h : sound.looped_ = true → sound.repeat_ < sound.end_) :
    ∃ w, v.MixZeroVolume sound n mixRate = some w := by
  by_cases hl : sound.looped_ = true
  · exact MixZeroVolume_terminates v sound n mixRate (h hl)
  · have hl2 : sound.looped_ = false := by simpa using hl
    rw [MixZeroVolume_eq v sound n mixRate _ _ rfl rfl, hl2]
    simp only [Bool.false_eq_true, if_false]
    split_ifs <;> exact ⟨_, rfl⟩

theorem cancelling_loops (v : SoundSource) (sound : Sound) (dest : Nat → Int) (n : Nat)
    (mixRate : Int) (h16 : sound.sixteenBit_ = true)
    (hend : (sound.end_ - sound.start) % 4 = 0)
    (hloop : sound.looped_ = true → sound.start ≤ sound.repeat_ ∧
      sound.repeat_ < sound.end_ ∧ (sound.repeat_ - sound.start) % 4 = 0)
    (hpos : sound.start ≤ v.position_ ∧ v.position_ < sound.end_ ∧
      (v.position_ - sound.start) % 4 = 0)
    (hfp : 0 ≤ v.fractPosition_ ∧ v.fractPosition_ ≤ 65535)
    (hfreq : 0 ≤ v.frequency_) (hrate : 0 < mixRate) (hdest : ∀ i, InInt32 (dest i))
    (body16 body8 : MixRun → MixRun)
    (hb : ∀ st, onFrame sound dest st → body16 st = st.add 0) :
    ∃ w, v.finishMix (mixLoops sound true (v.intAdd mixRate) (v.fractAdd mixRate) body16 body8
      (preDecCount n) ⟨dest, 0, v.position_, v.fractPosition_⟩) = some (w, dest) := by
  have hia := intAdd_nonneg v mixRate hfreq hrate
  have hfa := fractAdd_range v mixRate
  have hst0 : onFrame sound dest ⟨dest, 0, v.position_, v.fractPosition_⟩ :=
    ⟨rfl, hpos.1, hpos.2.1, hpos.2.2, hfp.1, hfp.2⟩
  have hbody : ∀ st, onFrame sound dest st → onFrame sound dest (body16 st) := by
    intro st hst
    rw [hb st hst]
    refine ⟨?_, hst.2⟩
    rw [add_zero_dest st (by rw [hst.1]; exact hdest _)]
    exact hst.1
  have hstride : frameStride sound true = 4 := by
    unfold frameStride
    rw [h16]
    rfl
  rw [mixLoops_nf, hstride, h16]
  simp only [if_true]
  generalize preDecCount n = k
  by_cases hl : sound.looped_ = true
  · rw [if_pos hl]
    obtain ⟨r, h1, h2⟩ := looped_onFrame sound dest _ _ body16 (hloop hl) hend hia hfa hbody
      k _ hst0
    rw [h1]
    exact ⟨_, by unfold SoundSource.finishMix; rw [Option.map_some', h2.1]⟩
  · rw [if_neg hl]
    have h2 := oneshot_onFrame sound dest _ _ body16 hia hfa hbody k _ hst0
    exact ⟨_, by unfold SoundSource.finishMix; rw [Option.map_some', h2]⟩

/-! ## Claims -/

/-- C2: a one-shot buffer mixed by any of the eight sample-synthesis routines:
when the advanced cursor reaches or passes the end offset at one of the steps
that `Mix` makes, `Mix` returns with the cursor null, `IsPlaying()` is false,
and every later `Mix` call leaves `dest` and the whole voice unchanged. -/
theorem oneshot_reaching_end_stops (v v1 : SoundSource) (env : MixEnv) (snd sound : Sound)
    (dest : Nat → Int) (samples : Nat) (mixRate : Int) (stereo ip : Bool)
    (hsnd : v.sound_ = some snd) (hpos : v.position_ ≠ 0) (hen : v.enabledEffective = true)
    (hdec : v.mixDecode env snd = some v1)
    (hbuf : (if snd.compressed_ then v1.decodeBuffer_ else some snd) = some sound)
    (hone : sound.looped_ = false)
    (hvol : ¬ v1.zeroVolume env.masterGain sound stereo)
    (hend : ∃ k, 1 ≤ k ∧ k ≤ preDecCount samples ∧
      sound.end_ ≤ (rawSteps sound.GetSampleSize (v1.intAdd mixRate) (v1.fractAdd mixRate) k
        (v1.position_, v1.fractPosition_)).1) :
    ∃ w d, v.Mix env dest samples mixRate stereo ip = some (w, d) ∧ w.position_ = 0 ∧
      w.IsPlaying = false ∧
      ∀ (env2 : MixEnv) (dest2 : Nat → Int) (samples2 : Nat) (mixRate2 : Int)
        (stereo2 ip2 : Bool),
        w.Mix env2 dest2 samples2 mixRate2 stereo2 ip2 = some (w, dest2) := by
  obtain ⟨f16, f8, hr⟩ := mixRoutine_synth v1 env.masterGain sound samples mixRate stereo ip hvol
  have hstop := whileOneshot_stops (if sound.sixteenBit_ then f16 else f8) sound.GetSampleSize
    (v1.intAdd mixRate) (v1.fractAdd mixRate) sound.end_ (preDecCount samples)
    ⟨dest, 0, v1.position_, v1.fractPosition_⟩ hend
  have hmix : v.Mix env dest samples mixRate stereo ip =
      (v1.mixRoutine env.masterGain sound dest samples mixRate stereo ip).map
        fun r => (r.1.mixTime snd samples mixRate, r.2) := by
    unfold SoundSource.Mix
    simp only [hsnd, hpos, hen, hdec, hbuf, Bool.true_eq_false, or_self, if_false]
  rw [hmix, hr dest, mixLoops_oneshot _ _ _ _ _ _ _ hone, ite_emit]
  exact finish_stopped _ _ _ _ _ hstop

/-- Witness for C2: the sample voice, mixed for six frames, passes the end of
its four-sample buffer. -/
theorem oneshot_reaching_end_stops_witness :
    ∃ w d, demoVoice.Mix demoEnv (fun _ => 0) 6 44100 false false = some (w, d) ∧
      w.position_ = 0 ∧ w.IsPlaying = false ∧
      ∀ (env2 : MixEnv) (dest2 : Nat → Int) (samples2 : Nat) (mixRate2 : Int)
        (stereo2 ip2 : Bool),
        w.Mix env2 dest2 samples2 mixRate2 stereo2 ip2 = some (w, dest2) :=
  oneshot_reaching_end_stops demoVoice demoVoice demoEnv demoSound demoSound (fun _ => 0) 6
    44100 false false rfl (by decide) rfl rfl rfl rfl (demo_not_zeroVolume false)
    ⟨4, by decide, by decide, by
      rw [demo_intAdd, demo_fractAdd]
      decide⟩

/-- C3: for a looped buffer with `repeat < end`, one cursor step of
`INC_POS_LOOPED` or `INC_POS_STEREO_LOOPED` terminates and leaves the cursor
strictly below `end`; when the un-wrapped advanced position is at or past
`end`, the new cursor lies in `[repeat, end)` and differs from the un-wrapped
position by a multiple of `end - repeat`. -/
theorem looped_step_wraps_into_loop (es intAdd fractAdd e r : Int) (st : MixRun)
    (hre : r < e) :
    (∃ st2, INC_POS_LOOPED es intAdd fractAdd e r st = some st2 ∧ st2.pos < e ∧
      (e ≤ (rawStep es intAdd fractAdd (st.pos, st.fractPos)).1 →
        r ≤ st2.pos ∧ ∃ k : Nat,
          (rawStep es intAdd fractAdd (st.pos, st.fractPos)).1 - st2.pos = k * (e - r))) ∧
    (∃ st2, INC_POS_STEREO_LOOPED es intAdd fractAdd e r st = some st2 ∧ st2.pos < e ∧
      (e ≤ (rawStep (2 * es) intAdd fractAdd (st.pos, st.fractPos)).1 →
        r ≤ st2.pos ∧ ∃ k : Nat,
          (rawStep (2 * es) intAdd fractAdd (st.pos, st.fractPos)).1 - st2.pos
            = k * (e - r))) := by
  constructor
  · rw [INC_POS_LOOPED_raw]
    obtain ⟨p, h1, h2, _, h4, h5⟩ :=
      wrapWhile_spec (rawStep es intAdd fractAdd (st.pos, st.fractPos)).1 e r hre
    rw [h1]
    exact ⟨_, rfl, h2, fun hge => ⟨h4 hge, h5⟩⟩
  · rw [INC_POS_STEREO_LOOPED_eq, INC_POS_LOOPED_raw]
    obtain ⟨p, h1, h2, _, h4, h5⟩ :=
      wrapWhile_spec (rawStep (2 * es) intAdd fractAdd (st.pos, st.fractPos)).1 e r hre
    rw [h1]
    exact ⟨_, rfl, h2, fun hge => ⟨h4 hge, h5⟩⟩

/-- Witness for C3: a 16-bit cursor at byte 6 of a loop `[2, 8)` stepping by three
samples with a fractional carry. -/
theorem looped_step_wraps_into_loop_witness :
    (∃ st2, INC_POS_LOOPED 2 3 40000 8 2 ⟨fun _ => 0, 0, 6, 30000⟩ = some st2 ∧ st2.pos < 8 ∧
      (8 ≤ (rawStep 2 3 40000 ((6 : Int), (30000 : Int))).1 →
        2 ≤ st2.pos ∧ ∃ k : Nat,
          (rawStep 2 3 40000 ((6 : Int), (30000 : Int))).1 - st2.pos = k * (8 - 2))) ∧
    (∃ st2, INC_POS_STEREO_LOOPED 2 3 40000 8 2 ⟨fun _ => 0, 0, 6, 30000⟩ = some st2 ∧
      st2.pos < 8 ∧
      (8 ≤ (rawStep (2 * 2) 3 40000 ((6 : Int), (30000 : Int))).1 →
        2 ≤ st2.pos ∧ ∃ k : Nat,
          (rawStep (2 * 2) 3 40000 ((6 : Int), (30000 : Int))).1 - st2.pos
            = k * (8 - 2))) :=
  looped_step_wraps_into_loop 2 3 40000 8 2 ⟨fun _ => 0, 0, 6, 30000⟩ (by decide)

/-- C14: on an uncompressed sound of `n` bytes, `SetLoop(r, e)` leaves the repeat
offset at `s * (min r n / s)` and the end offset at `s * (min e n / s)` for the
sample stride `s` (which is 1, 2 or 4); both offsets lie in `[0, n]` and the
sound is looped. -/
theorem SetLoop_offsets (s : Sound) (r e : Nat) (hc : s.compressed_ = false)
    (hn : s.dataSize_ < 4294967296) :
    (s.GetSampleSize = 1 ∨ s.GetSampleSize = 2 ∨ s.GetSampleSize = 4) ∧
    (s.SetLoop r e).repeat_ - (s.SetLoop r e).start
      = ((s.GetSampleSize * (min r s.dataSize_ / s.GetSampleSize) : Nat) : Int) ∧
    (s.SetLoop r e).end_ - (s.SetLoop r e).start
      = ((s.GetSampleSize * (min e s.dataSize_ / s.GetSampleSize) : Nat) : Int) ∧
    s.GetSampleSize * (min r s.dataSize_ / s.GetSampleSize) ≤ s.dataSize_ ∧
    s.GetSampleSize * (min e s.dataSize_ / s.GetSampleSize) ≤ s.dataSize_ ∧
    (s.SetLoop r e).looped_ = true := by
  obtain ⟨f1, f2, f3, f4, -⟩ := FixInterpolation_fields
    { s with repeat_ := s.start + ((min r s.dataSize_ &&& (4294967296 - s.GetSampleSize) : Nat) : Int),
             end_ := s.start + ((min e s.dataSize_ &&& (4294967296 - s.GetSampleSize) : Nat) : Int),
             looped_ := true }
  rw [SetLoop_eq s r e hc, f1, f2, f3, f4]
  have hr : min r s.dataSize_ < 4294967296 := lt_of_le_of_lt (Nat.min_le_right _ _) hn
  have he : min e s.dataSize_ < 4294967296 := lt_of_le_of_lt (Nat.min_le_right _ _) hn
  refine ⟨GetSampleSize_cases s, ?_, ?_, ?_, ?_, rfl⟩
  · simp only [land_sampleSize s _ hr]
    omega
  · simp only [land_sampleSize s _ he]
    omega
  · exact le_trans (Nat.mul_div_le _ _) (Nat.min_le_right _ _)
  · exact le_trans (Nat.mul_div_le _ _) (Nat.min_le_right _ _)


/-- Witness for C14: an 8-bit stereo sound of 10 bytes, `SetLoop(3, 25)`. -/
theorem SetLoop_offsets_witness :
    (tenByteSound.GetSampleSize = 1 ∨ tenByteSound.GetSampleSize = 2 ∨
      tenByteSound.GetSampleSize = 4) ∧
    (tenByteSound.SetLoop 3 25).repeat_ - (tenByteSound.SetLoop 3 25).start
      = ((tenByteSound.GetSampleSize * (min 3 tenByteSound.dataSize_ /
          tenByteSound.GetSampleSize) : Nat) : Int) ∧
    (tenByteSound.SetLoop 3 25).end_ - (tenByteSound.SetLoop 3 25).start
      = ((tenByteSound.GetSampleSize * (min 25 tenByteSound.dataSize_ /
          tenByteSound.GetSampleSize) : Nat) : Int) ∧
    tenByteSound.GetSampleSize * (min 3 tenByteSound.dataSize_ / tenByteSound.GetSampleSize)
      ≤ tenByteSound.dataSize_ ∧
    tenByteSound.GetSampleSize * (min 25 tenByteSound.dataSize_ / tenByteSound.GetSampleSize)
      ≤ tenByteSound.dataSize_ ∧
    (tenByteSound.SetLoop 3 25).looped_ = true :=
  SetLoop_offsets tenByteSound 3 25 rfl (by decide)

/-- For `0 < n` with `n + IP_SAFETY < 2^32`, `SetSize(n)` (the allocation
succeeding) leaves the data size at `n`, the sound uncompressed and not looped,
the end offset at `n`, and the four guard bytes at offsets `n .. n+3`, which lie
inside the allocated array, zero. -/
theorem SetSize_state_below_limit (s : Sound) (n : Nat) (addr : Int) (fresh : Int → Int)
    (hn : 0 < n) (hlim : n + IP_SAFETY < 4294967296) (haddr : addr ≠ 0) :
    (s.SetSize n addr fresh).dataSize_ = n ∧ (s.SetSize n addr fresh).compressed_ = false ∧
    (s.SetSize n addr fresh).looped_ = false ∧
    (s.SetSize n addr fresh).end_ - (s.SetSize n addr fresh).start = n ∧
    ∀ i : Nat, i < 4 → n + i < Sound.allocSize n ∧
      (s.SetSize n addr fresh).mem ((n : Int) + i) = 0 := by
  have hne : n ≠ 0 := by omega
  have heq : s.SetSize n addr fresh = Sound.FixInterpolation
      { s with start := addr, mem := fresh, dataSize_ := n, compressed_ := false,
               end_ := addr + n, looped_ := false } := by
    unfold Sound.SetSize
    rw [if_neg hne, SetLooped_false_eq _ rfl]
  obtain ⟨f1, f2, -, f4, f5, -, -, f8, -⟩ := FixInterpolation_fields
    { s with start := addr, mem := fresh, dataSize_ := n, compressed_ := false,
             end_ := addr + n, looped_ := false }
  rw [heq]
  refine ⟨f5, f8, f4, ?_, ?_⟩
  · rw [f1, f2]
    simp
  · intro i hi
    constructor
    · unfold Sound.allocSize
      rw [Nat.mod_eq_of_lt hlim]
      unfold IP_SAFETY
      omega
    · have h := FixInterpolation_oneshot_guard
        { s with start := addr, mem := fresh, dataSize_ := n, compressed_ := false,
                 end_ := addr + n, looped_ := false } haddr rfl (i : Int) ⟨by omega, by omega⟩
      simpa using h

/-- C17, failing input: `SetSize(4294967294)`.  The array length
`dataSize + IP_SAFETY` wraps to 2 in `unsigned`, while the end offset is set to
4294967294, so the first guard byte (offset `n`) that `FixInterpolation` writes
lies outside the array. -/
theorem SetSize_guard_outside_array :
    Sound.allocSize 4294967294 = 2 ∧
    ((Sound.new 1).SetSize 4294967294 1000 (fun _ => 7)).dataSize_ = 4294967294 ∧
    ((Sound.new 1).SetSize 4294967294 1000 (fun _ => 7)).end_ -
      ((Sound.new 1).SetSize 4294967294 1000 (fun _ => 7)).start = 4294967294 ∧
    ¬ (4294967294 < Sound.allocSize 4294967294) := by
  have heq : (Sound.new 1).SetSize 4294967294 1000 (fun _ => 7) = Sound.FixInterpolation
      { Sound.new 1 with start := 1000, mem := fun _ => 7, dataSize_ := 4294967294,
                         compressed_ := false, end_ := 1000 + (4294967294 : Nat),
                         looped_ := false } := by
    unfold Sound.SetSize
    rw [if_neg (by decide), SetLooped_false_eq _ rfl]
  obtain ⟨f1, f2, -, -, f5, -, -, -, -⟩ := FixInterpolation_fields
    { Sound.new 1 with start := 1000, mem := fun _ => 7, dataSize_ := 4294967294,
                       compressed_ := false, end_ := 1000 + (4294967294 : Nat),
                       looped_ := false }
  rw [heq, f1, f2, f5]
  refine ⟨by decide, rfl, by decide, by decide⟩

/-- C16: on an uncompressed sound of size `n` with a fixed format, the sequence
`SetLoop(0, n); SetLooped(false); SetLooped(true)` ends with the repeat offset,
the end offset and the looped flag that held right after `SetLoop(0, n)`. -/
theorem SetLoop_roundtrip (s : Sound) (hc : s.compressed_ = false) :
    (((s.SetLoop 0 s.dataSize_).SetLooped false).SetLooped true).repeat_
        = (s.SetLoop 0 s.dataSize_).repeat_ ∧
    (((s.SetLoop 0 s.dataSize_).SetLooped false).SetLooped true).end_
        = (s.SetLoop 0 s.dataSize_).end_ ∧
    (((s.SetLoop 0 s.dataSize_).SetLooped false).SetLooped true).start
        = (s.SetLoop 0 s.dataSize_).start ∧
    (((s.SetLoop 0 s.dataSize_).SetLooped false).SetLooped true).looped_
        = (s.SetLoop 0 s.dataSize_).looped_ := by
  have ha := SetLoop_eq s 0 s.dataSize_ hc
  obtain ⟨a1, a2, a3, a4, a5, a6, a7, a8, -⟩ := FixInterpolation_fields
    { s with repeat_ := s.start + ((min 0 s.dataSize_ &&& (4294967296 - s.GetSampleSize) : Nat) : Int),
             end_ := s.start + ((min s.dataSize_ s.dataSize_ &&& (4294967296 - s.GetSampleSize) : Nat) : Int),
             looped_ := true }
  rw [← ha] at a1 a2 a3 a4 a5 a6 a7 a8
  simp only at a1 a2 a3 a4 a5 a6 a7 a8
  have hb := SetLooped_false_eq (s.SetLoop 0 s.dataSize_) (by rw [a8, hc])
  obtain ⟨b1, b2, b3, b4, b5, b6, b7, b8, -⟩ := FixInterpolation_fields
    { s.SetLoop 0 s.dataSize_ with
      end_ := (s.SetLoop 0 s.dataSize_).start + (s.SetLoop 0 s.dataSize_).dataSize_,
      looped_ := false }
  rw [← hb] at b1 b2 b3 b4 b5 b6 b7 b8
  simp only at b1 b2 b3 b4 b5 b6 b7 b8
  have hsz : ((s.SetLoop 0 s.dataSize_).SetLooped false).GetSampleSize = s.GetSampleSize := by
    unfold Sound.GetSampleSize
    rw [b6, b7, a6, a7]
  have hc2 : ((s.SetLoop 0 s.dataSize_).SetLooped false).compressed_ = false := by
    rw [b8, a8, hc]
  rw [SetLooped_true_eq, SetLoop_eq _ _ _ hc2]
  obtain ⟨c1, c2, c3, c4, -⟩ := FixInterpolation_fields
    { (s.SetLoop 0 s.dataSize_).SetLooped false with
      repeat_ := ((s.SetLoop 0 s.dataSize_).SetLooped false).start +
        ((min 0 ((s.SetLoop 0 s.dataSize_).SetLooped false).dataSize_ &&&
          (4294967296 - ((s.SetLoop 0 s.dataSize_).SetLooped false).GetSampleSize) : Nat) : Int),
      end_ := ((s.SetLoop 0 s.dataSize_).SetLooped false).start +
        ((min ((s.SetLoop 0 s.dataSize_).SetLooped false).dataSize_
            ((s.SetLoop 0 s.dataSize_).SetLooped false).dataSize_ &&&
          (4294967296 - ((s.SetLoop 0 s.dataSize_).SetLooped false).GetSampleSize) : Nat) : Int),
      looped_ := true }
  rw [c1, c2, c3, c4, a2, a3, a4, a1]
  simp only [hsz, b1, b5, a1, a5]
  exact ⟨trivial, trivial, trivial, trivial⟩

/-- Witness for C16: the ten-byte stereo sound. -/
theorem SetLoop_roundtrip_witness :
    (((tenByteSound.SetLoop 0 tenByteSound.dataSize_).SetLooped false).SetLooped true).repeat_
        = (tenByteSound.SetLoop 0 tenByteSound.dataSize_).repeat_ ∧
    (((tenByteSound.SetLoop 0 tenByteSound.dataSize_).SetLooped false).SetLooped true).end_
        = (tenByteSound.SetLoop 0 tenByteSound.dataSize_).end_ ∧
    (((tenByteSound.SetLoop 0 tenByteSound.dataSize_).SetLooped false).SetLooped true).start
        = (tenByteSound.SetLoop 0 tenByteSound.dataSize_).start ∧
    (((tenByteSound.SetLoop 0 tenByteSound.dataSize_).SetLooped false).SetLooped true).looped_
        = (tenByteSound.SetLoop 0 tenByteSound.dataSize_).looped_ :=
  SetLoop_roundtrip tenByteSound rfl

/-- Counterexample to C15 as stated: a 16-bit sound of three bytes has, after
`SetLooped(true)`, the end offset 2 and not 3. -/
theorem SetLooped_true_end_counterexample :
    (oddSound.SetLooped true).end_ - (oddSound.SetLooped true).start ≠ oddSound.dataSize_ := by
  decide

/-- C15, amended: on an uncompressed sound of `n` bytes, `SetLooped(true)` leaves
the repeat offset at 0, the end offset at `n` rounded down to a multiple of the
sample stride (so at `n` when the stride divides `n`), and the sound looped. -/
theorem SetLooped_true_offsets (s : Sound) (hc : s.compressed_ = false)
    (hn : s.dataSize_ < 4294967296) :
    (s.SetLooped true).repeat_ - (s.SetLooped true).start = 0 ∧
    (s.SetLooped true).end_ - (s.SetLooped true).start
      = ((s.GetSampleSize * (s.dataSize_ / s.GetSampleSize) : Nat) : Int) ∧
    (s.GetSampleSize ∣ s.dataSize_ →
      (s.SetLooped true).end_ - (s.SetLooped true).start = s.dataSize_) ∧
    (s.SetLooped true).looped_ = true := by
  obtain ⟨h1, h2, h3, h4, -⟩ := SetLoop_result s 0 s.dataSize_ hc hn
  rw [SetLooped_true_eq, h1, h2, h3]
  refine ⟨by simp, by simp, ?_, h4⟩
  intro hd
  rw [Nat.min_self, Nat.mul_div_cancel' hd]
  simp

/-- Witness for C15, amended: the ten-byte 8-bit stereo sound. -/
theorem SetLooped_true_offsets_witness :
    (tenByteSound.SetLooped true).repeat_ - (tenByteSound.SetLooped true).start = 0 ∧
    (tenByteSound.SetLooped true).end_ - (tenByteSound.SetLooped true).start
      = ((tenByteSound.GetSampleSize * (tenByteSound.dataSize_ / tenByteSound.GetSampleSize)
          : Nat) : Int) ∧
    (tenByteSound.GetSampleSize ∣ tenByteSound.dataSize_ →
      (tenByteSound.SetLooped true).end_ - (tenByteSound.SetLooped true).start
        = tenByteSound.dataSize_) ∧
    (tenByteSound.SetLooped true).looped_ = true :=
  SetLooped_true_offsets tenByteSound rfl (by decide)

/-- Counterexample to C13 as stated: after `SetFormat(44100, true, false)` and
`SetSize(3)` the end offset 3 is not a multiple of the stride 2. -/
theorem offsets_aligned_counterexample :
    ¬ ((oddSound.GetSampleSize : Int) ∣ oddSound.end_ - oddSound.start) := by
  decide

/-- C13, amended: right after `SetLoop(r, e)` on an uncompressed sound, the
repeat offset and the end offset are multiples of the sample stride in force. -/
theorem SetLoop_aligned (s : Sound) (r e : Nat) (hc : s.compressed_ = false)
    (hn : s.dataSize_ < 4294967296) :
    (((s.SetLoop r e).GetSampleSize : Nat) : Int) ∣ (s.SetLoop r e).repeat_ - (s.SetLoop r e).start ∧
    (((s.SetLoop r e).GetSampleSize : Nat) : Int) ∣ (s.SetLoop r e).end_ - (s.SetLoop r e).start := by
  obtain ⟨h1, h2, h3, -, -, h6, -⟩ := SetLoop_result s r e hc hn
  rw [h1, h2, h3, h6]
  constructor
  · exact ⟨((min r s.dataSize_ / s.GetSampleSize : Nat) : Int), by push_cast; ring⟩
  · exact ⟨((min e s.dataSize_ / s.GetSampleSize : Nat) : Int), by push_cast; ring⟩

/-- Witness for C13, amended: `SetLoop(3, 25)` on the ten-byte stereo sound. -/
theorem SetLoop_aligned_witness :
    (((tenByteSound.SetLoop 3 25).GetSampleSize : Nat) : Int) ∣
      (tenByteSound.SetLoop 3 25).repeat_ - (tenByteSound.SetLoop 3 25).start ∧
    (((tenByteSound.SetLoop 3 25).GetSampleSize : Nat) : Int) ∣
      (tenByteSound.SetLoop 3 25).end_ - (tenByteSound.SetLoop 3 25).start :=
  SetLoop_aligned tenByteSound 3 25 rfl (by decide)

/-- C18: for a looped sound with data and `repeat < end`, after
`FixInterpolation` the guard byte at `end + i` (`i = 0..3`) equals the
pre-call byte at `repeat + (i mod (end - repeat))`; when the loop is at least
four bytes long the guard is a copy of the four bytes at the repeat point. -/
theorem FixInterpolation_guard_follows_loop (s : Sound) (h0 : s.start ≠ 0)
    (hl : s.looped_ = true) (hre : s.repeat_ < s.end_) (i : Nat) (hi : i < 4) :
    s.FixInterpolation.byteAt (s.end_ + i)
      = s.byteAt (s.repeat_ + (i : Int) % (s.end_ - s.repeat_)) ∧
    (s.repeat_ + 4 ≤ s.end_ →
      s.FixInterpolation.byteAt (s.end_ + i) = s.byteAt (s.repeat_ + i)) := by
  have h := FixInterpolation_looped_byte s h0 hl hre i hi
  refine ⟨h, fun h4 => ?_⟩
  rw [h, Int.emod_eq_of_lt (by omega) (by omega)]

/-- Witness for C18: the sample sound looped over its bytes 1 and 2, guard
byte 3. -/
theorem FixInterpolation_guard_follows_loop_witness :
    twoByteLoop.FixInterpolation.byteAt (twoByteLoop.end_ + (3 : Nat))
      = twoByteLoop.byteAt (twoByteLoop.repeat_ +
          ((3 : Nat) : Int) % (twoByteLoop.end_ - twoByteLoop.repeat_)) ∧
    (twoByteLoop.repeat_ + 4 ≤ twoByteLoop.end_ →
      twoByteLoop.FixInterpolation.byteAt (twoByteLoop.end_ + (3 : Nat))
        = twoByteLoop.byteAt (twoByteLoop.repeat_ + (3 : Nat))) :=
  FixInterpolation_guard_follows_loop twoByteLoop (by decide) rfl (by decide) 3 (by decide)

/-- C39: `SetLoop(r, e)` and `SetLooped` change no buffer byte outside the four
bytes at offsets `[end', end' + 4)`, `end'` being the end offset after the
call: every byte below `end'` and every byte from `end' + 4` on is preserved.
The four bytes themselves are written by `SetLoop` on an uncompressed sound
with data: with `repeat' < end'` the byte at `end' + i` becomes the pre-call
byte at `repeat' + (i mod (end' - repeat'))`, also where `end' + i` lies inside
the payload. -/
theorem SetLoop_changes_only_guard (s : Sound) (r e : Nat) (b : Bool) :
    (∀ off : Int,
      off < (s.SetLoop r e).end_ - (s.SetLoop r e).start ∨
        (s.SetLoop r e).end_ - (s.SetLoop r e).start + 4 ≤ off →
      (s.SetLoop r e).mem off = s.mem off) ∧
    (∀ off : Int,
      off < (s.SetLooped b).end_ - (s.SetLooped b).start ∨
        (s.SetLooped b).end_ - (s.SetLooped b).start + 4 ≤ off →
      (s.SetLooped b).mem off = s.mem off) ∧
    (s.compressed_ = false → s.start ≠ 0 → (s.SetLoop r e).repeat_ < (s.SetLoop r e).end_ →
      ∀ i : Nat, i < 4 →
        (s.SetLoop r e).byteAt ((s.SetLoop r e).end_ + i)
          = s.byteAt ((s.SetLoop r e).repeat_ +
              (i : Int) % ((s.SetLoop r e).end_ - (s.SetLoop r e).repeat_))) := by
  refine ⟨fun off h => SetLoop_mem_other s r e off h,
    fun off h => SetLooped_mem_other s b off h, ?_⟩
  intro hc h0 hre i hi
  obtain ⟨-, f2, f3, -⟩ := FixInterpolation_fields
    { s with repeat_ := s.start + ((min r s.dataSize_ &&& (4294967296 - s.GetSampleSize) : Nat) : Int),
             end_ := s.start + ((min e s.dataSize_ &&& (4294967296 - s.GetSampleSize) : Nat) : Int),
             looped_ := true }
  rw [SetLoop_eq s r e hc] at hre ⊢
  rw [f2, f3] at hre ⊢
  exact FixInterpolation_looped_byte
    { s with repeat_ := s.start + ((min r s.dataSize_ &&& (4294967296 - s.GetSampleSize) : Nat) : Int),
             end_ := s.start + ((min e s.dataSize_ &&& (4294967296 - s.GetSampleSize) : Nat) : Int),
             looped_ := true } h0 rfl hre i hi

/-- C37: for a requested capture buffer length that is below 1000 ms after the
20 ms floor, `SetCaptureMode` computes `captureDataSize_ = 0` for every mix rate
and both channel settings, because `bufferLengthMSec / 1000` is an integer
division. -/
theorem SetCaptureMode_size_zero (a : Audio) (bufferLengthMSec mixRate : Int) (stereo : Bool)
    (h : max bufferLengthMSec MIN_BUFFERLENGTH < 1000) :
    (a.SetCaptureMode bufferLengthMSec mixRate stereo).1.captureDataSize_ = 0 := by
  unfold Audio.SetCaptureMode
  have h0 : 0 ≤ max bufferLengthMSec MIN_BUFFERLENGTH := le_trans (by decide) (le_max_right _ _)
  simp only [Int.tdiv_eq_zero_of_lt h0 h, mul_zero]

/-- Witness for C37: half a second of stereo capture at 44100 Hz. -/
theorem SetCaptureMode_size_zero_witness :
    (Audio.new.SetCaptureMode 500 44100 true).1.captureDataSize_ = 0 :=
  SetCaptureMode_size_zero Audio.new 500 44100 true (by decide)

/-- For a mix rate `m` in `[11025, 48000]` and any device buffer size, the
fragment size `F = min(NextPowerOfTwo(m >> 6), deviceSamples)` satisfies
`32 * F < m`; hence `F` output frames last less than the 100 ms of the decode
buffer, and a voice of frequency `f` and sample size `size` consumes during
them, in exact arithmetic, fewer bytes than 100 ms of its PCM. -/
theorem fragment_below_decode_buffer (m : Int) (deviceSamples : Nat)
    (hm1 : 11025 ≤ m) (hm2 : m ≤ 48000) :
    32 * min (toInt (NextPowerOfTwo (m / 64).toNat)) (toInt deviceSamples) < m ∧
    min (toInt (NextPowerOfTwo (m / 64).toNat)) (toInt deviceSamples) * 1000
      < DECODE_BUFFER_LENGTH * m ∧
    ∀ f size : ℚ, 0 < f → 0 < size →
      size * (f * (min (toInt (NextPowerOfTwo (m / 64).toNat)) (toInt deviceSamples) : Int) / m)
        < size * f * DECODE_BUFFER_LENGTH / 1000 := by
  have h := fragment_lt m hm1 hm2
  have hmin : min (toInt (NextPowerOfTwo (m / 64).toNat)) (toInt deviceSamples)
      ≤ toInt (NextPowerOfTwo (m / 64).toNat) := min_le_left _ _
  have h32 : 32 * min (toInt (NextPowerOfTwo (m / 64).toNat)) (toInt deviceSamples) < m := by
    omega
  refine ⟨h32, ?_, ?_⟩
  · simp only [DECODE_BUFFER_LENGTH]
    omega
  · intro f size hf hs
    generalize min (toInt (NextPowerOfTwo (m / 64).toNat)) (toInt deviceSamples) = F at h32
    have hmq : (0 : ℚ) < m := by exact_mod_cast (by omega : (0 : Int) < m)
    have hFq : (32 : ℚ) * F < m := by exact_mod_cast h32
    have hlt : (F : ℚ) / m < 1 / 10 := by
      rw [div_lt_div_iff hmq (by norm_num)]
      linarith
    have hfs : 0 < size * f := mul_pos hs hf
    have e1 : size * (f * (F : ℚ) / m) = size * f * ((F : ℚ) / m) := by ring
    have e2 : size * f * ((DECODE_BUFFER_LENGTH : Nat) : ℚ) / 1000 = size * f * (1 / 10) := by
      simp only [DECODE_BUFFER_LENGTH]
      norm_num
      ring
    rw [e1, e2]
    exact mul_lt_mul_of_pos_left hlt hfs

/-- The fragment bound at 44100 Hz with a device buffer of 2048 samples. -/
theorem fragment_below_decode_buffer_witness :
    32 * min (toInt (NextPowerOfTwo ((44100 : Int) / 64).toNat)) (toInt 2048) < 44100 ∧
    min (toInt (NextPowerOfTwo ((44100 : Int) / 64).toNat)) (toInt 2048) * 1000
      < DECODE_BUFFER_LENGTH * 44100 ∧
    ∀ f size : ℚ, 0 < f → 0 < size →
      size * (f * (min (toInt (NextPowerOfTwo ((44100 : Int) / 64).toNat)) (toInt 2048) : Int)
          / (44100 : Int))
        < size * f * DECODE_BUFFER_LENGTH / 1000 :=
  fragment_below_decode_buffer 44100 2048 (by decide) (by decide)

/-- Counterexample to C27 as stated: at 48000 Hz with a device that reports a
buffer of 1000 samples, `SetMode` succeeds with the fragment size 1000, which
is not a power of two. -/
theorem SetMode_fragment_counterexample :
    (Audio.new.SetMode 100 48000 true false ⟨1, true, 2, 1000⟩ (fun _ => 0)).2 = true ∧
    (Audio.new.SetMode 100 48000 true false ⟨1, true, 2, 1000⟩ (fun _ => 0)).1.fragmentSize_
      = 1000 ∧
    ¬ ∃ k : Nat, (1000 : Int) = 2 ^ k := by
  refine ⟨by decide, by decide, ?_⟩
  rintro ⟨k, hk⟩
  by_cases h : k < 10
  · interval_cases k <;> omega
  · have h2 : (2 : Int) ^ 10 ≤ 2 ^ k := pow_le_pow_right₀ (by decide) (by omega)
    omega

/-- C27, amended: after a successful `SetMode` the stored mix rate lies in
`[11025, 48000]` and the fragment size is
`min(NextPowerOfTwo(mixRate_ >> 6), obtained.samples)` for the stored mix rate.
It is at most the buffer size the device reports; `NextPowerOfTwo(mixRate_ >> 6)`
is a power of two; the fragment size is either the device's buffer size or that
power of two, and it is a power of two whenever the device's buffer size is one
or is not below `NextPowerOfTwo(mixRate_ >> 6)`. -/
theorem SetMode_rate_and_fragment (a : Audio) (len mixRate : Int) (stereo ip : Bool)
    (dev : DeviceAnswer) (fresh : Nat → Int)
    (h : (a.SetMode len mixRate stereo ip dev fresh).2 = true) (hs : dev.samples < 65536) :
    11025 ≤ (a.SetMode len mixRate stereo ip dev fresh).1.mixRate_ ∧
    (a.SetMode len mixRate stereo ip dev fresh).1.mixRate_ ≤ 48000 ∧
    (a.SetMode len mixRate stereo ip dev fresh).1.fragmentSize_ =
      min ((NextPowerOfTwo
        ((a.SetMode len mixRate stereo ip dev fresh).1.mixRate_ / 64).toNat : Nat) : Int)
        (dev.samples : Int) ∧
    (∃ k : Nat, NextPowerOfTwo
      ((a.SetMode len mixRate stereo ip dev fresh).1.mixRate_ / 64).toNat = 2 ^ k) ∧
    (a.SetMode len mixRate stereo ip dev fresh).1.fragmentSize_ ≤ dev.samples ∧
    ((a.SetMode len mixRate stereo ip dev fresh).1.fragmentSize_ = dev.samples ∨
      ∃ k : Nat, (a.SetMode len mixRate stereo ip dev fresh).1.fragmentSize_ = 2 ^ k) ∧
    (NextPowerOfTwo ((a.SetMode len mixRate stereo ip dev fresh).1.mixRate_ / 64).toNat
        ≤ dev.samples →
      ∃ k : Nat, (a.SetMode len mixRate stereo ip dev fresh).1.fragmentSize_ = 2 ^ k) ∧
    ((∃ j : Nat, dev.samples = 2 ^ j) →
      ∃ k : Nat, (a.SetMode len mixRate stereo ip dev fresh).1.fragmentSize_ = 2 ^ k) := by
  obtain ⟨h1, h2, -, -⟩ := SetMode_success a len mixRate stereo ip dev fresh h
  obtain ⟨c1, c2⟩ := @Clamp_range mixRate MIN_MIXRATE MAX_MIXRATE (by decide)
  simp only [MIN_MIXRATE, MAX_MIXRATE] at c1 c2 h1 h2
  rw [h1, h2, toInt_small dev.samples (by omega)]
  have hx : 172 ≤ (Clamp mixRate 11025 48000 / 64).toNat ∧
      (Clamp mixRate 11025 48000 / 64).toNat ≤ 750 := by omega
  have hp : ∃ k : Nat, NextPowerOfTwo (Clamp mixRate 11025 48000 / 64).toNat = 2 ^ k ∧
      NextPowerOfTwo (Clamp mixRate 11025 48000 / 64).toNat < 2147483648 := by
    by_cases ha : (Clamp mixRate 11025 48000 / 64).toNat ≤ 256
    · exact ⟨8, by rw [NextPowerOfTwo_256 _ (by omega) ha]; decide⟩
    · by_cases hb : (Clamp mixRate 11025 48000 / 64).toNat ≤ 512
      · exact ⟨9, by rw [NextPowerOfTwo_512 _ (by omega) hb]; decide⟩
      · exact ⟨10, by rw [NextPowerOfTwo_1024 _ (by omega) (by omega)]; decide⟩
  obtain ⟨k, hk, hlt⟩ := hp
  rw [toInt_small _ hlt]
  have hkz : ((NextPowerOfTwo (Clamp mixRate 11025 48000 / 64).toNat : Nat) : Int)
      = (2 : Int) ^ k := by
    rw [hk]
    push_cast
    rfl
  refine ⟨c1, c2, rfl, ⟨k, hk⟩, min_le_right _ _, ?_, ?_, ?_⟩
  · rcases le_total ((NextPowerOfTwo (Clamp mixRate 11025 48000 / 64).toNat : Nat) : Int)
      (dev.samples : Int) with hle | hle
    · exact Or.inr ⟨k, by rw [min_eq_left hle, hkz]⟩
    · exact Or.inl (min_eq_right hle)
  · intro hle
    exact ⟨k, by rw [min_eq_left (by exact_mod_cast hle), hkz]⟩
  · rintro ⟨j, hj⟩
    rcases le_total ((NextPowerOfTwo (Clamp mixRate 11025 48000 / 64).toNat : Nat) : Int)
      (dev.samples : Int) with hle | hle
    · exact ⟨k, by rw [min_eq_left hle, hkz]⟩
    · exact ⟨j, by rw [min_eq_right hle, hj]; push_cast; rfl⟩

/-- Witness for C27, amended: 48000 Hz and a device buffer of 1000 samples, which
is below `NextPowerOfTwo(48000 >> 6) = 1024`. -/
theorem SetMode_rate_and_fragment_witness :
    (Audio.new.SetMode 100 48000 true false ⟨1, true, 2, 1000⟩ (fun _ => 0)).1.fragmentSize_ =
      min ((NextPowerOfTwo ((Audio.new.SetMode 100 48000 true false ⟨1, true, 2, 1000⟩
        (fun _ => 0)).1.mixRate_ / 64).toNat : Nat) : Int)
        (((⟨1, true, 2, 1000⟩ : DeviceAnswer).samples : Nat) : Int) ∧
    (Audio.new.SetMode 100 48000 true false ⟨1, true, 2, 1000⟩ (fun _ => 0)).1.fragmentSize_
      ≤ (⟨1, true, 2, 1000⟩ : DeviceAnswer).samples :=
  ⟨(SetMode_rate_and_fragment Audio.new 100 48000 true false ⟨1, true, 2, 1000⟩ (fun _ => 0)
      (by decide) (by decide)).2.2.1,
    (SetMode_rate_and_fragment Audio.new 100 48000 true false ⟨1, true, 2, 1000⟩ (fun _ => 0)
      (by decide) (by decide)).2.2.2.2.1⟩

/-- C35, failing input: `SetMode` asked for mono output on a device that grants
two channels succeeds with `stereo_` true and a fragment of 1024 frames, but
allocates only 1024 clip-buffer slots where `MixOutput` uses 2048. -/
theorem SetMode_clip_buffer_short :
    (Audio.new.SetMode 100 44100 false false ⟨1, true, 2, 4096⟩ (fun _ => 0)).2 = true ∧
    (Audio.new.SetMode 100 44100 false false ⟨1, true, 2, 4096⟩ (fun _ => 0)).1.stereo_ = true ∧
    (Audio.new.SetMode 100 44100 false false ⟨1, true, 2, 4096⟩ (fun _ => 0)).1.fragmentSize_
      = 1024 ∧
    (Audio.new.SetMode 100 44100 false false ⟨1, true, 2, 4096⟩ (fun _ => 0)).1.clipSize
      = 1024 := by
  decide

/-- C28: after any sequence of `SetMasterGain` calls on a new `Audio`,
`GetMasterGain(t)` lies in `[0, 1]` for every category `t`; a call with a valid
category stores the clamped gain for it and changes no other category, and a
call with a category at or above `MAX_SOUND_TYPES` changes nothing. -/
theorem masterGain_stays_in_unit_range (maxSoundTypes : Nat) (calls : List (Nat × ℚ))
    (a : Audio) (t type : Nat) (g : ℚ) :
    (0 ≤ Audio.GetMasterGain maxSoundTypes
        (calls.foldl (fun b c => b.SetMasterGain maxSoundTypes c.1 c.2) Audio.new) t ∧
      Audio.GetMasterGain maxSoundTypes
        (calls.foldl (fun b c => b.SetMasterGain maxSoundTypes c.1 c.2) Audio.new) t ≤ 1) ∧
    (type < maxSoundTypes →
      (a.SetMasterGain maxSoundTypes type g).masterGain_ type = Clamp g 0 1 ∧
      (a.SetMasterGain maxSoundTypes type g).masterGain_ type = min (max g 0) 1 ∧
      ∀ u : Nat, u ≠ type →
        (a.SetMasterGain maxSoundTypes type g).masterGain_ u = a.masterGain_ u) ∧
    (maxSoundTypes ≤ type → a.SetMasterGain maxSoundTypes type g = a) := by
  refine ⟨?_, ?_, ?_⟩
  · have inv : ∀ (cs : List (Nat × ℚ)) (b : Audio),
        (∀ u, 0 ≤ b.masterGain_ u ∧ b.masterGain_ u ≤ 1) →
        ∀ u, 0 ≤ (cs.foldl (fun b c => b.SetMasterGain maxSoundTypes c.1 c.2) b).masterGain_ u ∧
          (cs.foldl (fun b c => b.SetMasterGain maxSoundTypes c.1 c.2) b).masterGain_ u ≤ 1 := by
      intro cs
      induction cs with
      | nil => intro b hb u; exact hb u
      | cons c cs ih =>
        intro b hb
        apply ih
        intro u
        unfold Audio.SetMasterGain
        by_cases hc : c.1 ≥ maxSoundTypes
        · simp only [hc, if_true]
          exact hb u
        · simp only [hc, if_false]
          by_cases hu : u = c.1
          · subst hu
            simp only [Function.update_same]
            exact Clamp_mem c.2 0 1 (by norm_num)
          · simp only [Function.update_noteq hu]
            exact hb u
    have h := inv calls Audio.new (fun u => by simp [Audio.new]) t
    unfold Audio.GetMasterGain
    split
    · exact ⟨le_refl _, by norm_num⟩
    · exact h
  · intro ht
    unfold Audio.SetMasterGain
    rw [if_neg (by omega)]
    refine ⟨by simp, ?_, fun u hu => by simp [Function.update_noteq hu]⟩
    simp only [Function.update_same]
    unfold Clamp
    split_ifs with h1 h2
    · rw [max_eq_right (le_of_lt h1)]
      exact (min_eq_left (by norm_num)).symm
    · rw [min_eq_right]
      exact le_trans (le_of_lt h2) (le_max_left _ _)
    · rw [max_eq_left (not_lt.mp h1), min_eq_left (not_lt.mp h2)]
  · intro ht
    unfold Audio.SetMasterGain
    rw [if_pos ht]

/-- C29: the voice parameter setters store the clamped argument:
`SetFrequency` clamps to `[0, 535232]`, `SetPanning` to `[-1, 1]`,
`SetAttenuation` to `[0, 1]`, `SetPitch` to `[0, 2]` and `SetGain` stores
`max(g, 0)`; storing an in-range argument keeps it, and applying a setter to
the value it has stored stores that value again. -/
theorem setters_store_clamped (v : SoundSource) (x : ℚ) :
    ((v.SetFrequency x).frequency_ = Clamp x 0 535232 ∧
      0 ≤ (v.SetFrequency x).frequency_ ∧ (v.SetFrequency x).frequency_ ≤ 535232 ∧
      (0 ≤ x → x ≤ 535232 → (v.SetFrequency x).frequency_ = x) ∧
      (v.SetFrequency x).SetFrequency (v.SetFrequency x).frequency_ = v.SetFrequency x) ∧
    ((v.SetPanning x).panning_ = Clamp x (-1) 1 ∧
      -1 ≤ (v.SetPanning x).panning_ ∧ (v.SetPanning x).panning_ ≤ 1 ∧
      (-1 ≤ x → x ≤ 1 → (v.SetPanning x).panning_ = x) ∧
      (v.SetPanning x).SetPanning (v.SetPanning x).panning_ = v.SetPanning x) ∧
    ((v.SetAttenuation x).attenuation_ = Clamp x 0 1 ∧
      0 ≤ (v.SetAttenuation x).attenuation_ ∧ (v.SetAttenuation x).attenuation_ ≤ 1 ∧
      (0 ≤ x → x ≤ 1 → (v.SetAttenuation x).attenuation_ = x) ∧
      (v.SetAttenuation x).SetAttenuation (v.SetAttenuation x).attenuation_
        = v.SetAttenuation x) ∧
    ((v.SetPitch x).pitch_ = Clamp x 0 2 ∧
      0 ≤ (v.SetPitch x).pitch_ ∧ (v.SetPitch x).pitch_ ≤ 2 ∧
      (0 ≤ x → x ≤ 2 → (v.SetPitch x).pitch_ = x) ∧
      (v.SetPitch x).SetPitch (v.SetPitch x).pitch_ = v.SetPitch x) ∧
    ((v.SetGain x).gain_ = max x 0 ∧ 0 ≤ (v.SetGain x).gain_ ∧
      (0 ≤ x → (v.SetGain x).gain_ = x) ∧
      (v.SetGain x).SetGain (v.SetGain x).gain_ = v.SetGain x) := by
  refine ⟨⟨rfl, (Clamp_mem x 0 535232 (by norm_num)).1, (Clamp_mem x 0 535232 (by norm_num)).2,
      fun h1 h2 => Clamp_of_mem x 0 535232 h1 h2, ?_⟩,
    ⟨rfl, (Clamp_mem x (-1) 1 (by norm_num)).1, (Clamp_mem x (-1) 1 (by norm_num)).2,
      fun h1 h2 => Clamp_of_mem x (-1) 1 h1 h2, ?_⟩,
    ⟨rfl, (Clamp_mem x 0 1 (by norm_num)).1, (Clamp_mem x 0 1 (by norm_num)).2,
      fun h1 h2 => Clamp_of_mem x 0 1 h1 h2, ?_⟩,
    ⟨rfl, (Clamp_mem x 0 2 (by norm_num)).1, (Clamp_mem x 0 2 (by norm_num)).2,
      fun h1 h2 => Clamp_of_mem x 0 2 h1 h2, ?_⟩,
    ⟨rfl, le_max_right _ _, fun h => max_eq_left h, ?_⟩⟩
  · simp only [SoundSource.SetFrequency, Clamp_idem x 0 535232 (by norm_num)]
  · simp only [SoundSource.SetPanning, Clamp_idem x (-1) 1 (by norm_num)]
  · simp only [SoundSource.SetAttenuation, Clamp_idem x 0 1 (by norm_num)]
  · simp only [SoundSource.SetPitch, Clamp_idem x 0 2 (by norm_num)]
  · simp only [SoundSource.SetGain, max_eq_left (le_max_right x 0)]

/-- C32, failing input: with `s0 = -32768`, `s1 = 32767` and `frac = 65535` the
32-bit product `(s1 - s0) * frac` wraps, and `GET_IP_SAMPLE` yields `-32769`,
which is neither `s0 + trunc((s1 - s0) * frac / 65536) = 32766` nor between
`s0` and `s1`. -/
theorem GET_IP_SAMPLE_overflows :
    extremeSound.shortAt 1000 = -32768 ∧ extremeSound.shortAt 1002 = 32767 ∧
    GET_IP_SAMPLE extremeSound 2 ⟨fun _ => 0, 0, 1000, 65535⟩ = -32769 ∧
    (-32768 : Int) + Int.tdiv ((32767 - (-32768)) * 65535) 65536 = 32766 := by
  decide

/-- C33: the cursor is an exact Q16 accumulator.  With `fractPos` and
`fractAdd` in `[0, 65535]` and the cursor at frame `k` of a buffer at `base`, a
step of `INC_POS_ONESHOT` (frames of `es` bytes) or `INC_POS_STEREO_ONESHOT`
(frames of `2 * es` bytes) that does not stop, and a step of `INC_POS_LOOPED` or
`INC_POS_STEREO_LOOPED` that does not wrap, leaves the cursor at a frame `k2`
with `k2 * 65536 + fractPos2 = k * 65536 + fractPos + intAdd * 65536 + fractAdd`
and `fractPos2` again in `[0, 65535]`. -/
theorem cursor_step_is_exact (es intAdd fractAdd e r base k : Int) (st : MixRun)
    (hfp : 0 ≤ st.fractPos ∧ st.fractPos ≤ 65535)
    (hfa : 0 ≤ fractAdd ∧ fractAdd ≤ 65535) :
    (st.pos = base + es * k → (INC_POS_ONESHOT es intAdd fractAdd e st).2 = false →
      ∃ k2 : Int, (INC_POS_ONESHOT es intAdd fractAdd e st).1.pos = base + es * k2 ∧
        k2 * 65536 + (INC_POS_ONESHOT es intAdd fractAdd e st).1.fractPos
          = k * 65536 + st.fractPos + intAdd * 65536 + fractAdd ∧
        0 ≤ (INC_POS_ONESHOT es intAdd fractAdd e st).1.fractPos ∧
        (INC_POS_ONESHOT es intAdd fractAdd e st).1.fractPos ≤ 65535) ∧
    (st.pos = base + 2 * es * k →
      (INC_POS_STEREO_ONESHOT es intAdd fractAdd e st).2 = false →
      ∃ k2 : Int, (INC_POS_STEREO_ONESHOT es intAdd fractAdd e st).1.pos = base + 2 * es * k2 ∧
        k2 * 65536 + (INC_POS_STEREO_ONESHOT es intAdd fractAdd e st).1.fractPos
          = k * 65536 + st.fractPos + intAdd * 65536 + fractAdd ∧
        0 ≤ (INC_POS_STEREO_ONESHOT es intAdd fractAdd e st).1.fractPos ∧
        (INC_POS_STEREO_ONESHOT es intAdd fractAdd e st).1.fractPos ≤ 65535) ∧
    (st.pos = base + es * k → (rawStep es intAdd fractAdd (st.pos, st.fractPos)).1 < e →
      ∃ (st2 : MixRun) (k2 : Int), INC_POS_LOOPED es intAdd fractAdd e r st = some st2 ∧
        st2.pos = base + es * k2 ∧
        k2 * 65536 + st2.fractPos = k * 65536 + st.fractPos + intAdd * 65536 + fractAdd ∧
        0 ≤ st2.fractPos ∧ st2.fractPos ≤ 65535) ∧
    (st.pos = base + 2 * es * k →
      (rawStep (2 * es) intAdd fractAdd (st.pos, st.fractPos)).1 < e →
      ∃ (st2 : MixRun) (k2 : Int), INC_POS_STEREO_LOOPED es intAdd fractAdd e r st = some st2 ∧
        st2.pos = base + 2 * es * k2 ∧
        k2 * 65536 + st2.fractPos = k * 65536 + st.fractPos + intAdd * 65536 + fractAdd ∧
        0 ≤ st2.fractPos ∧ st2.fractPos ≤ 65535) := by
  refine ⟨?_, ?_, ?_, ?_⟩
  · intro hpos hno
    obtain ⟨k2, h1, h2, h3, h4⟩ :=
      rawStep_exact es intAdd fractAdd st.pos st.fractPos base k hfp hfa hpos
    rw [INC_POS_ONESHOT_raw] at hno ⊢
    by_cases hb : e ≤ (rawStep es intAdd fractAdd (st.pos, st.fractPos)).1
    · rw [if_pos hb] at hno
      exact absurd hno (by simp)
    · rw [if_neg hb]
      exact ⟨k2, h1, h2, h3, h4⟩
  · intro hpos hno
    obtain ⟨k2, h1, h2, h3, h4⟩ :=
      rawStep_exact (2 * es) intAdd fractAdd st.pos st.fractPos base k hfp hfa hpos
    rw [INC_POS_STEREO_ONESHOT_eq, INC_POS_ONESHOT_raw] at hno ⊢
    by_cases hb : e ≤ (rawStep (2 * es) intAdd fractAdd (st.pos, st.fractPos)).1
    · rw [if_pos hb] at hno
      exact absurd hno (by simp)
    · rw [if_neg hb]
      exact ⟨k2, h1, h2, h3, h4⟩
  · intro hpos hlt
    obtain ⟨k2, h1, h2, h3, h4⟩ :=
      rawStep_exact es intAdd fractAdd st.pos st.fractPos base k hfp hfa hpos
    rw [INC_POS_LOOPED_raw, wrapWhile_of_lt _ _ _ hlt]
    exact ⟨_, k2, rfl, h1, h2, h3, h4⟩
  · intro hpos hlt
    obtain ⟨k2, h1, h2, h3, h4⟩ :=
      rawStep_exact (2 * es) intAdd fractAdd st.pos st.fractPos base k hfp hfa hpos
    rw [INC_POS_STEREO_LOOPED_eq, INC_POS_LOOPED_raw, wrapWhile_of_lt _ _ _ hlt]
    exact ⟨_, k2, rfl, h1, h2, h3, h4⟩

/-- Witness for C33: a 16-bit cursor at frame 3 with a fractional carry. -/
theorem cursor_step_is_exact_witness :
    ∃ k2 : Int,
      (INC_POS_ONESHOT 2 1 40000 2000 (⟨fun _ => 0, 0, 1006, 30000⟩ : MixRun)).1.pos
        = 1000 + 2 * k2 ∧
      k2 * 65536 + (INC_POS_ONESHOT 2 1 40000 2000 (⟨fun _ => 0, 0, 1006, 30000⟩ : MixRun)).1.fractPos
        = 3 * 65536 + (⟨fun _ => 0, 0, 1006, 30000⟩ : MixRun).fractPos + 1 * 65536 + 40000 ∧
      0 ≤ (INC_POS_ONESHOT 2 1 40000 2000 (⟨fun _ => 0, 0, 1006, 30000⟩ : MixRun)).1.fractPos ∧
      (INC_POS_ONESHOT 2 1 40000 2000 (⟨fun _ => 0, 0, 1006, 30000⟩ : MixRun)).1.fractPos
        ≤ 65535 :=
  (cursor_step_is_exact 2 1 40000 2000 1000 1000 3 ⟨fun _ => 0, 0, 1006, 30000⟩
    (by decide) (by decide)).1 (by decide) (by decide)

/-- Counterexample to C21 as stated: a voice attached to no audio engine keeps
its sound reference when `Play(null)` is called, because `Play` returns at once
without an engine. -/
theorem Play_null_detached_keeps_sound :
    (detachedVoice.Play none).sound_.isSome = true := by
  decide

/-- C21, amended: for a voice attached to an audio engine, `Play(null)` and
`Play` of an uncompressed sound without data leave the voice not playing with
its sound reference cleared; and `Mix` on any voice whose sound reference is
null or whose cursor is null leaves `dest` and every voice field unchanged. -/
theorem Play_without_sound_is_inert (v : SoundSource) (hat : v.audioAttached = true) :
    ((v.Play none).sound_ = none ∧ (v.Play none).position_ = 0 ∧
      (v.Play none).IsPlaying = false) ∧
    (∀ snd : Sound, snd.compressed_ = false → snd.start = 0 →
      (v.Play (some snd)).sound_ = none ∧ (v.Play (some snd)).position_ = 0 ∧
      (v.Play (some snd)).IsPlaying = false) ∧
    (∀ (w : SoundSource) (env : MixEnv) (dest : Nat → Int) (samples : Nat) (mixRate : Int)
      (stereo ip : Bool), w.sound_ = none ∨ w.position_ = 0 →
      w.Mix env dest samples mixRate stereo ip = some (w, dest)) := by
  refine ⟨?_, ?_, ?_⟩
  · simp [SoundSource.Play, SoundSource.PlayLockless, SoundSource.IsPlaying, hat]
  · intro snd hc h0
    simp [SoundSource.Play, SoundSource.PlayLockless, SoundSource.IsPlaying, hat, hc, h0]
  · intro w env dest samples mixRate stereo ip h
    rcases h with h | h
    · unfold SoundSource.Mix
      rw [h]
    · exact Mix_of_null_position w h env dest samples mixRate stereo ip

/-- Witness for C21, amended: the sample voice. -/
theorem Play_without_sound_is_inert_witness :
    ((demoVoice.Play none).sound_ = none ∧ (demoVoice.Play none).position_ = 0 ∧
      (demoVoice.Play none).IsPlaying = false) ∧
    (∀ snd : Sound, snd.compressed_ = false → snd.start = 0 →
      (demoVoice.Play (some snd)).sound_ = none ∧ (demoVoice.Play (some snd)).position_ = 0 ∧
      (demoVoice.Play (some snd)).IsPlaying = false) ∧
    (∀ (w : SoundSource) (env : MixEnv) (dest : Nat → Int) (samples : Nat) (mixRate : Int)
      (stereo ip : Bool), w.sound_ = none ∨ w.position_ = 0 →
      w.Mix env dest samples mixRate stereo ip = some (w, dest)) :=
  Play_without_sound_is_inert demoVoice rfl

/-- C22: for a voice attached to an audio engine (a decoder being held only
together with a sound reference), after `Stop()` the cursor is null,
`IsPlaying()` is false, the decoder handle and the decode buffer are released,
and the next `Mix` call leaves `dest` and the voice unchanged. -/
theorem Stop_releases_and_silences (v : SoundSource) (hat : v.audioAttached = true)
    (hinv : v.decoder_.isSome = true → v.sound_.isSome = true) :
    v.Stop.position_ = 0 ∧ v.Stop.IsPlaying = false ∧ v.Stop.decoder_ = none ∧
    v.Stop.decodeBuffer_ = none ∧
    ∀ (env : MixEnv) (dest : Nat → Int) (samples : Nat) (mixRate : Int) (stereo ip : Bool),
      v.Stop.Mix env dest samples mixRate stereo ip = some (v.Stop, dest) := by
  rw [Stop_eq v hat]
  obtain ⟨f1, f2, f3, f4⟩ := FreeDecoder_fields (if v.position_ ≠ 0 then v.StopLockless else v)
  have hp : (if v.position_ ≠ 0 then v.StopLockless else v).FreeDecoder.position_ = 0 := by
    rw [f1]
    by_cases h : v.position_ = 0
    · simp [h]
    · simp [h, SoundSource.StopLockless]
  refine ⟨hp, ?_, ?_, f3, fun env dest samples mixRate stereo ip =>
    Mix_of_null_position _ hp env dest samples mixRate stereo ip⟩
  · unfold SoundSource.IsPlaying
    rw [hp]
    simp
  · apply f4
    by_cases h : v.position_ = 0
    · simpa [h] using hinv
    · simpa [h, SoundSource.StopLockless] using hinv

/-- Witness for C22: the streaming voice. -/
theorem Stop_releases_and_silences_witness :
    streamingVoice.Stop.position_ = 0 ∧ streamingVoice.Stop.IsPlaying = false ∧
    streamingVoice.Stop.decoder_ = none ∧ streamingVoice.Stop.decodeBuffer_ = none ∧
    ∀ (env : MixEnv) (dest : Nat → Int) (samples : Nat) (mixRate : Int) (stereo ip : Bool),
      streamingVoice.Stop.Mix env dest samples mixRate stereo ip
        = some (streamingVoice.Stop, dest) :=
  Stop_releases_and_silences streamingVoice rfl (fun _ => rfl)

/-- Counterexample to C23 as stated: `Play` of another sound that is
uncompressed and has no data releases the decoder and the decode buffer but
binds nothing: the voice is left with no sound and a null cursor. -/
theorem Play_other_without_data_binds_nothing :
    (Sound.new 9).objectId ≠ demoCompressed.objectId ∧
    (streamingVoice.Play (some (Sound.new 9))).decoder_ = none ∧
    (streamingVoice.Play (some (Sound.new 9))).sound_ = none ∧
    (streamingVoice.Play (some (Sound.new 9))).position_ = 0 := by
  refine ⟨by decide, ?_, ?_, ?_⟩ <;>
    simp [SoundSource.Play, SoundSource.PlayLockless, SoundSource.FreeDecoder, streamingVoice,
      demoVoice, Sound.new]

/-- C23, amended: for an attached voice whose current sound is the compressed
asset `S` and which holds a decoder, `Play(S)` rewinds that decoder to the
stream start and keeps the decoder's stream, the decode buffer, the sound
reference and the cursor.  `Play` of any other sound (or of null) releases the
decoder and the decode buffer; the other sound is then bound with the cursor at
its start, except that an uncompressed sound without data is not bound: the
voice is left with no sound and a null cursor. -/
theorem Play_same_compressed_rewinds (v : SoundSource) (cur S : Sound) (d : Decoder)
    (hat : v.audioAttached = true) (hcur : v.sound_ = some cur)
    (hid : cur.objectId = S.objectId) (hc : S.compressed_ = true)
    (hd : v.decoder_ = some d) :
    ((v.Play (some S)).decoder_ = some { d with readPos := 0 } ∧
      (v.Play (some S)).decodeBuffer_ = v.decodeBuffer_ ∧
      (v.Play (some S)).sound_ = v.sound_ ∧ (v.Play (some S)).position_ = v.position_) ∧
    ((v.Play none).decoder_ = none ∧ (v.Play none).decodeBuffer_ = none) ∧
    (∀ other : Sound, other.objectId ≠ cur.objectId →
      (v.Play (some other)).decoder_ = none ∧ (v.Play (some other)).decodeBuffer_ = none ∧
      ((other.compressed_ = false ∧ other.start = 0) →
        (v.Play (some other)).sound_ = none ∧ (v.Play (some other)).position_ = 0) ∧
      (¬ (other.compressed_ = false ∧ other.start = 0) →
        (v.Play (some other)).sound_ = some other ∧
        (v.Play (some other)).position_ = other.start)) := by
  refine ⟨?_, ?_, ?_⟩
  · unfold SoundSource.Play SoundSource.PlayLockless
    simp only [hat]
    by_cases hf : v.frequency_ = 0
    · simp [hf, hc, hcur, hid, hd, SoundSource.SetFrequency, Sound.RewindDecoder,
        Decoder.seekStart]
    · simp [hf, hc, hcur, hid, hd, Sound.RewindDecoder, Decoder.seekStart]
  · simp [SoundSource.Play, SoundSource.PlayLockless, SoundSource.FreeDecoder, hat, hcur, hd]
  · intro other hne
    have hne2 : ¬ cur.objectId = other.objectId := fun h => hne h.symm
    unfold SoundSource.Play SoundSource.PlayLockless SoundSource.FreeDecoder
    simp only [hat]
    by_cases hf : v.frequency_ = 0 <;> by_cases hoc : other.compressed_ = false <;>
      by_cases hos : other.start = 0 <;>
      simp [hf, hoc, hos, hcur, hd, hne2, SoundSource.SetFrequency]

/-- Witness for C23, amended: the streaming voice and its compressed asset. -/
theorem Play_same_compressed_rewinds_witness :
    ((streamingVoice.Play (some demoCompressed)).decoder_
        = some { (⟨[1, 0, 2, 0, 3, 0, 4, 0], 4⟩ : Decoder) with readPos := 0 } ∧
      (streamingVoice.Play (some demoCompressed)).decodeBuffer_ = streamingVoice.decodeBuffer_ ∧
      (streamingVoice.Play (some demoCompressed)).sound_ = streamingVoice.sound_ ∧
      (streamingVoice.Play (some demoCompressed)).position_ = streamingVoice.position_) ∧
    ((streamingVoice.Play none).decoder_ = none ∧
      (streamingVoice.Play none).decodeBuffer_ = none) ∧
    (∀ other : Sound, other.objectId ≠ demoCompressed.objectId →
      (streamingVoice.Play (some other)).decoder_ = none ∧
      (streamingVoice.Play (some other)).decodeBuffer_ = none ∧
      ((other.compressed_ = false ∧ other.start = 0) →
        (streamingVoice.Play (some other)).sound_ = none ∧
        (streamingVoice.Play (some other)).position_ = 0) ∧
      (¬ (other.compressed_ = false ∧ other.start = 0) →
        (streamingVoice.Play (some other)).sound_ = some other ∧
        (streamingVoice.Play (some other)).position_ = other.start)) :=
  Play_same_compressed_rewinds streamingVoice demoCompressed demoCompressed
    ⟨[1, 0, 2, 0, 3, 0, 4, 0], 4⟩ rfl rfl rfl rfl rfl

/-- C1, failing input: the sample voice (8-bit mono one-shot, unit gain,
frequency equal to the mix rate) mixed for `samples = 2`.  `Mix` adds the
contribution of the first source sample to `dest[0]` only and advances the
cursor by one frame; `dest[1]` stays untouched.  With `samples = 1` nothing is
mixed and the cursor does not move. -/
theorem Mix_skips_last_frame :
    (demoVoice.Mix demoEnv (fun _ => 0) 2 44100 false false).map
        (fun r => (r.1.position_, r.1.fractPosition_, r.2 0, r.2 1))
      = some (1001, 0, 2560, 0) ∧
    (demoVoice.Mix demoEnv (fun _ => 0) 1 44100 false false).map
        (fun r => (r.1.position_, r.1.fractPosition_, r.2 0, r.2 1))
      = some (1000, 0, 0, 0) := by
  constructor
  · rw [Mix_uncompressed demoVoice demoSound demoEnv _ _ _ _ _ rfl rfl (by decide) rfl]
    simp only [SoundSource.mixRoutine, demoSound, Bool.not_false, if_true, Bool.false_eq_true,
      if_false]
    rw [MixMonoToMono_synth _ _ _ _ _ _ 256 1 0 demo_volume (by decide) demo_intAdd
      demo_fractAdd]
    rfl
  · rw [Mix_uncompressed demoVoice demoSound demoEnv _ _ _ _ _ rfl rfl (by decide) rfl]
    simp only [SoundSource.mixRoutine, demoSound, Bool.not_false, if_true, Bool.false_eq_true,
      if_false]
    rw [MixMonoToMono_synth _ _ _ _ _ _ 256 1 0 demo_volume (by decide) demo_intAdd
      demo_fractAdd]
    rfl

/-- C4, failing input: the looped sample sound (repeat offset 0, end offset 4
frames), frequency equal to the mix rate, cursor at the start, `samples = 4`.
At unit gain `Mix` leaves the cursor at frame 3; at gain 0 (`MixZeroVolume`) it
leaves the cursor at the end offset, frame 4.  Neither is the repeat offset. -/
theorem looped_full_pass_misses_repeat :
    (loopVoice.Mix demoEnv (fun _ => 0) 4 44100 false false).map
        (fun r => (r.1.position_, r.1.fractPosition_)) = some (1003, 0) ∧
    (mutedLoopVoice.Mix demoEnv (fun _ => 0) 4 44100 false false).map
        (fun r => (r.1.position_, r.1.fractPosition_)) = some (1004, 0) ∧
    demoLooped.repeat_ = 1000 ∧ demoLooped.end_ = 1004 := by
  refine ⟨?_, ?_, rfl, rfl⟩
  · rw [Mix_uncompressed loopVoice demoLooped demoEnv _ _ _ _ _ rfl rfl (by decide) rfl]
    simp only [SoundSource.mixRoutine, demoLooped, demoSound, Bool.not_false, if_true,
      Bool.false_eq_true, if_false]
    rw [MixMonoToMono_synth loopVoice _ _ _ _ _ 256 1 0 demo_volume (by decide) demo_intAdd
      demo_fractAdd]
    rfl
  · rw [Mix_uncompressed mutedLoopVoice demoLooped demoEnv _ _ _ _ _ rfl rfl (by decide) rfl,
      mixRoutine_zero _ _ _ _ _ _ _ _ (muted_zeroVolume demoLooped rfl).2,
      MixZeroVolume_eq mutedLoopVoice _ _ _ 4 0 muted_step.1 muted_step.2]
    rfl

/-- C6, failing input: the muted sample voice, frequency equal to the mix rate,
cursor at the start of the four-frame sample sound, `samples = 4`.  The
advanced cursor equals the end offset; `MixZeroVolume` neither stops the
one-shot voice (it is still playing) nor wraps the looped one. -/
theorem zero_volume_leaves_cursor_at_end :
    (mutedVoice.Mix demoEnv (fun _ => 0) 4 44100 false false).map
        (fun r => (r.1.position_, r.1.IsPlaying)) = some (1004, true) ∧
    (mutedLoopVoice.Mix demoEnv (fun _ => 0) 4 44100 false false).map
        (fun r => (r.1.position_, r.1.IsPlaying)) = some (1004, true) ∧
    demoSound.end_ = 1004 ∧ demoLooped.end_ = 1004 := by
  refine ⟨?_, ?_, rfl, rfl⟩
  · rw [Mix_uncompressed mutedVoice demoSound demoEnv _ _ _ _ _ rfl rfl (by decide) rfl,
      mixRoutine_zero _ _ _ _ _ _ _ _ (muted_zeroVolume demoSound rfl).1,
      MixZeroVolume_eq _ _ _ _ 4 0 muted_step.1 muted_step.2]
    rfl
  · rw [Mix_uncompressed mutedLoopVoice demoLooped demoEnv _ _ _ _ _ rfl rfl (by decide) rfl,
      mixRoutine_zero _ _ _ _ _ _ _ _ (muted_zeroVolume demoLooped rfl).2,
      MixZeroVolume_eq mutedLoopVoice _ _ _ 4 0 muted_step.1 muted_step.2]
    rfl

/-- C5, failing input: the sample voice with gain 0 (total gain 0) and panning
-1, mixed to stereo output for `samples = 2`.  `MixMonoToStereo` computes the
left volume 1, does not take the zero-volume path and adds the source sample
10 to `dest[0]`. -/
theorem zero_gain_full_pan_is_audible :
    demoEnv.masterGain * mutedLeftVoice.attenuation_ * mutedLeftVoice.gain_ = 0 ∧
    (mutedLeftVoice.Mix demoEnv (fun _ => 0) 2 44100 true false).map
        (fun r => (r.1.position_, r.2 0, r.2 1)) = some (1001, 10, 0) := by
  refine ⟨mutedLeft_volumes.2.2, ?_⟩
  rw [Mix_uncompressed mutedLeftVoice demoSound demoEnv _ _ _ _ _ rfl rfl (by decide) rfl]
  simp only [SoundSource.mixRoutine, demoSound, Bool.not_false, if_true, Bool.false_eq_true,
    if_false]
  rw [MixMonoToStereo_synth _ _ _ _ _ _ 1 0 1 0 mutedLeft_volumes.1 mutedLeft_volumes.2.1
    (by decide) demo_intAdd demo_fractAdd]
  rfl

/-- C20, failing input: after `SetLoop(2, 2)` the loop range is
empty (`repeat = end`), and `Mix` with `samples = 4` does not terminate: the
wrap loop subtracts `end - repeat = 0` for ever. -/
theorem empty_loop_never_terminates :
    emptyLoopVoice.Mix demoEnv (fun _ => 0) 4 44100 false false = none ∧
    (demoSound.SetLoop 2 2).repeat_ = (demoSound.SetLoop 2 2).end_ := by
  refine ⟨?_, rfl⟩
  rw [Mix_uncompressed emptyLoopVoice (demoSound.SetLoop 2 2) demoEnv _ _ _ _ _ rfl rfl
    (by decide) rfl]
  simp only [SoundSource.mixRoutine, show (demoSound.SetLoop 2 2).stereo_ = false from rfl,
    Bool.not_false, if_true, Bool.false_eq_true, if_false]
  rw [MixMonoToMono_synth emptyLoopVoice _ _ _ _ _ 256 1 0 demo_volume (by decide) demo_intAdd
    demo_fractAdd]
  rfl

/-- With a loop range that is not empty (`repeat < end`), `Mix` on an
uncompressed looped sound terminates for every voice state, every `samples`
and every routine: each run of the wrap loop ends. -/
theorem looped_Mix_terminates (v : SoundSource) (snd : Sound) (env : MixEnv)
    (dest : Nat → Int) (samples : Nat) (mixRate : Int) (stereo ip : Bool)
    (hs : v.sound_ = some snd) (hc : snd.compressed_ = false) (hl : snd.looped_ = true)
    (hre : snd.repeat_ < snd.end_) :
    ∃ w d, v.Mix env dest samples mixRate stereo ip = some (w, d) := by
  by_cases hp : v.position_ = 0
  · exact ⟨v, dest, Mix_of_null_position v hp env dest samples mixRate stereo ip⟩
  · by_cases he : v.enabledEffective = true
    · rw [Mix_uncompressed v snd env dest samples mixRate stereo ip hs hc hp he]
      by_cases hz : v.zeroVolume env.masterGain snd stereo
      · rw [mixRoutine_zero _ _ _ _ _ _ _ _ hz]
        obtain ⟨w, hw⟩ := MixZeroVolume_terminates v snd samples mixRate hre
        rw [hw]
        exact ⟨_, _, rfl⟩
      · obtain ⟨f16, f8, hr⟩ := mixRoutine_synth v env.masterGain snd samples mixRate stereo ip hz
        rw [hr dest, mixLoops_looped _ _ _ _ _ _ _ hl]
        obtain ⟨st2, h2⟩ := whileLooped_terminates (if snd.sixteenBit_ then emit f16 else emit f8)
          snd.GetSampleSize (v.intAdd mixRate) (v.fractAdd mixRate) snd.end_ snd.repeat_ hre
          (preDecCount samples) ⟨dest, 0, v.position_, v.fractPosition_⟩
        rw [h2]
        exact ⟨_, _, rfl⟩
    · refine ⟨v, dest, ?_⟩
      unfold SoundSource.Mix
      simp [hs, he]

/-- The looped sample voice has a loop range that is not empty, so its `Mix`
terminates. -/
theorem looped_Mix_terminates_witness :
    ∃ w d, loopVoice.Mix demoEnv (fun _ => 0) 100 44100 true true = some (w, d) :=
  looped_Mix_terminates loopVoice demoLooped demoEnv (fun _ => 0) 100 44100 true true rfl rfl rfl
    (by decide)

/-- C19, failing input: the sample voice (gain 1, frequency equal to the mix
rate) with `a = b = 1`.  One `Mix` call with `a + b = 2` frames adds 2560 to
`dest[0]` and leaves the cursor one frame on; a call with 1 frame followed by a
call with 1 frame on `dest` shifted by one frame adds nothing and leaves the
cursor where it was. -/
theorem Mix_split_differs :
    (demoVoice.Mix demoEnv (fun _ => 0) 2 44100 false false).map
        (fun r => (r.1.position_, r.1.fractPosition_, r.2 0)) = some (1001, 0, 2560) ∧
    ((demoVoice.Mix demoEnv (fun _ => 0) 1 44100 false false).bind fun r =>
        (r.1.Mix demoEnv (fun i => r.2 (i + 1)) 1 44100 false false).map
          fun q => (q.1.position_, q.1.fractPosition_, r.2 0)) = some (1000, 0, 0) := by
  constructor
  · rw [Mix_uncompressed demoVoice demoSound demoEnv _ _ _ _ _ rfl rfl (by decide) rfl]
    simp only [SoundSource.mixRoutine, demoSound, Bool.not_false, if_true, Bool.false_eq_true,
      if_false]
    rw [MixMonoToMono_synth demoVoice _ _ _ _ _ 256 1 0 demo_volume (by decide) demo_intAdd
      demo_fractAdd]
    rfl
  · rw [Mix_one_frame demoVoice demoSound demoEnv _ _ _ _ rfl rfl (by decide) rfl
      (demo_not_zeroVolume false), Option.some_bind,
      Mix_one_frame (demoVoice.mixTime demoSound 1 44100) demoSound demoEnv _ _ _ _
        (mixTime_sound _ _ _ _).1 rfl (by rw [mixTime_position]; decide)
        (mixTime_sound _ _ _ _).2
        (fun h => demo_not_zeroVolume false ((zeroVolume_mixTime _ _ _ _ _ _ _).1 h))]
    simp only [Option.map_some', mixTime_position, mixTime_fractPosition]
    rfl

/-- C9: `Mix` is additive in `dest`.  For every voice state, every environment,
every routine and every accumulation buffer `d` of `int` cells, `Mix` applied
to `d` terminates exactly when `Mix` applied to the all-zero buffer does, leaves
the same voice state, and its buffer is, cell by cell, `d` plus the buffer that
the all-zero run leaves, in 32-bit wrap-around arithmetic. -/
theorem Mix_is_additive (v : SoundSource) (env : MixEnv) (d : Nat → Int) (samples : Nat)
    (mixRate : Int) (stereo ip : Bool) (hd : ∀ i, InInt32 (d i)) :
    v.Mix env d samples mixRate stereo ip =
      (v.Mix env (fun _ => 0) samples mixRate stereo ip).map
        fun r => (r.1, fun i => wrap32 (d i + r.2 i)) := by
  have h := Mix_agree (fun i a b => a = wrap32 (d i + b))
    (fun i x a b hab => by
      show wrap32 (a + x) = wrap32 (d i + wrap32 (b + x))
      rw [hab, wrap32_add_left, wrap32_add_right, add_assoc])
    v env d (fun _ => 0) samples mixRate stereo ip
    (fun i => by
      show d i = wrap32 (d i + 0)
      rw [add_zero, wrap32_of_range (hd i)])
  cases hA : v.Mix env d samples mixRate stereo ip with
  | none =>
    cases hB : v.Mix env (fun _ => 0) samples mixRate stereo ip with
    | none => rfl
    | some r0 => rw [hA, hB] at h; exact h.elim
  | some r =>
    cases hB : v.Mix env (fun _ => 0) samples mixRate stereo ip with
    | none => rw [hA, hB] at h; exact h.elim
    | some r0 =>
      rw [hA, hB] at h
      obtain ⟨h1, h2⟩ := h
      rw [Option.map_some']
      exact congrArg some (Prod.ext h1 (funext h2))

/-- Witness for C9: the sample voice mixing two frames into a buffer that
holds 5 in every cell. -/
theorem Mix_is_additive_witness :
    demoVoice.Mix demoEnv (fun _ => 5) 2 44100 false false =
      (demoVoice.Mix demoEnv (fun _ => 0) 2 44100 false false).map
        fun r => (r.1, fun i => wrap32 ((fun _ => 5) i + r.2 i)) :=
  Mix_is_additive demoVoice demoEnv (fun _ => 5) 2 44100 false false
    (fun _ => show InInt32 5 from ⟨by decide, by decide⟩)

/-- C11: when the engine is not playing (`playing_` false, or no clip buffer),
`MixOutput(dest, samples)` returns, zeroes the `samples * sampleSize_` bytes at
`dest` (the product as the code computes it, in `unsigned`), leaves every other
byte of the output stream as it was, and leaves the engine with all its voices
(their cursors included) unchanged. -/
theorem MixOutput_stopped_is_silence (a : Audio) (env : Nat → MixEnv) (out : Nat → Int)
    (samples : Nat) (h : a.playing_ = false ∨ a.clipBuffer_ = none) :
    ∃ out2, a.MixOutput env out samples = some (a, out2) ∧
      (∀ i, i < samples * a.sampleSize_ % 4294967296 → out2 i = 0) ∧
      (∀ i, samples * a.sampleSize_ % 4294967296 ≤ i → out2 i = out i) := by
  refine ⟨fun i => if i < samples * a.sampleSize_ % 4294967296 then 0 else out i, ?_, ?_, ?_⟩
  · unfold Audio.MixOutput
    cases hc : a.clipBuffer_ with
    | none => rfl
    | some clip =>
      rcases h with h | h
      · simp only [h, if_true]
      · rw [hc] at h
        exact absurd h (by simp)
  · intro i hi
    simp only [hi, if_true]
  · intro i hi
    simp only [Nat.not_lt.mpr hi, if_false]

/-- Witness for C11: a stopped engine with the sample voice registered, asked
for three samples. -/
theorem MixOutput_stopped_is_silence_witness :
    ∃ out2, stoppedAudio.MixOutput (fun _ => demoEnv) (fun _ => 9) 3 = some (stoppedAudio, out2) ∧
      (∀ i, i < 3 * stoppedAudio.sampleSize_ % 4294967296 → out2 i = 0) ∧
      (∀ i, 3 * stoppedAudio.sampleSize_ % 4294967296 ≤ i → out2 i = (fun _ => 9) i) :=
  MixOutput_stopped_is_silence stoppedAudio (fun _ => demoEnv) (fun _ => 9) 3 (Or.inl rfl)

/-- One pass of the loop of `MixOutput`: each 16-bit output sample that the
pass wrote is the accumulated clip-buffer value
saturated to the 16-bit range, `min(max(a, -32768), 32767)`, so it lies in
`[-32768, 32767]` and equals `a` whenever `a` is in range; bytes of the output
stream before the fragment are left as they were. -/
theorem fragment_output_saturates (a : Audio) (env : Nat → MixEnv) (clip out : Nat → Int)
    (destOff samples : Nat) (f : Audio.Fragment)
    (h : a.mixFragment env clip out destOff samples = some f) :
    (∀ j, j < f.clipSamples →
      loadShort f.out (destOff + 2 * j) = min (max (f.mixed j) (-32768)) 32767) ∧
    (∀ k, k < destOff → f.out k = out k) := by
  obtain ⟨ho, -, -, -⟩ := mixFragment_some a env clip out destOff samples f h
  constructor
  · intro j hj
    rw [← Clamp_eq_min_max _ _ _ (by decide), ho]
    have hb := copyClamped_bytes f.mixed destOff f.clipSamples 0 out j (Nat.zero_le _) (by omega)
    have hc := @Clamp_range (f.mixed j) (-32768) 32767 (by decide)
    exact loadShort_bytes _ _ _ hc hb.1 hb.2
  · intro k hk
    rw [ho, copyClamped_below _ _ _ _ _ _ (by omega)]

/-- The playing engine renders a fragment of two samples from the sample
voice. -/
theorem fragment_output_saturates_witness :
    ∃ f, playingAudio.mixFragment (fun _ => demoEnv) (fun _ => 7) (fun _ => 9) 0 2 = some f ∧
      (∀ j, j < f.clipSamples →
        loadShort f.out (0 + 2 * j) = min (max (f.mixed j) (-32768)) 32767) ∧
      (∀ k, k < 0 → f.out k = (fun _ => 9) k) := by
  obtain ⟨r, hr⟩ := uncompressed_Mix_terminates demoVoice demoSound demoEnv
    (fun i => if i < 2 then 0 else 7) 2 44100 false false rfl rfl rfl
  have hf : playingAudio.mixFragment (fun _ => demoEnv) (fun _ => 7) (fun _ => 9) 0 2 =
      some ⟨2, 2, r.2, [r.1], Audio.copyClamped r.2 0 2 0 (fun _ => 9)⟩ := by
    show Option.map _ (Audio.mixSources (fun _ => demoEnv) 2 44100 false false [demoVoice] 0
      (fun i => if i < 2 then 0 else 7)) = _
    unfold Audio.mixSources
    rw [hr]
    rfl
  exact ⟨_, hf, fragment_output_saturates _ _ _ _ _ _ _ hf⟩

/-- C30: a render pass does not depend on what the clip buffer held before it.
For any two initial clip-buffer contents and the same engine and voices,
`MixOutput` terminates for both or for neither, and produces the same output
stream and the same engine and voice states (the clip buffer itself apart).
When moreover the engine is playing, no voice is playing and the engine is
well formed (`fragmentSize_` positive, `sampleSize_` the size of one 16-bit
mono or stereo frame, `samples` a value of `int`), `MixOutput` returns and all
`sampleSize_ * samples` bytes of output are zero. -/
theorem MixOutput_ignores_clip_contents (a : Audio) (env : Nat → MixEnv) (out : Nat → Int)
    (samples : Nat) (clip1 clip2 : Nat → Int) :
    (Audio.MixOutput { a with clipBuffer_ := some clip1 } env out samples).map
        (fun r => (({ r.1 with clipBuffer_ := none } : Audio), r.2)) =
      (Audio.MixOutput { a with clipBuffer_ := some clip2 } env out samples).map
        (fun r => (({ r.1 with clipBuffer_ := none } : Audio), r.2)) ∧
    (a.playing_ = true → 0 < a.fragmentSize_ → samples < 2147483648 →
      a.sampleSize_ = (if a.stereo_ then 4 else 2) →
      (∀ v ∈ a.soundSources_, v.IsPlaying = false) →
      ∃ r, Audio.MixOutput { a with clipBuffer_ := some clip1 } env out samples = some r ∧
        ∀ i, i < a.sampleSize_ * samples → r.2 i = 0) := by
  constructor
  · unfold Audio.MixOutput
    simp only
    by_cases hp : a.playing_ = false
    · rw [if_pos hp, if_pos hp]
      rfl
    · rw [if_neg hp, if_neg hp]
      exact mixOutputLoop_clip_free env _ a _ _ _ _ _ _ _
  · intro hp hfrag hs hsz hidle
    unfold Audio.MixOutput
    simp only
    rw [if_neg (by rw [hp]; decide)]
    obtain ⟨r, hr, hz, -⟩ := mixOutputLoop_idle env (samples + 1)
      { a with clipBuffer_ := some clip1 } clip1 out 0 samples (by omega) hfrag hs hsz hidle
      (fun i hi => absurd hi (Nat.not_lt_zero i))
    refine ⟨r, hr, ?_⟩
    intro i hi
    exact hz i (by
      show i < 0 + a.sampleSize_ * samples
      omega)

/-- Witness for C30: the playing engine whose only voice has stopped renders
three samples of silence. -/
theorem MixOutput_ignores_clip_contents_witness :
    ∃ r, Audio.MixOutput { idleAudio with clipBuffer_ := some (fun _ => 7) } (fun _ => demoEnv)
        (fun _ => 9) 3 = some r ∧
      ∀ i, i < idleAudio.sampleSize_ * 3 → r.2 i = 0 :=
  (MixOutput_ignores_clip_contents idleAudio (fun _ => demoEnv) (fun _ => 9) 3 (fun _ => 7)
    (fun _ => 8)).2 rfl (by decide) (by decide) rfl
    (fun v hv => by
      rw [List.mem_singleton.mp hv]
      rfl)

/-- C34: the fractional cursor stays a 16-bit quantity.  If `fractPosition_` is
in `[0, 65535]` before a `Mix` call that returns, it is in `[0, 65535]` after
it: for every frequency (those in `[0, 535232]` among them), every mix rate,
every routine and the zero-volume path, compressed or uncompressed sound. -/
theorem fractPosition_stays_16bit (v w : SoundSource) (env : MixEnv) (dest d : Nat → Int)
    (samples : Nat) (mixRate : Int) (stereo ip : Bool)
    (hf : 0 ≤ v.fractPosition_ ∧ v.fractPosition_ ≤ 65535)
    (h : v.Mix env dest samples mixRate stereo ip = some (w, d)) :
    0 ≤ w.fractPosition_ ∧ w.fractPosition_ ≤ 65535 := by
  unfold SoundSource.Mix at h
  cases hs : v.sound_ with
  | none =>
    rw [hs] at h
    rw [← (Prod.mk.inj (Option.some.inj h)).1]
    exact hf
  | some snd =>
    rw [hs] at h
    simp only at h
    by_cases hpe : v.position_ = 0 ∨ v.enabledEffective = false
    · rw [if_pos hpe] at h
      rw [← (Prod.mk.inj (Option.some.inj h)).1]
      exact hf
    · rw [if_neg hpe] at h
      cases hd : v.mixDecode env snd with
      | none => rw [hd] at h; exact absurd h (by simp)
      | some v1 =>
        rw [hd] at h
        simp only at h
        have hf1 := mixDecode_fract v v1 env snd hf hd
        generalize (if snd.compressed_ = true then v1.decodeBuffer_ else some snd) = ob at h
        cases ob with
        | none =>
          rw [← (Prod.mk.inj (Option.some.inj h)).1]
          exact hf1
        | some sound =>
          simp only at h
          obtain ⟨r, hr, hr2⟩ := Option.map_eq_some'.mp h
          rw [← (Prod.mk.inj hr2).1, mixTime_fractPosition]
          exact mixRoutine_fract v1 env.masterGain sound dest samples mixRate stereo ip r hf1 hr

/-- Witness for C34: the sample voice at one and a half times the mix rate
(`fractAdd = 32768`) with fractional cursor 40000 makes one step, which carries:
the cursor moves two frames and the fractional cursor becomes
`72768 - 65536 = 7232`. -/
theorem fractPosition_stays_16bit_witness :
    ∃ w d, fastVoice.Mix demoEnv (fun _ => 0) 2 44100 false false = some (w, d) ∧
      w.position_ = 1002 ∧ w.fractPosition_ = 7232 ∧
      0 ≤ w.fractPosition_ ∧ w.fractPosition_ ≤ 65535 := by
  have hfl : ⌊(66150 : ℚ) / ((44100 : Int) : ℚ)⌋ = 1 := by
    rw [Int.floor_eq_iff]
    norm_num
  have hia : fastVoice.intAdd 44100 = 1 := by
    simp only [SoundSource.intAdd, fastVoice, truncQ]
    rw [if_pos (by norm_num), hfl]
  have hfa : fastVoice.fractAdd 44100 = 32768 := by
    simp only [SoundSource.fractAdd, fastVoice, truncQ, hfl]
    norm_num [Int.floor_eq_iff]
  have hev : (fastVoice.Mix demoEnv (fun _ => 0) 2 44100 false false).map
      (fun r => (r.1.position_, r.1.fractPosition_)) = some (1002, 7232) := by
    rw [Mix_uncompressed fastVoice demoSound demoEnv _ _ _ _ _ rfl rfl (by decide) rfl]
    simp only [SoundSource.mixRoutine, demoSound, Bool.not_false, if_true, Bool.false_eq_true,
      if_false]
    rw [MixMonoToMono_synth fastVoice _ _ _ _ _ 256 1 32768 demo_volume (by decide) hia hfa]
    rfl
  cases hM : fastVoice.Mix demoEnv (fun _ => 0) 2 44100 false false with
  | none =>
    rw [hM] at hev
    exact absurd hev (by simp)
  | some r =>
    rw [hM] at hev
    have hp : r.1.position_ = 1002 ∧ r.1.fractPosition_ = 7232 :=
      Prod.mk.inj (Option.some.inj hev)
    exact ⟨r.1, r.2, rfl, hp.1, hp.2,
      fractPosition_stays_16bit fastVoice r.1 demoEnv (fun _ => 0) r.2 2 44100 false false
        ⟨by decide, by decide⟩ hM⟩

/-- C7: for a voice whose fractional cursor is 0 on entry and whose frequency
is an integer multiple of the mix rate, each interpolated routine
(`MixMonoToMonoIP`, `MixMonoToStereoIP`, `MixStereoToMonoIP`,
`MixStereoToStereoIP`) gives exactly the result of its nearest-sample
counterpart (same `dest`, same final cursor, same termination), for 8-bit and
16-bit sources, looped and one-shot, every volume and every `samples`. -/
theorem interpolation_is_exact_at_integer_ratio (v : SoundSource) (g : ℚ) (sound : Sound)
    (dest : Nat → Int) (samples : Nat) (mixRate k : Int) (hfp : v.fractPosition_ = 0)
    (hm : mixRate ≠ 0) (hk : v.frequency_ = k * mixRate) :
    v.MixMonoToMonoIP g sound dest samples mixRate =
        v.MixMonoToMono g sound dest samples mixRate ∧
    v.MixMonoToStereoIP g sound dest samples mixRate =
        v.MixMonoToStereo g sound dest samples mixRate ∧
    v.MixStereoToMonoIP g sound dest samples mixRate =
        v.MixStereoToMono g sound dest samples mixRate ∧
    v.MixStereoToStereoIP g sound dest samples mixRate =
        v.MixStereoToStereo g sound dest samples mixRate :=
  ⟨MixMonoToMonoIP_eq v g sound dest samples mixRate hfp (fractAdd_of_multiple v mixRate k hm hk),
    MixMonoToStereoIP_eq v g sound dest samples mixRate hfp
      (fractAdd_of_multiple v mixRate k hm hk),
    MixStereoToMonoIP_eq v g sound dest samples mixRate hfp
      (fractAdd_of_multiple v mixRate k hm hk),
    MixStereoToStereoIP_eq v g sound dest samples mixRate hfp
      (fractAdd_of_multiple v mixRate k hm hk)⟩

/-- Witness for C7: the sample voice plays at the mix rate (ratio 1) with
fractional cursor 0. -/
theorem interpolation_is_exact_at_integer_ratio_witness :
    demoVoice.MixMonoToMonoIP 1 demoSound (fun _ => 0) 3 44100 =
        demoVoice.MixMonoToMono 1 demoSound (fun _ => 0) 3 44100 ∧
    demoVoice.MixMonoToStereoIP 1 demoSound (fun _ => 0) 3 44100 =
        demoVoice.MixMonoToStereo 1 demoSound (fun _ => 0) 3 44100 ∧
    demoVoice.MixStereoToMonoIP 1 demoSound (fun _ => 0) 3 44100 =
        demoVoice.MixStereoToMono 1 demoSound (fun _ => 0) 3 44100 ∧
    demoVoice.MixStereoToStereoIP 1 demoSound (fun _ => 0) 3 44100 =
        demoVoice.MixStereoToStereo 1 demoSound (fun _ => 0) 3 44100 :=
  interpolation_is_exact_at_integer_ratio demoVoice 1 demoSound (fun _ => 0) 3 44100 1 rfl
    (by decide) (by norm_num [demoVoice])

/-- C10: `MixOutput` on a playing engine (clip buffer allocated, `sampleSize_`
the size of one 16-bit mono or stereo frame, `fragmentSize_` positive, `samples`
a value of `int`).  Every one of the `samples * channels` 16-bit samples of the
output stream equals the 32-bit clip-buffer value `a` that its fragment
accumulated for it, saturated to the 16-bit range: `min(max(a, -32768), 32767)`.
The accumulated values are those that the loop of `MixOutput`, run with a ghost
record, notes at each store. -/
theorem MixOutput_saturates (a a2 : Audio) (env : Nat → MixEnv) (clip out out2 : Nat → Int)
    (samples : Nat) (hp : a.playing_ = true) (hc : a.clipBuffer_ = some clip)
    (hsz : a.sampleSize_ = (if a.stereo_ then 4 else 2)) (hfrag : 0 < a.fragmentSize_)
    (hs : samples < 2147483648) (h : a.MixOutput env out samples = some (a2, out2)) :
    ∃ acc, Audio.mixOutputTrace env (samples + 1) a clip out (fun _ => 0) 0 samples
        = some (a2, out2, acc) ∧
      ∀ s, s < samples * (if a.stereo_ then 2 else 1) →
        loadShort out2 (2 * s) = min (max (acc (2 * s)) (-32768)) 32767 := by
  unfold Audio.MixOutput at h
  rw [hc] at h
  simp only at h
  rw [if_neg (by rw [hp]; decide)] at h
  have hf := mixOutputTrace_forget env (samples + 1) a clip out (fun _ => 0) 0 samples
  rw [h] at hf
  obtain ⟨r, hr, hr2⟩ := Option.map_eq_some'.mp hf
  obtain ⟨e1, e2⟩ := Prod.mk.inj hr2
  refine ⟨r.2.2, ?_, ?_⟩
  · rw [hr, ← e1, ← e2]
  · intro s hs2
    rw [← Clamp_eq_min_max _ _ _ (by decide), ← e2]
    apply mixOutputTrace_saturates env (samples + 1) a clip out (fun _ => 0) 0 samples r hsz
      hfrag hs rfl (fun o ho _ => absurd ho (Nat.not_lt_zero o)) hr (2 * s) _ (by omega)
    rw [hsz]
    split_ifs at hs2 ⊢ <;> omega

/-- Witness for C10: the playing engine with the loud voice (volume factor 5120)
renders two samples.  The clip buffer accumulates `10 * 5120 = 51200` for the
first sample, and the output sample is 32767. -/
theorem MixOutput_saturates_witness :
    ∃ a2 out2 acc, loudAudio.MixOutput (fun _ => demoEnv) (fun _ => 9) 2 = some (a2, out2) ∧
      Audio.mixOutputTrace (fun _ => demoEnv) (2 + 1) loudAudio (fun _ => 7) (fun _ => 9)
        (fun _ => 0) 0 2 = some (a2, out2, acc) ∧
      acc 0 = 51200 ∧ loadShort out2 0 = 32767 ∧
      ∀ s, s < 2 * (if loudAudio.stereo_ then 2 else 1) →
        loadShort out2 (2 * s) = min (max (acc (2 * s)) (-32768)) 32767 := by
  have hev : (loudVoice.Mix demoEnv (fun i => if i < 2 then 0 else 7) 2 44100 false false).map
      (fun r => r.2 0) = some 51200 := by
    rw [Mix_uncompressed loudVoice demoSound demoEnv _ _ _ _ _ rfl rfl (by decide) rfl]
    simp only [SoundSource.mixRoutine, demoSound, Bool.not_false, if_true, Bool.false_eq_true,
      if_false]
    rw [MixMonoToMono_synth loudVoice _ _ _ _ _ 5120 1 0 loud_volume (by decide) demo_intAdd
      demo_fractAdd]
    rfl
  cases hM : loudVoice.Mix demoEnv (fun i => if i < 2 then 0 else 7) 2 44100 false false with
  | none =>
    rw [hM] at hev
    exact absurd hev (by simp)
  | some r =>
    rw [hM] at hev
    have hv : r.2 0 = 51200 := Option.some.inj hev
    have hf : loudAudio.mixFragment (fun _ => demoEnv) (fun _ => 7) (fun _ => 9) 0 2 =
        some ⟨2, 2, r.2, [r.1], Audio.copyClamped r.2 0 2 0 (fun _ => 9)⟩ := by
      show Option.map _ (Audio.mixSources (fun _ => demoEnv) 2 44100 false false [loudVoice] 0
        (fun i => if i < 2 then 0 else 7)) = _
      unfold Audio.mixSources
      rw [hM]
      rfl
    have hO : loudAudio.MixOutput (fun _ => demoEnv) (fun _ => 9) 2 =
        some ({ loudAudio with soundSources_ := [r.1], clipBuffer_ := some r.2 },
          Audio.copyClamped r.2 0 2 0 (fun _ => 9)) := by
      show Audio.mixOutputLoop (fun _ => demoEnv) 3 loudAudio (fun _ => 7) (fun _ => 9) 0 2 = _
      unfold Audio.mixOutputLoop
      rw [if_neg (by decide), hf]
      simp only
      unfold Audio.mixOutputLoop
      rw [if_pos (by decide)]
    obtain ⟨acc, hacc, hall⟩ := MixOutput_saturates loudAudio _ (fun _ => demoEnv) (fun _ => 7)
      (fun _ => 9) _ 2 rfl rfl rfl (by decide) (by decide) hO
    have hacc0 : acc 0 = 51200 := by
      have ht : Audio.mixOutputTrace (fun _ => demoEnv) (2 + 1) loudAudio (fun _ => 7)
          (fun _ => 9) (fun _ => 0) 0 2 =
          some ({ loudAudio with soundSources_ := [r.1], clipBuffer_ := some r.2 },
            Audio.copyClamped r.2 0 2 0 (fun _ => 9),
            fun o => if 0 ≤ o ∧ o < 0 + 2 * 2 ∧ (o - 0) % 2 = 0 then r.2 ((o - 0) / 2)
              else 0) := by
        unfold Audio.mixOutputTrace
        rw [if_neg (by decide), hf]
        simp only
        unfold Audio.mixOutputTrace
        rw [if_pos (by decide)]
      rw [ht] at hacc
      have := (Prod.mk.inj (Prod.mk.inj (Option.some.inj hacc)).2).2
      rw [← this]
      exact hv
    refine ⟨_, _, acc, hO, hacc, hacc0, ?_, hall⟩
    have h0 := hall 0 (by decide)
    rw [hacc0] at h0
    exact h0

/-- C26: with panning 0 the left and the right volume of `MixMonoToStereo` both
equal the volume of `MixMonoToMono`, and from the same voice state (and
all-zero accumulation buffers, so that a cell holds what was added to it)
`MixMonoToStereo` leaves in both cells of every frame the value that
`MixMonoToMono` leaves in the cell of that frame; the final voice state and
termination are the same. -/
theorem centre_pan_matches_mono (v : SoundSource) (g : ℚ) (sound : Sound) (samples : Nat)
    (mixRate : Int) (hp : v.panning_ = 0) :
    truncQ ((-v.panning_ + 1) * (256 * (g * v.attenuation_ * v.gain_) + 1 / 2)) =
        truncQ (256 * (g * v.attenuation_ * v.gain_) + 1 / 2) ∧
    truncQ ((v.panning_ + 1) * (256 * (g * v.attenuation_ * v.gain_) + 1 / 2)) =
        truncQ (256 * (g * v.attenuation_ * v.gain_) + 1 / 2) ∧
    v.MixMonoToStereo g sound (fun _ => 0) samples mixRate =
      (v.MixMonoToMono g sound (fun _ => 0) samples mixRate).map
        fun r => (r.1, fun j => r.2 (j / 2)) := by
  have hl : truncQ ((-v.panning_ + 1) * (256 * (g * v.attenuation_ * v.gain_) + 1 / 2)) =
      truncQ (256 * (g * v.attenuation_ * v.gain_) + 1 / 2) := by
    rw [hp, neg_zero, zero_add, one_mul]
  have hr : truncQ ((v.panning_ + 1) * (256 * (g * v.attenuation_ * v.gain_) + 1 / 2)) =
      truncQ (256 * (g * v.attenuation_ * v.gain_) + 1 / 2) := by
    rw [hp, zero_add, one_mul]
  refine ⟨hl, hr, ?_⟩
  unfold SoundSource.MixMonoToStereo SoundSource.MixMonoToMono
  simp only [hl, hr, and_self]
  by_cases hv : truncQ (256 * (g * v.attenuation_ * v.gain_) + 1 / 2) = 0
  · rw [if_pos hv, if_pos hv, Option.map_map]
    rfl
  · rw [if_neg hv, if_neg hv]
    have h := mixLoops_pairsWith sound (truncQ (v.frequency_ / mixRate))
      (truncQ ((v.frequency_ / mixRate - ⌊v.frequency_ / (mixRate : ℚ)⌋) * 65536))
      (fun p => Int.tdiv (wrap32 (sound.shortAt p *
        truncQ (256 * (g * v.attenuation_ * v.gain_) + 1 / 2))) 256)
      (fun p => wrap32 (sound.byteAt p * truncQ (256 * (g * v.attenuation_ * v.gain_) + 1 / 2)))
      (preDecCount samples) ⟨fun _ => 0, 0, v.position_, v.fractPosition_⟩
      ⟨fun _ => 0, 0, v.position_, v.fractPosition_⟩ ⟨rfl, rfl, rfl, fun _ => rfl⟩
    unfold SoundSource.finishMix
    revert h
    generalize mixLoops sound false _ _ _ _ (preDecCount samples)
      (⟨fun _ => 0, 0, v.position_, v.fractPosition_⟩ : MixRun) = x
    generalize mixLoops sound false _ _ _ _ (preDecCount samples)
      (⟨fun _ => 0, 0, v.position_, v.fractPosition_⟩ : MixRun) = y
    intro h
    cases x with
    | none =>
      cases y with
      | none => rfl
      | some b => exact h.elim
    | some a =>
      cases y with
      | none => exact h.elim
      | some b =>
        obtain ⟨h1, h2, -, h4⟩ := h
        simp only [Option.map_some']
        rw [h1, h2]
        exact congrArg some (Prod.ext rfl (funext h4))

/-- Witness for C26: the sample voice, whose panning is 0. -/
theorem centre_pan_matches_mono_witness :
    demoVoice.MixMonoToStereo 1 demoSound (fun _ => 0) 3 44100 =
      (demoVoice.MixMonoToMono 1 demoSound (fun _ => 0) 3 44100).map
        fun r => (r.1, fun j => r.2 (j / 2)) :=
  (centre_pan_matches_mono demoVoice 1 demoSound 3 44100 rfl).2.2

/-- C38: at unity total gain (volume factor 256) and frequency equal to the mix
rate, `MixMonoToMono` on a 16-bit mono source (memory holding `signed char`
values) is the loop whose body adds to `*dest` exactly the sample under the
cursor and whose cursor step is one frame with no fraction, looped or one-shot.
While the cursor does not reach the end during the call, frame `i` of `dest`
receives the source sample `i` frames after the cursor, and the cursor advances
one frame per frame mixed. -/
theorem unity_gain_adds_source_sample (v : SoundSource) (g : ℚ) (sound : Sound)
    (dest : Nat → Int) (samples : Nat) (mixRate : Int) (h16 : sound.sixteenBit_ = true)
    (hg : g * v.attenuation_ * v.gain_ = 1) (hm : mixRate ≠ 0)
    (hf : v.frequency_ = mixRate) (hbytes : ∀ i, -128 ≤ sound.mem i ∧ sound.mem i ≤ 127) :
    v.MixMonoToMono g sound dest samples mixRate =
      v.finishMix (mixLoops sound false 1 0 (fun st => st.add (sound.shortAt st.pos))
        (fun st => st.add (wrap32 (sound.byteAt st.pos * 256)))
        (preDecCount samples) ⟨dest, 0, v.position_, v.fractPosition_⟩) ∧
    (v.fractPosition_ ≤ 65535 →
      v.position_ + 2 * (preDecCount samples : Int) < sound.end_ →
      ∃ w d, v.MixMonoToMono g sound dest samples mixRate = some (w, d) ∧
        w.position_ = v.position_ + 2 * (preDecCount samples : Int) ∧
        w.fractPosition_ = v.fractPosition_ ∧
        ∀ i, d i = if i < preDecCount samples
          then wrap32 (dest i + sound.shortAt (v.position_ + 2 * (i : Int))) else dest i) := by
  have hmq : (mixRate : ℚ) ≠ 0 := Int.cast_ne_zero.mpr hm
  have hvol : truncQ (256 * (g * v.attenuation_ * v.gain_) + 1 / 2) = 256 := by
    rw [hg]
    norm_num [truncQ, Int.floor_eq_iff]
  have hia : v.intAdd mixRate = 1 := by
    unfold SoundSource.intAdd
    rw [hf, div_self hmq]
    norm_num [truncQ]
  have hfa : v.fractAdd mixRate = 0 :=
    fractAdd_of_multiple v mixRate 1 hm (by rw [hf]; simp)
  have hb : (fun st : MixRun => st.add (Int.tdiv (wrap32 (sound.shortAt st.pos * 256)) 256)) =
      fun st => st.add (sound.shortAt st.pos) :=
    funext fun st => by rw [unity_body _ (shortAt_range sound hbytes st.pos)]
  have hA : v.MixMonoToMono g sound dest samples mixRate =
      v.finishMix (mixLoops sound false 1 0 (fun st => st.add (sound.shortAt st.pos))
        (fun st => st.add (wrap32 (sound.byteAt st.pos * 256)))
        (preDecCount samples) ⟨dest, 0, v.position_, v.fractPosition_⟩) := by
    rw [MixMonoToMono_synth v g sound dest samples mixRate 256 1 0 hvol (by decide) hia hfa, hb]
  refine ⟨hA, ?_⟩
  intro hfp hend
  rw [hA]
  generalize preDecCount samples = m at hend ⊢
  have hst : frameStride sound false = 2 := by
    unfold frameStride
    rw [h16]
    rfl
  rw [mixLoops_nf, hst]
  simp only [h16, if_true]
  by_cases hl : sound.looped_ = true
  · rw [if_pos hl]
    obtain ⟨st2, h1, h2, h3, -, h5⟩ := whileLooped_straight (fun p => sound.shortAt p) 2
      sound.end_ sound.repeat_ (by decide) m ⟨dest, 0, v.position_, v.fractPosition_⟩ hfp hend
    rw [h1]
    refine ⟨_, _, rfl, h2, h3, ?_⟩
    intro i
    rw [h5 i]
    simp
  · rw [if_neg hl]
    obtain ⟨h2, h3, -, h5⟩ := whileOneshot_straight (fun p => sound.shortAt p) 2
      sound.end_ (by decide) m ⟨dest, 0, v.position_, v.fractPosition_⟩ hfp hend
    refine ⟨_, _, rfl, h2, h3, ?_⟩
    intro i
    rw [h5 i]
    simp

/-- Witness for C38: the 16-bit mono sound of two samples `300, -2`, played at
unity gain and at the mix rate for `samples = 2` into a buffer of 5s. -/
theorem unity_gain_adds_source_sample_witness :
    ∃ w d, pcmVoice.MixMonoToMono 1 pcmSound (fun _ => 5) 2 44100 = some (w, d) ∧
      w.position_ = pcmVoice.position_ + 2 * (preDecCount 2 : Int) ∧
      w.fractPosition_ = pcmVoice.fractPosition_ ∧
      ∀ i, d i = if i < preDecCount 2
        then wrap32 ((fun _ => 5) i + pcmSound.shortAt (pcmVoice.position_ + 2 * (i : Int)))
        else (fun _ => 5) i :=
  (unity_gain_adds_source_sample pcmVoice 1 pcmSound (fun _ => 5) 2 44100 rfl
    (by norm_num [pcmVoice, demoVoice]) (by decide) (by norm_num [pcmVoice, demoVoice])
    (fun i => by
      show -128 ≤ (if i = 0 then (44 : Int) else if i = 1 then 1 else if i = 2 then -2
        else if i = 3 then -1 else 0) ∧
        (if i = 0 then (44 : Int) else if i = 1 then 1 else if i = 2 then -2
        else if i = 3 then -1 else 0) ≤ 127
      split_ifs <;> omega)).2 (by decide) (by decide)

/-- C12, failing input: a 16-bit stereo one-shot sound of eight bytes, the
cursor set by `SetPlayPosition` to the end of the sound, and `Mix` with stereo
output and interpolation for `samples = 2`.  The cursor equals the end offset,
and the result of `Mix` depends on the byte at offset 14, beyond the
`dataSize_ + IP_SAFETY = 12` bytes of the array: two sounds that agree on every
offset below 12 give different values of `dest[1]`. -/
theorem interpolation_reads_past_guard :
    (edgeVoice wideSound).position_ = wideSound.end_ ∧
    wideSound.end_ - wideSound.start = wideSound.dataSize_ ∧
    (∀ i : Int, i < wideSound.dataSize_ + IP_SAFETY → wideSoundBeyond.mem i = wideSound.mem i) ∧
    ((edgeVoice wideSound).Mix demoEnv (fun _ => 0) 2 44100 true true).map (fun r => r.2 1)
      = some 0 ∧
    ((edgeVoice wideSoundBeyond).Mix demoEnv (fun _ => 0) 2 44100 true true).map
      (fun r => r.2 1) = some 50 := by
  have hvolA : truncQ (256 * (demoEnv.masterGain * (edgeVoice wideSound).attenuation_ *
      (edgeVoice wideSound).gain_) + 1 / 2) = 256 := demo_volume
  have hvolB : truncQ (256 * (demoEnv.masterGain * (edgeVoice wideSoundBeyond).attenuation_ *
      (edgeVoice wideSoundBeyond).gain_) + 1 / 2) = 256 := demo_volume
  refine ⟨rfl, rfl, ?_, ?_, ?_⟩
  · intro i hi
    have h12 : i < 12 := hi
    show (if i = 14 then (100 : Int) else 0) = 0
    rw [if_neg (by omega)]
  · rw [Mix_uncompressed (edgeVoice wideSound) wideSound demoEnv _ _ _ _ _ rfl rfl
      (by decide) rfl]
    have h16 : wideSound.sixteenBit_ = true := rfl
    have hst : wideSound.stereo_ = true := rfl
    simp only [SoundSource.mixRoutine, h16, hst, Bool.not_true, if_true,
      Bool.false_eq_true, if_false]
    rw [MixStereoToStereoIP_synth (edgeVoice wideSound) _ _ _ _ _ 256 1 0 hvolA (by decide)
      demo_intAdd demo_fractAdd]
    rfl
  · rw [Mix_uncompressed (edgeVoice wideSoundBeyond) wideSoundBeyond demoEnv _ _ _ _ _ rfl rfl
      (by decide) rfl]
    have h16 : wideSoundBeyond.sixteenBit_ = true := rfl
    have hst : wideSoundBeyond.stereo_ = true := rfl
    simp only [SoundSource.mixRoutine, h16, hst, Bool.not_true, if_true,
      Bool.false_eq_true, if_false]
    rw [MixStereoToStereoIP_synth (edgeVoice wideSoundBeyond) _ _ _ _ _ 256 1 0 hvolB
      (by decide) demo_intAdd demo_fractAdd]
    rfl

/-- C8: for a 16-bit buffer of stereo frames that all hold left = `L` and
right = `-L` (`L` and `-L` both 16-bit values), with the guard frame behind the
end as `FixInterpolation` leaves it (the frame at the loop start for a looped
buffer, zero for a one-shot one), a cursor on a frame inside the buffer, a
fractional cursor in 16 bits, a non-negative playback frequency and every gain:
`MixStereoToMono` and `MixStereoToMonoIP` return and leave the accumulation
buffer `dest` exactly as it was, that is, they add 0 to every frame. -/
theorem stereo_to_mono_cancels (v : SoundSource) (g : ℚ) (sound : Sound) (dest : Nat → Int)
    (n : Nat) (mixRate L : Int) (h16 : sound.sixteenBit_ = true)
    (hL : -32767 ≤ L ∧ L ≤ 32767)
    (hframes : ∀ a : Int, sound.start ≤ a → a < sound.end_ → (a - sound.start) % 4 = 0 →
      sound.shortAt a = L ∧ sound.shortAt (a + 2) = -L)
    (hguard : if sound.looped_ then
        sound.shortAt sound.end_ = L ∧ sound.shortAt (sound.end_ + 2) = -L
      else sound.shortAt sound.end_ = 0 ∧ sound.shortAt (sound.end_ + 2) = 0)
    (hend : (sound.end_ - sound.start) % 4 = 0)
    (hloop : sound.looped_ = true → sound.start ≤ sound.repeat_ ∧
      sound.repeat_ < sound.end_ ∧ (sound.repeat_ - sound.start) % 4 = 0)
    (hpos : sound.start ≤ v.position_ ∧ v.position_ < sound.end_ ∧
      (v.position_ - sound.start) % 4 = 0)
    (hfp : 0 ≤ v.fractPosition_ ∧ v.fractPosition_ ≤ 65535)
    (hfreq : 0 ≤ v.frequency_) (hrate : 0 < mixRate) (hdest : ∀ i, InInt32 (dest i)) :
    (∃ w, v.MixStereoToMono g sound dest n mixRate = some (w, dest)) ∧
    (∃ w, v.MixStereoToMonoIP g sound dest n mixRate = some (w, dest)) := by
  obtain ⟨z, hz⟩ := MixZeroVolume_total v sound n mixRate (fun hl => (hloop hl).2.1)
  constructor
  · unfold SoundSource.MixStereoToMono
    simp only
    split_ifs with hv
    · rw [hz]
      exact ⟨z, rfl⟩
    · apply cancelling_loops v sound dest n mixRate h16 hend hloop hpos hfp hfreq hrate hdest
      intro st hst
      rw [stereo_sum_cancels sound L st dest hframes hst]
      simp only [Int.zero_tdiv, zero_mul, wrap32_zero]
  · unfold SoundSource.MixStereoToMonoIP
    simp only
    split_ifs with hv
    · rw [hz]
      exact ⟨z, rfl⟩
    · apply cancelling_loops v sound dest n mixRate h16 hend hloop hpos hfp hfreq hrate hdest
      intro st hst
      rw [stereo_ip_sum_cancels sound L st dest hL hframes hguard hend hst]
      simp only [Int.zero_tdiv, zero_mul, wrap32_zero]

/-- Witness for C8: the voice `cancelVoice` on the two frames (100, -100) of
`cancelSound`, mixed for four frames at the mix rate 44100 into a buffer of
zeros: both routines return and leave the buffer as it was. -/
theorem stereo_to_mono_cancels_witness :
    (∃ w, cancelVoice.MixStereoToMono 1 cancelSound (fun _ => 0) 4 44100
      = some (w, fun _ => 0)) ∧
    (∃ w, cancelVoice.MixStereoToMonoIP 1 cancelSound (fun _ => 0) 4 44100
      = some (w, fun _ => 0)) := by
  refine stereo_to_mono_cancels cancelVoice 1 cancelSound (fun _ => 0) 4 44100 100 rfl
    (by decide) ?_ ?_ (by decide) (fun h => absurd h (by decide)) (by decide) (by decide)
    ?_ (by decide) (fun _ => show InInt32 0 from ⟨by decide, by decide⟩)
  · intro a h1 h2 h3
    have h1 : (1000 : Int) ≤ a := h1
    have h2 : a < 1008 := h2
    have h3 : (a - 1000) % 4 = 0 := h3
    have ha : a = 1000 ∨ a = 1004 := by omega
    rcases ha with rfl | rfl
    · decide
    · decide
  · decide
  · show (0 : ℚ) ≤ 33075
    norm_num

end Urho3D
